import Mathlib

/-!
# Delivery tracking backend: order lifecycle and driver assignment

A shallow embedding of `backend/routes/orders.js`, `backend/routes/location.js`
and `backend/middleware/auth.js`: the Joi schemas, the store calls the route
handlers issue (as pure functions on the tables), the authentication
middleware, the mutating handlers POST /orders, PATCH /orders/:id/status,
POST /orders/:id/assign-driver and POST /location/update, and the grouping of
GET /location/active-drivers.

Conventions of the embedding.
* Row keys (UUIDs in the database) are natural numbers; they are only ever
  compared for equality.
* A JavaScript number that passes `Joi.number()` is a finite double, hence a
  rational; the schemas only compare numbers, so `ℚ` is exact.
* Each table is a list of rows in insertion order.
* Every store call returns `{ data, error }`; whether a call fails for a reason
  outside the tables (network, constraint, permission) is an input of the
  handler: one flag per call.
* The two database procedures called through `rpc` (`update_order_status`,
  `find_nearest_driver`) are not part of the JavaScript sources; handlers take
  them as arguments. `specUpdateOrderStatus` is `update_order_status` as §4.1
  of the specification describes the transition operation.
-/

namespace DeliveryTracking

/-! ## Request bodies and Joi validation -/

/-- One key of a parsed JSON body as a Joi rule sees it: the key is absent, or
carries a value that cannot be read at the declared base type (`illTyped`:
e.g. `null`, an object where a number is declared, `NaN`), or a value of that
type. -/
inductive Field (α : Type) where
  | absent : Field α
  | illTyped : Field α
  | val (a : α) : Field α
  deriving DecidableEq, Repr

/-- A `.required()` key: only a present, well-typed value passes. -/
def Field.required {α : Type} : Field α → Option α
  | .val a => some a
  | _ => none

/-- An `.optional()` key: absent passes with no value, a well-typed value is
handed to the rules, anything else fails. -/
def Field.optional {α : Type} : Field α → Option (Option α)
  | .absent => some none
  | .val a => some (some a)
  | .illTyped => none

/-- The constant `Number.MAX_SAFE_INTEGER`. -/
def maxSafeInteger : ℚ := 9007199254740991

/-- The rule `Joi.number()` without `.unsafe()`: the value lies between
`Number.MIN_SAFE_INTEGER` and `Number.MAX_SAFE_INTEGER`. -/
def safeNumber (q : ℚ) : Bool :=
  decide (-maxSafeInteger ≤ q) && decide (q ≤ maxSafeInteger)

/-- The rule `Joi.number()` followed by the rules `ok`, on a present value. -/
def joiNumber (ok : ℚ → Bool) (q : ℚ) : Option ℚ :=
  if safeNumber q && ok q then some q else none

/-- The rule `Joi.string()`: the empty string is not allowed. -/
def joiString (s : String) : Option String :=
  if s = "" then none else some s

/-- The rule `.integer()`. -/
def isInteger (q : ℚ) : Bool := decide (q.den = 1)

/-- The rules `.min(lo).max(hi)`. -/
def inRange (lo hi : ℚ) (q : ℚ) : Bool := decide (lo ≤ q) && decide (q ≤ hi)

/-- The rule `.positive()`. -/
def positive (q : ℚ) : Bool := decide (0 < q)

/-- An element of `items` in a POST /orders body. `unknownKeys` lists the keys
of the object other than the three the schema declares. -/
structure ItemBody where
  name : Field String
  quantity : Field ℚ
  price : Field ℚ
  unknownKeys : List String
  deriving DecidableEq, Repr

/-- A validated line item. -/
structure Item where
  name : String
  quantity : ℚ
  price : ℚ
  deriving DecidableEq, Repr

/-- The body of POST /orders. -/
structure CreateOrderBody where
  restaurant_id : Field String
  items : Field (List ItemBody)
  total_amount : Field ℚ
  delivery_address : Field String
  delivery_lat : Field ℚ
  delivery_lng : Field ℚ
  pickup_lat : Field ℚ
  pickup_lng : Field ℚ
  unknownKeys : List String
  deriving DecidableEq, Repr

/-- The value `createOrderSchema.validate` returns for a valid body. -/
structure OrderSpec where
  restaurant_id : String
  items : List Item
  total_amount : ℚ
  delivery_address : String
  delivery_lat : ℚ
  delivery_lng : ℚ
  pickup_lat : ℚ
  pickup_lng : ℚ
  deriving DecidableEq, Repr

/-- The item schema inside `createOrderSchema`:
`name: Joi.string().required()`,
`quantity: Joi.number().integer().min(1).required()`,
`price: Joi.number().positive().required()`; other keys are not allowed. -/
def itemSchema (it : ItemBody) : Option Item := do
  let name ← it.name.required >>= joiString
  let quantity ← it.quantity.required >>= joiNumber (fun q => isInteger q && decide (1 ≤ q))
  let price ← it.price.required >>= joiNumber positive
  if it.unknownKeys = [] then some ⟨name, quantity, price⟩ else none

/-- The rule `Joi.string().uuid()`; `isUuid` is Joi's test of the string's format. -/
def joiUuid (isUuid : String → Bool) (s : String) : Option String :=
  (joiString s).bind (fun r => if isUuid r then some r else none)

/-- The rule `Joi.array().items(itemSchema).min(1)`: every element passes the item
schema and there is at least one. -/
def joiItems (raw : List ItemBody) : Option (List Item) :=
  (raw.mapM itemSchema).bind (fun items => if 1 ≤ items.length then some items else none)

/-- The schema `createOrderSchema`; `none` stands for a validation error.
`isUuid` is Joi's `.uuid()` test of a string. Keys other than the declared
ones are not allowed. -/
def createOrderSchema (isUuid : String → Bool) (b : CreateOrderBody) : Option OrderSpec := do
  let restaurant_id ← b.restaurant_id.required >>= joiUuid isUuid
  let items ← b.items.required >>= joiItems
  let total_amount ← b.total_amount.required >>= joiNumber positive
  let delivery_address ← b.delivery_address.required >>= joiString
  let delivery_lat ← b.delivery_lat.required >>= joiNumber (inRange (-90) 90)
  let delivery_lng ← b.delivery_lng.required >>= joiNumber (inRange (-180) 180)
  let pickup_lat ← b.pickup_lat.required >>= joiNumber (inRange (-90) 90)
  let pickup_lng ← b.pickup_lng.required >>= joiNumber (inRange (-180) 180)
  if b.unknownKeys = [] then
    some ⟨restaurant_id, items, total_amount, delivery_address,
      delivery_lat, delivery_lng, pickup_lat, pickup_lng⟩
  else none

/-- The body of PATCH /orders/:id/status. -/
structure UpdateStatusBody where
  status : Field String
  description : Field String
  location_lat : Field ℚ
  location_lng : Field ℚ
  unknownKeys : List String
  deriving DecidableEq, Repr

/-- The value `updateStatusSchema.validate` returns for a valid body. -/
structure StatusUpdate where
  status : String
  description : Option String
  location_lat : Option ℚ
  location_lng : Option ℚ
  deriving DecidableEq, Repr

/-- The statuses `updateStatusSchema` admits (`.valid(...)`). -/
def requestableStatuses : List String :=
  ["accepted", "preparing", "ready_for_pickup", "picked_up", "out_for_delivery",
   "delivered", "cancelled"]

/-- An optional key: absent, or a value that passes `rule`. -/
def optionalKey {α : Type} (rule : α → Option α) (f : Field α) : Option (Option α) :=
  match f.optional with
  | none => none
  | some none => some none
  | some (some a) => (rule a).map some

/-- The rule `Joi.string().valid(...)`: the string is one of the listed ones. -/
def joiValid (allowed : List String) (s : String) : Option String :=
  if allowed.contains s then some s else none

/-- The schema `updateStatusSchema`; `none` stands for a validation error.
Keys other than the declared ones are not allowed. -/
def updateStatusSchema (b : UpdateStatusBody) : Option StatusUpdate := do
  let status ← b.status.required >>= joiValid requestableStatuses
  let description ← optionalKey joiString b.description
  let location_lat ← optionalKey (joiNumber (inRange (-90) 90)) b.location_lat
  let location_lng ← optionalKey (joiNumber (inRange (-180) 180)) b.location_lng
  if b.unknownKeys = [] then some ⟨status, description, location_lat, location_lng⟩ else none

/-! ## Tables -/

/-- A row of `orders` (the columns the handlers read or write). -/
structure Order where
  id : Nat
  customer_id : Nat
  driver_id : Option Nat
  order_number : String
  status : String
  restaurant_id : String
  items : List Item
  total_amount : ℚ
  delivery_address : String
  delivery_lat : ℚ
  delivery_lng : ℚ
  pickup_lat : ℚ
  pickup_lng : ℚ
  deriving DecidableEq, Repr

/-- A row of `drivers`. -/
structure Driver where
  id : Nat
  vehicle_number : String
  current_status : String
  deriving DecidableEq, Repr

/-- A row of `order_tracking`. -/
structure TrackingEntry where
  order_id : Nat
  status : String
  description : Option String
  location_lat : Option ℚ
  location_lng : Option ℚ
  deriving DecidableEq, Repr

/-- A row of `driver_locations`. -/
structure LocationSample where
  driver_id : Nat
  lat : ℚ
  lng : ℚ
  accuracy : Option ℚ
  speed : Option ℚ
  heading : Option ℚ
  timestamp : Nat
  deriving DecidableEq, Repr

/-- The tables behind `supabaseAdmin`. -/
structure Store where
  orders : List Order
  drivers : List Driver
  order_tracking : List TrackingEntry
  driver_locations : List LocationSample
  deriving DecidableEq, Repr

/-- The store with no rows. -/
def Store.empty : Store := ⟨[], [], [], []⟩

/-- The result of `.single()`: the row when the query matched exactly one, an
error otherwise. -/
def single {α : Type} : List α → Option α
  | [r] => some r
  | _ => none

/-- The rows of `orders` with the given id: `.from('orders').eq('id', id)`. -/
def ordersById (st : Store) (id : Nat) : List Order :=
  st.orders.filter (fun o => o.id = id)

/-- The statuses of an order's tracking entries, oldest first. -/
def trackingLog (st : Store) (id : Nat) : List String :=
  (st.order_tracking.filter (fun e => e.order_id = id)).map (fun e => e.status)

/-- An order joined with its tracking entries, as the nested `select` of the
read queries returns it. -/
structure OrderDetails where
  order : Order
  order_tracking : List TrackingEntry
  deriving DecidableEq, Repr

/-- The query `.from('orders').select(..., order_tracking(...)).eq('id', id).single()`;
`none` is a `null` data. -/
def orderDetails (st : Store) (id : Nat) : Option OrderDetails :=
  (single (ordersById st id)).map
    (fun o => ⟨o, st.order_tracking.filter (fun e => e.order_id = id)⟩)

/-- A row of `driver_locations` joined with its driver, as the nested `select`
of GET /location/active-drivers returns it: the sample's columns and the
embedded `driver` object, `null` when the embedding yields no row. -/
structure ActiveRow where
  sample : LocationSample
  driver : Option Driver
  deriving DecidableEq, Repr

/-- A row of `users` (the columns the middleware reads). -/
structure UserRow where
  id : Nat
  name : String
  role : String
  deriving DecidableEq, Repr

/-- The columns `name`, `phone` of a row of `users`, as the nested `select`
`customer:users(name, phone)` reads them. -/
structure Contact where
  id : Nat
  name : String
  phone : String
  deriving DecidableEq, Repr

/-- A row of `restaurants` (the columns the nested `select` reads). -/
structure RestaurantRow where
  id : String
  name : String
  address : String
  phone : String
  deriving DecidableEq, Repr

/-- An order as GET /orders/:id returns it: the row with the embedded
customer, driver, restaurant (each `null` when the embedding yields no row)
and tracking entries. -/
structure OrderView where
  order : Order
  customer : Option Contact
  driver : Option Driver
  restaurant : Option RestaurantRow
  order_tracking : List TrackingEntry
  deriving DecidableEq, Repr

/-! ## Database procedures reached through `rpc` -/

/-- The arguments the status handler passes to `update_order_status`. -/
structure UpdateStatusArgs where
  order_uuid : Nat
  new_status : String
  description : Option String
  location_lat : Option ℚ
  location_lng : Option ℚ
  deriving DecidableEq, Repr

/-- The procedure `update_order_status` as the handler sees it: `none` when
the call reports an error (the procedure's writes are then rolled back), the
new tables otherwise. -/
abbrev UpdateOrderStatusRpc := Store → UpdateStatusArgs → Option Store

/-- The arguments the assignment handler passes to `find_nearest_driver`. -/
structure NearestArgs where
  pickup_lat : ℚ
  pickup_lng : ℚ
  max_distance : ℚ
  deriving DecidableEq, Repr

/-- A row returned by `find_nearest_driver`. -/
structure Candidate where
  driver_id : Nat
  driver_name : String
  vehicle_number : String
  distance : ℚ
  deriving DecidableEq, Repr

/-- The procedure `find_nearest_driver` as the handler sees it: `none` when
the call reports an error or a `null` data, the returned rows otherwise. -/
abbrev FindNearestDriverRpc := Store → NearestArgs → Option (List Candidate)

/-! ## Responses -/

/-- The JSON body of a response. -/
inductive ResBody where
  | validationError : ResBody
  | error (msg : String) : ResBody
  | order (o : Order) : ResBody
  | updatedOrder (o : Option OrderDetails) : ResBody
  | assigned (message : String) (driver : Candidate) : ResBody
  | location (l : LocationSample) : ResBody
  | locations (l : List ActiveRow) : ResBody
  | history (l : List LocationSample) : ResBody
  | orderView (v : OrderView) : ResBody
  deriving DecidableEq, Repr

/-- What one run of a handler amounts to: the response, the tables afterwards
and the procedure calls it issued. -/
structure Outcome where
  code : Nat
  body : ResBody
  store : Store
  statusCalls : List UpdateStatusArgs
  nearestCalls : List NearestArgs
  deriving DecidableEq, Repr

/-- A response sent without any write or procedure call. -/
def reject (code : Nat) (body : ResBody) (st : Store) : Outcome :=
  ⟨code, body, st, [], []⟩

/-! ## POST /orders -/

/-- Which store calls of POST /orders fail. -/
structure CreateFaults where
  insertOrder : Bool
  insertTracking : Bool
  deriving DecidableEq, Repr

/-- The handler `router.post('/')`, after `authenticateCustomer` has set
`req.user` to `user`. `newId` is the key the database gives the new row and
`orderNumber` the generated `ORD-...` string; the insert reports an error when
the key is already in use. -/
def postOrder (isUuid : String → Bool) (st : Store) (user : Nat) (body : CreateOrderBody)
    (newId : Nat) (orderNumber : String) (f : CreateFaults) : Outcome :=
  match createOrderSchema isUuid body with
  | none => reject 400 .validationError st
  | some value =>
    let order : Order :=
      { id := newId, customer_id := user, driver_id := none, order_number := orderNumber,
        status := "pending", restaurant_id := value.restaurant_id, items := value.items,
        total_amount := value.total_amount, delivery_address := value.delivery_address,
        delivery_lat := value.delivery_lat, delivery_lng := value.delivery_lng,
        pickup_lat := value.pickup_lat, pickup_lng := value.pickup_lng }
    if f.insertOrder || decide (ordersById st newId ≠ []) then
      reject 500 (.error "Failed to create order") st
    else
      let st1 : Store := { st with orders := st.orders ++ [order] }
      let entry : TrackingEntry := ⟨order.id, "pending", some "Order placed successfully", none, none⟩
      let st2 : Store :=
        if f.insertTracking then st1
        else { st1 with order_tracking := st1.order_tracking ++ [entry] }
      ⟨201, .order order, st2, [], []⟩

/-! ## PATCH /orders/:id/status -/

/-- Which store calls of PATCH /orders/:id/status fail (the procedure call
apart, whose result is the procedure's). -/
structure PatchFaults where
  selectOrder : Bool
  selectUpdated : Bool
  deriving DecidableEq, Repr

/-- The handler `router.patch('/:id/status')`, after `authenticateDriver` has
set `req.user` to `user`. -/
def patchOrderStatus (rpc : UpdateOrderStatusRpc) (st : Store) (user id : Nat)
    (body : UpdateStatusBody) (f : PatchFaults) : Outcome :=
  match updateStatusSchema body with
  | none => reject 400 .validationError st
  | some value =>
    let row :=
      if f.selectOrder then none
      else single (st.orders.filter (fun o => o.id = id ∧ o.driver_id = some user))
    match row with
    | none => reject 404 (.error "Order not found or not assigned to you") st
    | some _ =>
      let args : UpdateStatusArgs :=
        ⟨id, value.status, value.description, value.location_lat, value.location_lng⟩
      match rpc st args with
      | none => ⟨500, .error "Failed to update order status", st, [args], []⟩
      | some st1 =>
        let updatedOrder := if f.selectUpdated then none else orderDetails st1 id
        ⟨200, .updatedOrder updatedOrder, st1, [args], []⟩

/-! ## POST /orders/:id/assign-driver -/

/-- Which store calls of POST /orders/:id/assign-driver fail (the procedure
call apart). -/
structure AssignFaults where
  selectOrder : Bool
  updateOrder : Bool
  updateDriver : Bool
  insertTracking : Bool
  deriving DecidableEq, Repr

/-- The write `.from('orders').update(driver_id, status 'assigned').eq('id', id)`. -/
def assignOrderRow (st : Store) (id driver : Nat) : Store :=
  { st with orders := st.orders.map (fun o =>
      if o.id = id then { o with driver_id := some driver, status := "assigned" } else o) }

/-- The write `.from('drivers').update(current_status 'busy').eq('id', driver)`. -/
def markDriverBusy (st : Store) (driver : Nat) : Store :=
  { st with drivers := st.drivers.map (fun d =>
      if d.id = driver then { d with current_status := "busy" } else d) }

/-- The tracking entry the assignment handler inserts. -/
def assignmentEntry (id : Nat) (driver : Candidate) : TrackingEntry :=
  ⟨id, "assigned",
    some ("Assigned to " ++ driver.driver_name ++ " (" ++ driver.vehicle_number ++ ")"),
    none, none⟩

/-- The second half of `router.post('/:id/assign-driver')`: the three writes
that follow the choice of `driver`, and the response. -/
def assignWrites (st : Store) (id : Nat) (driver : Candidate) (q : NearestArgs)
    (f : AssignFaults) : Outcome :=
  if f.updateOrder then
    ⟨500, .error "Failed to assign driver", st, [], [q]⟩
  else
    let st1 := assignOrderRow st id driver.driver_id
    let st2 := if f.updateDriver then st1 else markDriverBusy st1 driver.driver_id
    let st3 : Store :=
      if f.insertTracking then st2
      else { st2 with order_tracking := st2.order_tracking ++ [assignmentEntry id driver] }
    ⟨200, .assigned "Driver assigned successfully" driver, st3, [], [q]⟩

/-- The handler `router.post('/:id/assign-driver')`, after `authenticateAdmin`. -/
def postAssignDriver (nearest : FindNearestDriverRpc) (st : Store) (id : Nat)
    (f : AssignFaults) : Outcome :=
  let row := if f.selectOrder then none else single (ordersById st id)
  match row with
  | none => reject 404 (.error "Order not found") st
  | some order =>
    if order.driver_id.isSome then
      reject 400 (.error "Order already has a driver assigned") st
    else
      let q : NearestArgs := ⟨order.pickup_lat, order.pickup_lng, 50⟩
      match nearest st q with
      | none => ⟨404, .error "No available drivers found nearby", st, [], [q]⟩
      | some [] => ⟨404, .error "No available drivers found nearby", st, [], [q]⟩
      | some (driver :: _) => assignWrites st id driver q f

/-- The first half of `router.post('/:id/assign-driver')`, up to the choice of
the driver (`const driver = nearestDriver[0]`): either the response the handler
sends without writing, or the chosen row and the query it came from. -/
def assignRead (nearest : FindNearestDriverRpc) (st : Store) (id : Nat) (f : AssignFaults) :
    Outcome ⊕ (Candidate × NearestArgs) :=
  let row := if f.selectOrder then none else single (ordersById st id)
  match row with
  | none => .inl (reject 404 (.error "Order not found") st)
  | some order =>
    if order.driver_id.isSome then
      .inl (reject 400 (.error "Order already has a driver assigned") st)
    else
      let q : NearestArgs := ⟨order.pickup_lat, order.pickup_lng, 50⟩
      match nearest st q with
      | none => .inl ⟨404, .error "No available drivers found nearby", st, [], [q]⟩
      | some [] => .inl ⟨404, .error "No available drivers found nearby", st, [], [q]⟩
      | some (driver :: _) => .inr (driver, q)

/-- Two runs of the assignment handler, for the orders `id1` and `id2`, that
overlap: the handler yields at every `await`, and here both runs complete
their lookups on the tables `st` before the writes of the first run, which
come before the writes of the second. The result is the two responses; the
tables after both runs are the `store` of the second. -/
def assignOverlapping (nearest : FindNearestDriverRpc) (st : Store) (id1 id2 : Nat)
    (f1 f2 : AssignFaults) : Outcome × Outcome :=
  match assignRead nearest st id1 f1, assignRead nearest st id2 f2 with
  | .inl out1, .inl out2 => (out1, out2)
  | .inl out1, .inr (c2, q2) => (out1, assignWrites st id2 c2 q2 f2)
  | .inr (c1, q1), .inl out2 =>
      (assignWrites st id1 c1 q1 f1, { out2 with store := (assignWrites st id1 c1 q1 f1).store })
  | .inr (c1, q1), .inr (c2, q2) =>
      (assignWrites st id1 c1 q1 f1,
        assignWrites (assignWrites st id1 c1 q1 f1).store id2 c2 q2 f2)

/-! ## Authentication middleware -/

/-- What `verifyToken` finds in the request: no bearer token, a token that
`jwt.verify` rejects, or a token whose payload carries the user id. -/
inductive Credential where
  | missing : Credential
  | invalid : Credential
  | verified (userId : Nat) : Credential
  deriving DecidableEq, Repr

/-- The three middlewares `authenticateCustomer`, `authenticateDriver` and
`authenticateAdmin` differ in the role and in the message: `verifyToken`, then
the lookup of the user by id and role with `.single()`. The result is the
response sent by the middleware, or the user row placed in `req.user`.
`selectFails` says that the lookup reports an error. -/
def authenticate (role message : String) (users : List UserRow) (cred : Credential)
    (selectFails : Bool) : (Nat × ResBody) ⊕ UserRow :=
  match cred with
  | .missing => .inl (401, .error "Access token required")
  | .invalid => .inl (401, .error "Invalid token")
  | .verified uid =>
    let row :=
      if selectFails then none
      else single (users.filter (fun u => u.id = uid ∧ u.role = role))
    match row with
    | none => .inl (403, .error message)
    | some user => .inr user

/-- The middleware `authenticateDriver`. -/
def authenticateDriver (users : List UserRow) (cred : Credential) (selectFails : Bool) :
    (Nat × ResBody) ⊕ UserRow :=
  authenticate "driver" "Driver access required" users cred selectFails

/-- The route `router.patch('/:id/status', authenticateDriver, ...)`: the
middleware, then the handler with `req.user` set. -/
def patchStatusRoute (rpc : UpdateOrderStatusRpc) (users : List UserRow) (st : Store)
    (cred : Credential) (authFails : Bool) (id : Nat) (body : UpdateStatusBody)
    (f : PatchFaults) : Outcome :=
  match authenticateDriver users cred authFails with
  | .inl (code, res) => reject code res st
  | .inr user => patchOrderStatus rpc st user.id id body f

/-! ## POST /location/update -/

/-- The body of POST /location/update. -/
structure LocationBody where
  lat : Field ℚ
  lng : Field ℚ
  accuracy : Field ℚ
  speed : Field ℚ
  heading : Field ℚ
  unknownKeys : List String
  deriving DecidableEq, Repr

/-- The value `locationUpdateSchema.validate` returns for a valid body. -/
structure LocationUpdate where
  lat : ℚ
  lng : ℚ
  accuracy : Option ℚ
  speed : Option ℚ
  heading : Option ℚ
  deriving DecidableEq, Repr

/-- The schema `locationUpdateSchema`; `none` stands for a validation error.
Keys other than the declared ones are not allowed. -/
def locationUpdateSchema (b : LocationBody) : Option LocationUpdate := do
  let lat ← b.lat.required >>= joiNumber (inRange (-90) 90)
  let lng ← b.lng.required >>= joiNumber (inRange (-180) 180)
  let accuracy ← optionalKey (joiNumber positive) b.accuracy
  let speed ← optionalKey (joiNumber (fun q => decide (0 ≤ q))) b.speed
  let heading ← optionalKey (joiNumber (inRange 0 360)) b.heading
  if b.unknownKeys = [] then some ⟨lat, lng, accuracy, speed, heading⟩ else none

/-- The handler `router.post('/update')` of `routes/location.js`, after
`authenticateDriver` has set `req.user` to `user`. `now` is the time
`new Date()` reads; `insertFails` says that the insert reports an error. -/
def postLocationUpdate (st : Store) (user : Nat) (body : LocationBody) (now : Nat)
    (insertFails : Bool) : Outcome :=
  match locationUpdateSchema body with
  | none => reject 400 .validationError st
  | some value =>
    let locationData : LocationSample :=
      { driver_id := user, lat := value.lat, lng := value.lng, accuracy := value.accuracy,
        speed := value.speed, heading := value.heading, timestamp := now }
    if insertFails then reject 500 (.error "Failed to update location") st
    else
      ⟨200, .location locationData,
        { st with driver_locations := st.driver_locations ++ [locationData] }, [], []⟩

/-- The route `router.post('/update', authenticateDriver, ...)`. -/
def locationUpdateRoute (users : List UserRow) (st : Store) (cred : Credential)
    (authFails : Bool) (body : LocationBody) (now : Nat) (insertFails : Bool) : Outcome :=
  match authenticateDriver users cred authFails with
  | .inl (code, res) => reject code res st
  | .inr user => postLocationUpdate st user.id body now insertFails

/-! ## GET /location/active-drivers -/

/-- The query of GET /location/active-drivers:
`.from('driver_locations').select('*, driver:drivers(...)')
.eq('drivers.current_status', 'available').order('timestamp', descending)`.
The filter names a column of the embedded table `drivers`, and the embedding
is not an inner join (no `!inner`): such a filter restricts the embedded rows
and not the rows of `driver_locations`, so a sample whose driver is not
`available` is returned with `driver` set to `null`. -/
def fetchActiveLocations (st : Store) : List ActiveRow :=
  (st.driver_locations.insertionSort (fun a b => b.timestamp ≤ a.timestamp)).map (fun s =>
    ⟨s, (st.drivers.find? (fun d => d.id = s.driver_id)).filter
      (fun d => d.current_status = "available")⟩)

/-- One step of the `reduce` of GET /location/active-drivers. The accumulator
is the object `acc`, keyed by `driver_id`: its values in the order in which
their keys were first set (every value carries its key as `driver_id`).
`acc[driverId] = location` appends under a new key and replaces in place
under an existing one. -/
def latestStep (acc : List ActiveRow) (location : ActiveRow) : List ActiveRow :=
  match acc.find? (fun r => r.sample.driver_id = location.sample.driver_id) with
  | none => acc ++ [location]
  | some cur =>
    if cur.sample.timestamp < location.sample.timestamp then
      acc.map (fun r => if r.sample.driver_id = location.sample.driver_id then location else r)
    else acc

/-- The grouping `locations.reduce(..., {})` followed by `Object.values`. -/
def driverLocations (locations : List ActiveRow) : List ActiveRow :=
  locations.foldl latestStep []

/-- The handler `router.get('/active-drivers')`; `selectFails` says that the
query reports an error. -/
def getActiveDrivers (st : Store) (selectFails : Bool) : Outcome :=
  if selectFails then reject 500 (.error "Failed to fetch active driver locations") st
  else ⟨200, .locations (driverLocations (fetchActiveLocations st)), st, [], []⟩

/-! ## GET /location/driver/:driverId/history -/

/-- A number that `parseInt` returns, as far as this model follows it: `NaN`,
a safe integer, given exactly, or a number beyond the safe integers (of
magnitude at least 2^53, or infinite), which is a rounded double whose value
is not given here. -/
inductive ParsedInt where
  | nan : ParsedInt
  | whole (n : Int) : ParsedInt
  | beyond : ParsedInt
  deriving DecidableEq, Repr

/-- The `hours` query parameter as `parseInt` reads it: absent (the default
24 applies), a plain decimal numeral such as `24`, `1.5` or `-3`, that is an
optional minus sign, digits, and optionally a point and more digits (given by
its value), or any other value, given by what `parseInt` makes of it. -/
inductive HoursParam where
  | absent : HoursParam
  | decimal (q : ℚ) : HoursParam
  | other (parsed : ParsedInt) : HoursParam
  deriving DecidableEq, Repr

/-- An integer as a number: itself when it is a safe integer, where a double
holds it exactly. -/
def safeWhole (n : Int) : ParsedInt :=
  if -maxSafeInteger ≤ (n : ℚ) ∧ (n : ℚ) ≤ maxSafeInteger then .whole n else .beyond

/-- The value of `parseInt(hours)` with `hours = 24` by default: `parseInt`
keeps the integer part of a decimal numeral. -/
def parseIntHours : HoursParam → ParsedInt
  | .absent => .whole 24
  | .decimal q => safeWhole (q.num.tdiv q.den)
  | .other .nan => .nan
  | .other (.whole n) => safeWhole n
  | .other .beyond => .beyond

/-- The largest time value of a `Date`, in milliseconds from the epoch. -/
def maxTimeValue : Int := 8640000000000000

/-- Milliseconds in an hour. -/
def msPerHour : Int := 3600000

/-- The last millisecond of the year 9999, in milliseconds from the epoch. -/
def maxClock : Nat := 253402300799999

/-- The handler `router.get('/driver/:driverId/history')`. `now` is the time
`new Date()` reads, in milliseconds from the epoch, taken to be a time up to
the year 9999 (`maxClock`); the server's local time is taken at a fixed offset
from UTC, so that `setHours(getHours() - n)` moves the time by `n` hours, and
up to `maxClock` that arithmetic is exact in doubles. `toISOString` throws on
an invalid date and the `catch` answers 500: the date is invalid when the
hours are `NaN`, when they are beyond the safe integers (they then move any
such time out of the range of `Date`), and when the time moved by `n` hours is
beyond the range of `Date`. `selectFails` says that the query reports an
error. Rows with equal timestamps come in table order. -/
def getLocationHistory (st : Store) (driverId : Nat) (hours : HoursParam) (now : Nat)
    (selectFails : Bool) : Outcome :=
  match parseIntHours hours with
  | .nan => reject 500 (.error "Internal server error") st
  | .beyond => reject 500 (.error "Internal server error") st
  | .whole n =>
    let cutoffTime : Int := (now : Int) - n * msPerHour
    if cutoffTime < -maxTimeValue ∨ maxTimeValue < cutoffTime then
      reject 500 (.error "Internal server error") st
    else if selectFails then reject 500 (.error "Failed to fetch location history") st
    else
      ⟨200, .history
        ((st.driver_locations.filter
            (fun s => s.driver_id = driverId ∧ cutoffTime ≤ (s.timestamp : Int))).insertionSort
          (fun a b => a.timestamp ≤ b.timestamp)), st, [], []⟩

/-! ## GET /orders/:id -/

/-- The handler `router.get('/:id')` of `routes/orders.js`. The route has no
authentication middleware: `cred` is what the request's `Authorization`
header holds, and the handler does not read it. `customers` and `restaurants`
are the tables the nested `select` embeds. `selectFails` says that the query
reports an error. -/
def getOrder (customers : List Contact) (restaurants : List RestaurantRow) (st : Store)
    (_cred : Credential) (id : Nat) (selectFails : Bool) : Outcome :=
  let row := if selectFails then none else single (ordersById st id)
  match row with
  | none => reject 404 (.error "Order not found") st
  | some order =>
    ⟨200, .orderView
      { order := order,
        customer := customers.find? (fun c => c.id = order.customer_id),
        driver := st.drivers.find? (fun d => some d.id = order.driver_id),
        restaurant := restaurants.find? (fun r => r.id = order.restaurant_id),
        order_tracking := st.order_tracking.filter (fun e => e.order_id = id) },
      st, [], []⟩

/-! ## GET /orders (admin listing) -/

/-- A numeric query parameter (`page`, `limit`): absent, or the string of the
decimal numeral of `n`, without sign or leading zero. Express hands query
parameters to the handler as strings. The numerals followed here have up to
five digits: with them every number of the handler is a safe integer, so that
its arithmetic in doubles is exact and `String` of it is its decimal numeral. -/
inductive QueryNumber where
  | absent : QueryNumber
  | digits (n : Fin 100000) : QueryNumber
  deriving DecidableEq, Repr

/-- The number the string `String(a) + String(b)` reads as, for an integer `a`
and the decimal numeral of `b`: the digits of `b` appended to those of `a`. -/
def concatDecimal (a : Int) (b : Nat) : Int :=
  if a < 0 then -((-a) * 10 ^ (Nat.toDigits 10 b).length + b)
  else a * 10 ^ (Nat.toDigits 10 b).length + b

/-- The value of `const offset = (page - 1) * limit` with `page = 1`,
`limit = 20` by default: `-` and `*` convert a string operand to a number. -/
def listOffset (page limit : QueryNumber) : Int :=
  let pageNumber : Int := match page with
    | .absent => 1
    | .digits p => (p.val : Int)
  let limitNumber : Int := match limit with
    | .absent => 20
    | .digits l => (l.val : Int)
  (pageNumber - 1) * limitNumber

/-- The value of `offset + limit - 1`, the second argument of `.range`: when
`limit` is a string, `+` is string concatenation, and `- 1` converts the
result back to a number. -/
def listRangeEnd (page limit : QueryNumber) : Int :=
  match limit with
  | .absent => listOffset page limit + 20 - 1
  | .digits l => concatDecimal (listOffset page limit) l.val - 1

/-- The rows `.range(first, last)` returns from a result, both ends included,
for a range that starts at or after 0. -/
def rangeRows {α : Type} (rows : List α) (first last : Int) : List α :=
  (rows.drop first.toNat).take (last + 1 - first).toNat

/-- The rows the admin listing `router.get('/')` returns without a status
filter: newest first, cut to the requested range. -/
def listOrders (st : Store) (page limit : QueryNumber) : List Order :=
  rangeRows st.orders.reverse (listOffset page limit) (listRangeEnd page limit)

/-! ## Socket.IO handlers of `server.js` -/

/-- The rooms of the Socket.IO server: the pairs (socket, room) recorded by
`socket.join`. -/
structure Hub where
  joined : List (Nat × String)
  deriving DecidableEq, Repr

/-- The sockets of a room, each once (a room is a set of sockets). -/
def Hub.members (h : Hub) (room : String) : List Nat :=
  ((h.joined.filter (fun p => p.2 = room)).map (fun p => p.1)).dedup

/-- The fields of the `data` of an `order-status-update` message that the
server reads or relays. -/
structure StatusData where
  orderId : String
  status : String
  deriving DecidableEq, Repr

/-- The fields of the `data` of a `driver-location-update` message. -/
structure LocationData where
  driverId : String
  lat : ℚ
  lng : ℚ
  deriving DecidableEq, Repr

/-- One event delivered to one socket. -/
structure Emission (α : Type) where
  socket : Nat
  event : String
  data : α
  deriving DecidableEq, Repr

/-- The handler of `join-order`: `socket.join('order-' + orderId)`. -/
def onJoinOrder (h : Hub) (socket : Nat) (orderId : String) : Hub :=
  ⟨h.joined ++ [(socket, "order-" ++ orderId)]⟩

/-- The handler of `join-driver`: `socket.join('driver-' + driverId)`. -/
def onJoinDriver (h : Hub) (socket : Nat) (driverId : String) : Hub :=
  ⟨h.joined ++ [(socket, "driver-" ++ driverId)]⟩

/-- The broadcast `socket.to(room).emit(event, data)`: to every socket of the
room except the socket itself. -/
def socketToEmit {α : Type} (h : Hub) (socket : Nat) (room event : String) (data : α) :
    List (Emission α) :=
  ((h.members room).filter (fun s => s ≠ socket)).map (fun s => ⟨s, event, data⟩)

/-- The broadcast `io.to(room).emit(event, data)`: to every socket of the room. -/
def ioToEmit {α : Type} (h : Hub) (room event : String) (data : α) : List (Emission α) :=
  (h.members room).map (fun s => ⟨s, event, data⟩)

/-- The handler of `order-status-update` on `socket`. -/
def onOrderStatusUpdate (h : Hub) (socket : Nat) (data : StatusData) :
    List (Emission StatusData) :=
  socketToEmit h socket ("order-" ++ data.orderId) "order-status-changed" data

/-- The handler of `driver-location-update` on `socket`. -/
def onDriverLocationUpdate (h : Hub) (socket : Nat) (data : LocationData) :
    List (Emission LocationData) :=
  socketToEmit h socket ("driver-" ++ data.driverId) "driver-location-changed" data

/-- The callback of the change-feed subscription `order-status-changes`, run
for an `UPDATE` of `orders` with the new row `payload.new`. `keyText` is the
text of a key as the template string renders it. -/
def onOrdersUpdate (keyText : Nat → String) (h : Hub) (new : Order) :
    List (Emission StatusData) :=
  ioToEmit h ("order-" ++ keyText new.id) "order-status-changed" ⟨keyText new.id, new.status⟩

/-! ## Client helpers -/

/-- The function `getNextStatus` of `DriverDashboardScreen.js`; `none` is `null`. -/
def getNextStatus (currentStatus : String) : Option String :=
  if currentStatus = "assigned" then some "picked_up"
  else if currentStatus = "picked_up" then some "out_for_delivery"
  else if currentStatus = "out_for_delivery" then some "delivered"
  else none

/-- The keys of `statusSteps` in `StatusTimeline.js`. -/
def statusSteps : List String :=
  ["pending", "accepted", "preparing", "ready_for_pickup", "picked_up", "out_for_delivery",
   "delivered"]

/-- The method `findIndex` of an array: the first index whose element passes,
-1 when none does; `i` is the index of the head. -/
def findIndexFrom {α : Type} (p : α → Bool) (i : Nat) : List α → Int
  | [] => -1
  | x :: xs => if p x then i else findIndexFrom p (i + 1) xs

/-- The function `getStatusIndex` of `StatusTimeline.js`; an undefined status
(`none`) equals no key. -/
def getStatusIndex (status : Option String) : Int :=
  findIndexFrom (fun key => some key = status) 0 statusSteps

/-- The value of `currentStatus || order?.status`: an undefined or empty
`currentStatus` gives way to the order's status. -/
def shownStatus (currentStatus orderStatus : Option String) : Option String :=
  match currentStatus with
  | none => orderStatus
  | some s => if s = "" then orderStatus else some s

/-- The function `isCompleted` of `StatusTimeline.js`. -/
def isCompleted (currentIndex : Int) (index : Nat) : Bool := decide ((index : Int) ≤ currentIndex)

/-- The function `isCurrent` of `StatusTimeline.js`. -/
def isCurrent (currentIndex : Int) (index : Nat) : Bool := decide ((index : Int) = currentIndex)

/-- The method `replace` of a string with a string pattern of one character:
only the first occurrence is replaced. -/
def replaceFirst (pattern replacement : Char) : List Char → List Char
  | [] => []
  | c :: cs => if c = pattern then replacement :: cs else c :: replaceFirst pattern replacement cs

/-- The label of a status on the screens:
`status.replace('_', ' ').toUpperCase()`. -/
def statusLabel (status : String) : String :=
  String.mk ((replaceFirst '_' ' ' status.data).map Char.toUpper)

/-! ## The order state machine of the specification (§4.1) -/

/-- Modelled from the spec: the successor of a status in the chain of §4.1,
pending → accepted → preparing → ready_for_pickup → picked_up →
out_for_delivery → delivered. (The chain is stated in the specification; no
transition table exists in the JavaScript sources.) -/
def chainNext (s : String) : Option String :=
  if s = "pending" then some "accepted"
  else if s = "accepted" then some "preparing"
  else if s = "preparing" then some "ready_for_pickup"
  else if s = "ready_for_pickup" then some "picked_up"
  else if s = "picked_up" then some "out_for_delivery"
  else if s = "out_for_delivery" then some "delivered"
  else none

/-- Modelled from the spec: `delivered` and `cancelled` are terminal (§4.1). -/
def isTerminal (s : String) : Bool := s = "delivered" || s = "cancelled"

/-- Modelled from the spec: the edge set of §4.1, the chain together with
`cancelled` reachable from any non-terminal state. -/
def legalSuccessor (cur req : String) : Bool :=
  chainNext cur = some req || (req = "cancelled" && !isTerminal cur)

/-- Modelled from the spec: the writes of an accepted transition (§4.1), the
order's status field and one tracking entry with the new status, the optional
description and the optional location, as a unit. -/
def applyTransition (st : Store) (a : UpdateStatusArgs) : Store :=
  { st with
    orders := st.orders.map (fun o =>
      if o.id = a.order_uuid then { o with status := a.new_status } else o)
    order_tracking := st.order_tracking ++
      [⟨a.order_uuid, a.new_status, a.description, a.location_lat, a.location_lng⟩] }

/-- Modelled from the spec: the database procedure `update_order_status`,
which is missing from the sources (only its call in the status handler is
there), as the `transition` operation of §4.1: an error if the order id is
unknown; a no-op success if the requested status is the order's current
status; an error if the requested status is not a legal successor of the
current one; otherwise the status update and the tracking entry, atomically. -/
def specUpdateOrderStatus : UpdateOrderStatusRpc := fun st a =>
  match single (ordersById st a.order_uuid) with
  | none => none
  | some o =>
    if o.status = a.new_status then some st
    else if legalSuccessor o.status a.new_status then some (applyTransition st a)
    else none

/-! ## Runs of the mutating handlers -/

/-- One request to a mutating handler together with everything its run
depends on besides the tables: the authenticated user, the body, the choices
of the database (new key, which calls fail) and the answer of the
nearest-driver procedure. -/
inductive Request where
  | create (isUuid : String → Bool) (user : Nat) (body : CreateOrderBody) (newId : Nat)
      (orderNumber : String) (f : CreateFaults) : Request
  | status (user id : Nat) (body : UpdateStatusBody) (f : PatchFaults) : Request
  | assign (nearest : FindNearestDriverRpc) (id : Nat) (f : AssignFaults) : Request

/-- The handler that serves a request. -/
def handle (rpc : UpdateOrderStatusRpc) (st : Store) : Request → Outcome
  | .create isUuid user body newId orderNumber f =>
      postOrder isUuid st user body newId orderNumber f
  | .status user id body f => patchOrderStatus rpc st user id body f
  | .assign nearest id f => postAssignDriver nearest st id f

/-- The tables after serving the requests one after the other. -/
def run (rpc : UpdateOrderStatusRpc) (st : Store) : List Request → Store
  | [] => st
  | r :: rs => run rpc (handle rpc st r).store rs

/-- One round of service: a request served alone, or two runs of the
assignment handler that overlap as in `assignOverlapping`. -/
inductive Round where
  | serve (r : Request) : Round
  | overlap (nearest : FindNearestDriverRpc) (id1 id2 : Nat) (f1 f2 : AssignFaults) : Round

/-- The tables after one round. -/
def serveRound (rpc : UpdateOrderStatusRpc) (st : Store) : Round → Store
  | .serve r => (handle rpc st r).store
  | .overlap nearest id1 id2 f1 f2 => (assignOverlapping nearest st id1 id2 f1 f2).2.store

/-- The tables after the rounds, one after the other. -/
def runRounds (rpc : UpdateOrderStatusRpc) (st : Store) : List Round → Store
  | [] => st
  | r :: rs => runRounds rpc (serveRound rpc st r) rs

/-- The request's insert into `order_tracking`, if it has one, does not fail. -/
def Request.tracked : Request → Bool
  | .create _ _ _ _ _ f => !f.insertTracking
  | .status _ _ _ _ => true
  | .assign _ _ f => !f.insertTracking

/-- The edges the handlers take: those of §4.1 and pending → assigned, the
edge of the assignment handler. -/
def handlerEdge (a b : String) : Bool :=
  legalSuccessor a b || (a = "pending" && b = "assigned")

/-- Modelled from the spec: what §4.1 promises of `update_order_status` when
it reports no error: either nothing was written, or the order exists, the
requested status is a legal successor of its status, and the status field and
one tracking entry were written. (The procedure itself is missing from the
sources.) -/
def LegalProcedure (rpc : UpdateOrderStatusRpc) : Prop :=
  ∀ st a st1, rpc st a = some st1 →
    st1 = st ∨
    ∃ o, ordersById st a.order_uuid = [o] ∧ legalSuccessor o.status a.new_status = true ∧
      st1 = applyTransition st a

/-- The accumulator `acc` of the grouping holds, for the rows `seen` so far,
one row per driver id, and that row is one of the driver's rows in `seen` with
the greatest timestamp. -/
def LatestOf (acc seen : List ActiveRow) : Prop :=
  (acc.map (fun r => r.sample.driver_id)).Nodup ∧
  (∀ r ∈ acc, r ∈ seen) ∧
  (∀ r ∈ acc, ∀ x ∈ seen, x.sample.driver_id = r.sample.driver_id →
    x.sample.timestamp ≤ r.sample.timestamp) ∧
  (∀ x ∈ seen, ∃ r ∈ acc, r.sample.driver_id = x.sample.driver_id)

/-- For every key, no order and no tracking entry, or one order `o` whose
tracking log satisfies `P o`. -/
def RowsWith (P : Order → List String → Prop) (st : Store) : Prop :=
  ∀ id, (ordersById st id = [] ∧ trackingLog st id = []) ∨
    ∃ o, ordersById st id = [o] ∧ P o (trackingLog st id)

/-- The three stages of an order and of its log: placed (no driver, status
`pending`), assigned (a driver, status `assigned`), cancelled (a driver,
status `cancelled`). -/
def Stage (o : Order) (log : List String) : Prop :=
  (o.driver_id = none ∧ o.status = "pending" ∧ log = ["pending"]) ∨
  (o.driver_id ≠ none ∧ o.status = "assigned" ∧ log = ["pending", "assigned"]) ∨
  (o.driver_id ≠ none ∧ o.status = "cancelled" ∧ log = ["pending", "assigned", "cancelled"])

/-- An order without driver is `pending`, an order with a driver is `assigned`
or `cancelled`, and every tracking entry holds one of these three statuses. -/
def ThreeStatuses (st : Store) : Prop :=
  (∀ o ∈ st.orders, (o.driver_id = none ∧ o.status = "pending") ∨
    (o.driver_id ≠ none ∧ (o.status = "assigned" ∨ o.status = "cancelled"))) ∧
  (∀ e ∈ st.order_tracking, e.status ∈ ["pending", "assigned", "cancelled"])

/-- The tables `st1` come from `st` by appending only, as far as the two logs
and the keys of `orders` go: every row of `order_tracking` and of
`driver_locations` is still there, unmodified and in place, followed by the
added rows, and every order is still there, in place. -/
def AppendOnly (st st1 : Store) : Prop :=
  (∃ added, st1.order_tracking = st.order_tracking ++ added) ∧
  (∃ added, st1.driver_locations = st.driver_locations ++ added) ∧
  (∃ added, st1.orders.map (fun o => o.id) = st.orders.map (fun o => o.id) ++ added)

/-! ## Sample data -/

/-- An order row for restaurant `r1`, pickup at (0, 1/1000). -/
def sampleOrder (id : Nat) (driver : Option Nat) (status : String) : Order :=
  { id := id, customer_id := 7, driver_id := driver, order_number := "ORD-1", status := status,
    restaurant_id := "r1", items := [⟨"Pizza", 2, 10⟩], total_amount := 20,
    delivery_address := "1 Main St", delivery_lat := 0, delivery_lng := 0,
    pickup_lat := 0, pickup_lng := 1 / 1000 }

/-- A store holding order 1, bound to driver 5, in the given status, with a
tracking log holding that status. -/
def storeWithOrder (status : String) : Store :=
  { orders := [sampleOrder 1 (some 5) status], drivers := [⟨5, "KA-01", "busy"⟩],
    order_tracking := [⟨1, status, none, none, none⟩], driver_locations := [] }

/-- A status request with no optional key. -/
def statusBody (s : String) : UpdateStatusBody := ⟨.val s, .absent, .absent, .absent, []⟩

/-- No store call fails. -/
def PatchFaults.none : PatchFaults := ⟨false, false⟩

/-- No store call fails. -/
def AssignFaults.none : AssignFaults := ⟨false, false, false, false⟩

/-- A store holding the unassigned pending order 1 (pickup at (0, 1/1000)) and
driver 5, last seen at (0, 0), in the given availability status. -/
def dispatchStore (driverStatus : String) : Store :=
  { orders := [sampleOrder 1 none "pending"], drivers := [⟨5, "KA-01", driverStatus⟩],
    order_tracking := [⟨1, "pending", some "Order placed successfully", none, none⟩],
    driver_locations := [⟨5, 0, 0, none, none, none, 0⟩] }

/-- The row `find_nearest_driver` returns for driver 5. -/
def candidateFive : Candidate := ⟨5, "Asha", "KA-01", 111 / 1000⟩

/-- A nearest-driver query that answers with the given rows. -/
def nearestAnswer (rows : List Candidate) : FindNearestDriverRpc := fun _ _ => some rows

/-- A store holding the unassigned pending orders 1 and 2 and the available
driver 5. -/
def twoOrderStore : Store :=
  { orders := [sampleOrder 1 none "pending", sampleOrder 2 none "pending"],
    drivers := [⟨5, "KA-01", "available"⟩],
    order_tracking := [⟨1, "pending", some "Order placed successfully", none, none⟩,
      ⟨2, "pending", some "Order placed successfully", none, none⟩],
    driver_locations := [⟨5, 0, 0, none, none, none, 0⟩] }

/-- A format test standing for Joi's `.uuid()`: 36 characters. -/
def sampleIsUuid (s : String) : Bool := s.length = 36

/-- The body of the creation scenario: one line item (Pizza, quantity 2,
price 10), total 20, coordinates in range. -/
def pizzaBody : CreateOrderBody :=
  { restaurant_id := .val "123e4567-e89b-12d3-a456-426614174000",
    items := .val [⟨.val "Pizza", .val 2, .val 10, []⟩],
    total_amount := .val 20, delivery_address := .val "1 Main St",
    delivery_lat := .val 0, delivery_lng := .val 0, pickup_lat := .val 0, pickup_lng := .val 0,
    unknownKeys := [] }

/-- No store call fails. -/
def CreateFaults.none : CreateFaults := ⟨false, false⟩

/-- A store with driver 5 available and no order yet. -/
def fleetStore : Store :=
  { orders := [], drivers := [⟨5, "KA-01", "available"⟩], order_tracking := [],
    driver_locations := [⟨5, 0, 0, none, none, none, 0⟩] }

/-- A run on the fleet store: order 1 is created, assigned to driver 5, then
cancelled by driver 5. -/
def sampleRequests : List Request :=
  [.create sampleIsUuid 7 pizzaBody 1 "ORD-1" CreateFaults.none,
   .assign (nearestAnswer [candidateFive]) 1 AssignFaults.none,
   .status 5 1 (statusBody "cancelled") PatchFaults.none]

/-- The validated value of `pizzaBody`. -/
def pizzaSpec : OrderSpec :=
  ⟨"123e4567-e89b-12d3-a456-426614174000", [⟨"Pizza", 2, 10⟩], 20, "1 Main St", 0, 0, 0, 0⟩

/-- The order row POST /orders builds from `pizzaBody` for customer 7 under
key 1. -/
def pizzaOrder : Order :=
  { id := 1, customer_id := 7, driver_id := none, order_number := "ORD-1", status := "pending",
    restaurant_id := "123e4567-e89b-12d3-a456-426614174000", items := [⟨"Pizza", 2, 10⟩],
    total_amount := 20, delivery_address := "1 Main St", delivery_lat := 0, delivery_lng := 0,
    pickup_lat := 0, pickup_lng := 0 }

/-- A `users` table with the driver 5, the customer 7 and the admin 9. -/
def sampleUsers : List UserRow := [⟨5, "Asha", "driver"⟩, ⟨7, "Carl", "customer"⟩, ⟨9, "Ada", "admin"⟩]

/-- A location body with the given coordinates and no optional key. -/
def locationBody (lat lng : ℚ) : LocationBody := ⟨.val lat, .val lng, .absent, .absent, .absent, []⟩

/-- A nearest-driver procedure for the samples: it answers with every driver
that is `available` in `drivers` when it is called, in table order (all taken
to be within the distance asked for). -/
def nearestAvailable : FindNearestDriverRpc := fun st _ =>
  some ((st.drivers.filter (fun d => d.current_status = "available")).map
    (fun d => ⟨d.id, "Asha", d.vehicle_number, 0⟩))

/-- A location sample of the given driver at the given time. -/
def sampleAt (driver time : Nat) : ActiveRow := ⟨⟨driver, 0, 0, none, none, none, time⟩, none⟩

/-- A store with the available driver 5 and the busy driver 6, each with one
location sample. -/
def mixedFleetStore : Store :=
  { orders := [], drivers := [⟨5, "KA-01", "available"⟩, ⟨6, "KA-02", "busy"⟩],
    order_tracking := [],
    driver_locations := [⟨5, 0, 0, none, none, none, 10⟩, ⟨6, 1, 1, none, none, none, 20⟩] }

/-- A store with three samples of driver 5, at times 100, 5680000 and 9000000
(milliseconds), and one of driver 6. -/
def historyStore : Store :=
  { orders := [], drivers := [⟨5, "KA-01", "available"⟩, ⟨6, "KA-02", "busy"⟩],
    order_tracking := [],
    driver_locations :=
      [⟨5, 0, 0, none, none, none, 9000000⟩, ⟨6, 1, 1, none, none, none, 9500000⟩,
       ⟨5, 0, 0, none, none, none, 100⟩, ⟨5, 0, 0, none, none, none, 5680000⟩] }

/-- A hub where the sockets 2 and 3 have joined the room of order 1 and the
socket 4 the room of driver 5. -/
def roomHub : Hub := ⟨[(2, "order-1"), (3, "order-1"), (4, "driver-5")]⟩

/-- A store with the thirty pending orders 1 to 30. -/
def thirtyOrderStore : Store :=
  { orders := (List.range 30).map (fun i => sampleOrder (i + 1) none "pending"),
    drivers := [], order_tracking := [], driver_locations := [] }

/-- A second valid body for POST /orders: two line items, another address. -/
def pastaBody : CreateOrderBody :=
  { restaurant_id := .val "123e4567-e89b-12d3-a456-426614174000",
    items := .val [⟨.val "Pasta", .val 1, .val 8, []⟩, ⟨.val "Salad", .val 1, .val 4, []⟩],
    total_amount := .val 12, delivery_address := .val "9 Oak Ave",
    delivery_lat := .val 1, delivery_lng := .val 1, pickup_lat := .val 0, pickup_lng := .val 0,
    unknownKeys := [] }

/-- The rows of `users` that the order of the samples embeds: the customer 7. -/
def sampleContacts : List Contact := [⟨7, "Carl", "555-0107"⟩]

/-- The rows of `restaurants` that the order of the samples embeds. -/
def sampleRestaurants : List RestaurantRow := [⟨"r1", "Roma", "2 High St", "555-0100"⟩]

/-- The validated value of `pastaBody`. -/
def pastaSpec : OrderSpec :=
  ⟨"123e4567-e89b-12d3-a456-426614174000", [⟨"Pasta", 1, 8⟩, ⟨"Salad", 1, 4⟩], 12, "9 Oak Ave",
    1, 1, 0, 0⟩

/-! ## Theorems: PATCH /orders/:id/status -/

/-- C1 (as stated, refuted): the order is bound to the requesting driver 5
and is `pending`, the request asks for `preparing`, which is valid for the
schema and is not a legal successor of `pending`; whatever the procedure
`update_order_status` does, the handler calls it and does not answer 409. -/
theorem c1_skipped_step_reaches_procedure :
    legalSuccessor "pending" "preparing" = false ∧
    updateStatusSchema (statusBody "preparing") = some ⟨"preparing", none, none, none⟩ ∧
    ¬ ∃ rpc : UpdateOrderStatusRpc,
        (patchOrderStatus rpc (storeWithOrder "pending") 5 1 (statusBody "preparing")
            PatchFaults.none).code = 409 ∨
        (patchOrderStatus rpc (storeWithOrder "pending") 5 1 (statusBody "preparing")
            PatchFaults.none).statusCalls = [] := by
  refine ⟨by decide, by decide, ?_⟩
  rintro ⟨rpc, h⟩
  have hv : updateStatusSchema (statusBody "preparing") = some ⟨"preparing", none, none, none⟩ := by
    decide
  have hrow : single ((storeWithOrder "pending").orders.filter
      (fun o => o.id = 1 ∧ o.driver_id = some 5)) = some (sampleOrder 1 (some 5) "pending") := rfl
  simp only [patchOrderStatus, hv, PatchFaults.none, hrow] at h
  cases hr : rpc (storeWithOrder "pending") ⟨1, "preparing", none, none, none⟩ <;>
    simp [hr] at h

/-- C1 (amended): for an order bound to the requesting driver and a body that
passes `updateStatusSchema`, the handler calls `update_order_status` exactly
once, with the requested status, whatever the order's current status; it
answers 500 and leaves the tables as they were when the procedure reports an
error, 200 with the procedure's tables when it does not, and never 409. -/
theorem c1_status_request_forwarded (rpc : UpdateOrderStatusRpc) (st : Store) (user id : Nat)
    (body : UpdateStatusBody) (value : StatusUpdate) (o : Order) (f : PatchFaults)
    (hv : updateStatusSchema body = some value)
    (hf : f.selectOrder = false)
    (ho : single (st.orders.filter (fun o => o.id = id ∧ o.driver_id = some user)) = some o) :
    (patchOrderStatus rpc st user id body f).statusCalls =
        [⟨id, value.status, value.description, value.location_lat, value.location_lng⟩] ∧
    (rpc st ⟨id, value.status, value.description, value.location_lat, value.location_lng⟩ = none →
        (patchOrderStatus rpc st user id body f).code = 500 ∧
        (patchOrderStatus rpc st user id body f).body = .error "Failed to update order status" ∧
        (patchOrderStatus rpc st user id body f).store = st) ∧
    (∀ st1, rpc st ⟨id, value.status, value.description, value.location_lat,
          value.location_lng⟩ = some st1 →
        (patchOrderStatus rpc st user id body f).code = 200 ∧
        (patchOrderStatus rpc st user id body f).store = st1) ∧
    (patchOrderStatus rpc st user id body f).code ≠ 409 := by
  simp only [patchOrderStatus, hv, hf, ho]
  cases hr : rpc st ⟨id, value.status, value.description, value.location_lat,
      value.location_lng⟩ <;> simp

/-- C1 (amended), at the request pending → preparing with the procedure of
§4.1: one call, answered 500, nothing changed. -/
theorem c1_status_request_forwarded_witness :
    (patchOrderStatus specUpdateOrderStatus (storeWithOrder "pending") 5 1
        (statusBody "preparing") PatchFaults.none).statusCalls
      = [⟨1, "preparing", none, none, none⟩] ∧
    (patchOrderStatus specUpdateOrderStatus (storeWithOrder "pending") 5 1
        (statusBody "preparing") PatchFaults.none).code = 500 ∧
    (patchOrderStatus specUpdateOrderStatus (storeWithOrder "pending") 5 1
        (statusBody "preparing") PatchFaults.none).store = storeWithOrder "pending" := by
  have h := c1_status_request_forwarded specUpdateOrderStatus (storeWithOrder "pending") 5 1
    (statusBody "preparing") ⟨"preparing", none, none, none⟩ (sampleOrder 1 (some 5) "pending")
    PatchFaults.none (by decide) rfl rfl
  have hnone : specUpdateOrderStatus (storeWithOrder "pending")
      ⟨1, "preparing", none, none, none⟩ = none := by rfl
  exact ⟨h.1, (h.2.1 hnone).1, (h.2.1 hnone).2.2⟩

/-- A required key followed by a rule passes exactly on a present value that
passes the rule. -/
theorem required_bind_eq_some {α β : Type} (f : Field α) (g : α → Option β) (r : β) :
    (f.required >>= g) = some r ↔ ∃ a, f = .val a ∧ g a = some r := by
  cases f <;> simp [Field.required]

/-- A required key passes exactly on a present value. -/
theorem required_eq_some {α : Type} (f : Field α) (a : α) :
    f.required = some a ↔ f = .val a := by
  cases f <;> simp [Field.required]

/-- What `joiNumber` accepts. -/
theorem joiNumber_eq_some (ok : ℚ → Bool) (q r : ℚ) :
    joiNumber ok q = some r ↔ (safeNumber q = true ∧ ok q = true) ∧ q = r := by
  simp [joiNumber]

/-- What `joiString` accepts. -/
theorem joiString_eq_some (s r : String) : joiString s = some r ↔ s ≠ "" ∧ s = r := by
  simp [joiString]

/-- What `joiValid` accepts. -/
theorem joiValid_eq_some (allowed : List String) (s r : String) :
    joiValid allowed s = some r ↔ allowed.contains s = true ∧ s = r := by
  simp [joiValid]

/-- A body that passes `updateStatusSchema` carries the validated status. -/
theorem updateStatusSchema_status {body : UpdateStatusBody} {value : StatusUpdate}
    (hv : updateStatusSchema body = some value) : body.status = .val value.status := by
  simp only [updateStatusSchema, Option.bind_eq_bind, Option.bind_eq_some,
    required_eq_some, joiValid_eq_some] at hv
  obtain ⟨s, ⟨a, ha, _, rfl⟩, d, _, x, _, y, _, hv⟩ := hv
  split at hv
  · cases hv
    exact ha
  · cases hv

/-- The handler's lookup (id and driver) among the rows with the given id. -/
theorem filter_id_driver (st : Store) (id user : Nat) :
    st.orders.filter (fun o => o.id = id ∧ o.driver_id = some user) =
      (ordersById st id).filter (fun o => o.driver_id = some user) := by
  simp only [ordersById, List.filter_filter]
  congr 1
  funext o
  simp [Bool.and_comm]

/-- No status follows a terminal one. -/
theorem legalSuccessor_of_terminal (cur req : String)
    (h : cur = "delivered" ∨ cur = "cancelled") (hne : cur ≠ req) :
    legalSuccessor cur req = false := by
  rcases h with h | h <;> subst h <;> simp [legalSuccessor, chainNext, isTerminal]

/-- C2: with `update_order_status` as §4.1 describes it, a status request on
an order whose status is `delivered` or `cancelled`, for any other status, is
refused (400, 404 or 500, never 200) and leaves every table as it was: the
order keeps its status and its tracking log. -/
theorem c2_terminal_status_is_final (st : Store) (user id : Nat) (body : UpdateStatusBody)
    (f : PatchFaults) (o : Order)
    (ho : ordersById st id = [o])
    (hterm : o.status = "delivered" ∨ o.status = "cancelled")
    (hne : body.status ≠ .val o.status) :
    ((patchOrderStatus specUpdateOrderStatus st user id body f).code = 400 ∨
      (patchOrderStatus specUpdateOrderStatus st user id body f).code = 404 ∨
      (patchOrderStatus specUpdateOrderStatus st user id body f).code = 500) ∧
    (patchOrderStatus specUpdateOrderStatus st user id body f).store = st ∧
    ordersById (patchOrderStatus specUpdateOrderStatus st user id body f).store id = [o] ∧
    trackingLog (patchOrderStatus specUpdateOrderStatus st user id body f).store id =
      trackingLog st id := by
  have key : ((patchOrderStatus specUpdateOrderStatus st user id body f).code = 400 ∨
      (patchOrderStatus specUpdateOrderStatus st user id body f).code = 404 ∨
      (patchOrderStatus specUpdateOrderStatus st user id body f).code = 500) ∧
      (patchOrderStatus specUpdateOrderStatus st user id body f).store = st := by
    unfold patchOrderStatus
    cases hv : updateStatusSchema body with
    | none => simp [reject]
    | some value =>
      have hs := updateStatusSchema_status hv
      have hne2 : o.status ≠ value.status := by
        intro h
        exact hne (by rw [hs, h])
      simp only []
      split
      · simp [reject]
      · have hrpc : specUpdateOrderStatus st
            ⟨id, value.status, value.description, value.location_lat, value.location_lng⟩
            = none := by
          simp [specUpdateOrderStatus, ho, single, hne2,
            legalSuccessor_of_terminal o.status value.status hterm hne2]
        simp [hrpc]
  refine ⟨key.1, key.2, ?_, ?_⟩
  · rw [key.2, ho]
  · rw [key.2]

/-- C2 at a delivered order bound to driver 5 who asks for `cancelled`. -/
theorem c2_terminal_status_is_final_witness :
    ((patchOrderStatus specUpdateOrderStatus (storeWithOrder "delivered") 5 1
        (statusBody "cancelled") PatchFaults.none).code = 400 ∨
      (patchOrderStatus specUpdateOrderStatus (storeWithOrder "delivered") 5 1
        (statusBody "cancelled") PatchFaults.none).code = 404 ∨
      (patchOrderStatus specUpdateOrderStatus (storeWithOrder "delivered") 5 1
        (statusBody "cancelled") PatchFaults.none).code = 500) ∧
    (patchOrderStatus specUpdateOrderStatus (storeWithOrder "delivered") 5 1
        (statusBody "cancelled") PatchFaults.none).store = storeWithOrder "delivered" :=
  have h := c2_terminal_status_is_final (storeWithOrder "delivered") 5 1 (statusBody "cancelled")
    PatchFaults.none (sampleOrder 1 (some 5) "delivered") rfl (Or.inl rfl) (by decide)
  ⟨h.1, h.2.1⟩

/-- An accepted transition rewrites the status of the rows with the order's
id and keeps them in place. -/
theorem ordersById_applyTransition (st : Store) (a : UpdateStatusArgs) :
    ordersById (applyTransition st a) a.order_uuid =
      (ordersById st a.order_uuid).map (fun o => { o with status := a.new_status }) := by
  simp only [ordersById, applyTransition]
  induction st.orders with
  | nil => rfl
  | cons x xs ih =>
    by_cases hx : x.id = a.order_uuid
    · simp [List.filter_cons, hx, ih]
    · simp [List.filter_cons, hx, ih]

/-- The entries of `order_tracking` for one order and one status. -/
theorem entries_applyTransition (st : Store) (a : UpdateStatusArgs) :
    (applyTransition st a).order_tracking.filter
        (fun e => e.order_id = a.order_uuid ∧ e.status = a.new_status) =
      st.order_tracking.filter (fun e => e.order_id = a.order_uuid ∧ e.status = a.new_status) ++
        [⟨a.order_uuid, a.new_status, a.description, a.location_lat, a.location_lng⟩] := by
  simp [applyTransition, List.filter_append]

/-- C3: with `update_order_status` as §4.1 describes it, when a status request
for `s` on an order bound to the requesting driver is answered 200, the same
request submitted again is answered 200 with the current order (whose status
is `s`) and writes nothing; over the two requests the order's tracking entries
with status `s` grow by exactly one entry when `s` was not yet its status, and
by none when it already was. -/
theorem c3_repeated_status_request (st : Store) (user id : Nat) (body : UpdateStatusBody)
    (value : StatusUpdate) (o : Order) (f1 f2 : PatchFaults) (r1 : Outcome)
    (hv : updateStatusSchema body = some value)
    (ho : ordersById st id = [o])
    (hd : o.driver_id = some user)
    (hf1 : f1.selectOrder = false) (hf2 : f2 = ⟨false, false⟩)
    (h1 : patchOrderStatus specUpdateOrderStatus st user id body f1 = r1)
    (hc : r1.code = 200) :
    (patchOrderStatus specUpdateOrderStatus r1.store user id body f2).code = 200 ∧
    (patchOrderStatus specUpdateOrderStatus r1.store user id body f2).store = r1.store ∧
    (patchOrderStatus specUpdateOrderStatus r1.store user id body f2).body =
      .updatedOrder (some ⟨{ o with status := value.status },
        r1.store.order_tracking.filter (fun e => e.order_id = id)⟩) ∧
    (patchOrderStatus specUpdateOrderStatus r1.store user id body f2).store.order_tracking.filter
        (fun e => e.order_id = id ∧ e.status = value.status) =
      st.order_tracking.filter (fun e => e.order_id = id ∧ e.status = value.status) ++
        (if o.status = value.status then []
         else [⟨id, value.status, value.description, value.location_lat, value.location_lng⟩]) := by
  subst hf2
  have hrow : ∀ (st1 : Store) (o1 : Order), ordersById st1 id = [o1] → o1.driver_id = some user →
      single (st1.orders.filter (fun x => x.id = id ∧ x.driver_id = some user)) = some o1 := by
    intro st1 o1 h1 h2
    rw [filter_id_driver, h1]
    simp [h2, single]
  -- the second request on any store in which the order already has status `s`
  have second : ∀ (st1 : Store) (o1 : Order), ordersById st1 id = [o1] →
      o1.driver_id = some user → o1.status = value.status →
      patchOrderStatus specUpdateOrderStatus st1 user id body ⟨false, false⟩ =
        ⟨200, .updatedOrder (some ⟨o1, st1.order_tracking.filter (fun e => e.order_id = id)⟩),
          st1, [⟨id, value.status, value.description, value.location_lat,
            value.location_lng⟩], []⟩ := by
    intro st1 o1 h1 h2 h3
    have hrpc : specUpdateOrderStatus st1
        ⟨id, value.status, value.description, value.location_lat, value.location_lng⟩
        = some st1 := by
      simp [specUpdateOrderStatus, h1, single, h3]
    simp only [patchOrderStatus, hv, hrow st1 o1 h1 h2, hrpc]
    simp [orderDetails, h1, single]
  -- the first request
  have first : r1.store = st ∧ o.status = value.status ∨
      r1.store = applyTransition st ⟨id, value.status, value.description, value.location_lat,
        value.location_lng⟩ ∧ o.status ≠ value.status := by
    rw [← h1] at hc ⊢
    simp only [patchOrderStatus, hv, hf1, hrow st o ho hd] at hc ⊢
    by_cases hs : o.status = value.status
    · left
      simp [specUpdateOrderStatus, ho, single, hs]
    · right
      by_cases hl : legalSuccessor o.status value.status = true
      · simp [specUpdateOrderStatus, ho, single, hs, hl]
      · simp [specUpdateOrderStatus, ho, single, hs, hl] at hc
  rcases first with ⟨hst, hs⟩ | ⟨hst, hs⟩
  · rw [hst, second st o ho hd hs]
    have ho' : ({ o with status := value.status } : Order) = o := by
      rw [← hs]
    simp [hs, ho']
  · have ho1 : ordersById r1.store id = [{ o with status := value.status }] := by
      rw [hst]
      have := ordersById_applyTransition st
        ⟨id, value.status, value.description, value.location_lat, value.location_lng⟩
      simp only [ho, List.map_cons, List.map_nil] at this
      exact this
    rw [second r1.store { o with status := value.status } ho1 hd rfl]
    refine ⟨rfl, rfl, rfl, ?_⟩
    simp only [hs, if_false]
    rw [hst]
    exact entries_applyTransition st
      ⟨id, value.status, value.description, value.location_lat, value.location_lng⟩

/-- C3 at the pending order of driver 5 and the request `accepted`, sent
twice: the second answer is 200, nothing is written by it, and the log holds
`accepted` once. -/
theorem c3_repeated_status_request_witness :
    (patchOrderStatus specUpdateOrderStatus
        (patchOrderStatus specUpdateOrderStatus (storeWithOrder "pending") 5 1
          (statusBody "accepted") PatchFaults.none).store
        5 1 (statusBody "accepted") ⟨false, false⟩).code = 200 ∧
    (patchOrderStatus specUpdateOrderStatus
        (patchOrderStatus specUpdateOrderStatus (storeWithOrder "pending") 5 1
          (statusBody "accepted") PatchFaults.none).store
        5 1 (statusBody "accepted") ⟨false, false⟩).store =
      (patchOrderStatus specUpdateOrderStatus (storeWithOrder "pending") 5 1
          (statusBody "accepted") PatchFaults.none).store ∧
    trackingLog (patchOrderStatus specUpdateOrderStatus (storeWithOrder "pending") 5 1
          (statusBody "accepted") PatchFaults.none).store 1 = ["pending", "accepted"] :=
  have h := c3_repeated_status_request (storeWithOrder "pending") 5 1 (statusBody "accepted")
    ⟨"accepted", none, none, none⟩ (sampleOrder 1 (some 5) "pending") PatchFaults.none
    ⟨false, false⟩ _ (by decide) rfl rfl rfl rfl rfl rfl
  ⟨h.1, h.2.1, rfl⟩

/-! ## Theorems: POST /orders/:id/assign-driver -/

/-- The assignment write on `orders` leaves the other tables alone. -/
theorem ordersById_assignOrderRow (st : Store) (id driver : Nat) :
    ordersById (assignOrderRow st id driver) id =
      (ordersById st id).map
        (fun o => { o with driver_id := some driver, status := "assigned" }) := by
  simp only [ordersById, assignOrderRow]
  induction st.orders with
  | nil => rfl
  | cons x xs ih =>
    by_cases hx : x.id = id
    · simp [List.filter_cons, hx, ih]
    · simp [List.filter_cons, hx, ih]

/-- The assignment write on `orders` leaves the rows of other orders as they
were. -/
theorem others_assignOrderRow (st : Store) (id driver : Nat) :
    (assignOrderRow st id driver).orders.filter (fun o => o.id ≠ id) =
      st.orders.filter (fun o => o.id ≠ id) := by
  simp only [assignOrderRow]
  induction st.orders with
  | nil => rfl
  | cons x xs ih =>
    by_cases hx : x.id = id
    · simp only [List.map_cons, List.filter_cons, hx, if_true, ne_eq, not_true_eq_false,
        decide_False, Bool.false_eq_true, if_false]
      exact ih
    · simp only [List.map_cons, List.filter_cons, hx, if_false, ne_eq, not_false_eq_true,
        decide_True, if_true]
      rw [ih]

/-- The availability write leaves the rows of other drivers as they were. -/
theorem others_markDriverBusy (st : Store) (driver : Nat) :
    (markDriverBusy st driver).drivers.filter (fun d => d.id ≠ driver) =
      st.drivers.filter (fun d => d.id ≠ driver) := by
  simp only [markDriverBusy]
  induction st.drivers with
  | nil => rfl
  | cons x xs ih =>
    by_cases hx : x.id = driver
    · simp only [List.map_cons, List.filter_cons, hx, if_true, ne_eq, not_true_eq_false,
        decide_False, Bool.false_eq_true, if_false]
      exact ih
    · simp only [List.map_cons, List.filter_cons, hx, if_false, ne_eq, not_false_eq_true,
        decide_True, if_true]
      rw [ih]

/-- After the availability write every row of the driver reads `busy`, and the
table holds the same driver ids in the same places. -/
theorem busy_markDriverBusy (st : Store) (driver : Nat) :
    (∀ d ∈ (markDriverBusy st driver).drivers, d.id = driver → d.current_status = "busy") ∧
    (markDriverBusy st driver).drivers.map (fun d => d.id) = st.drivers.map (fun d => d.id) := by
  simp only [markDriverBusy]
  constructor
  · intro d hd hid
    rw [List.mem_map] at hd
    obtain ⟨x, _, hx⟩ := hd
    by_cases hxi : x.id = driver
    · rw [if_pos hxi] at hx
      rw [← hx]
    · rw [if_neg hxi] at hx
      rw [hx] at hxi
      exact absurd hid hxi
  · rw [List.map_map]
    apply List.map_congr_left
    intro x _
    by_cases hxi : x.id = driver <;> simp [hxi]

/-- C5 (as stated, refuted): order 1 is unassigned, driver 5 is available and
is the first candidate; the order update succeeds, the driver update and the
tracking insert fail. The call answers 200, the order carries driver 5 and
status `assigned`, while driver 5 is still `available` and the order's log has
no `assigned` entry. -/
theorem c5_partial_assignment_observable :
    (postAssignDriver (nearestAnswer [candidateFive]) (dispatchStore "available") 1
        ⟨false, false, true, true⟩).code = 200 ∧
    ordersById (postAssignDriver (nearestAnswer [candidateFive]) (dispatchStore "available") 1
        ⟨false, false, true, true⟩).store 1 = [sampleOrder 1 (some 5) "assigned"] ∧
    (postAssignDriver (nearestAnswer [candidateFive]) (dispatchStore "available") 1
        ⟨false, false, true, true⟩).store.drivers = [⟨5, "KA-01", "available"⟩] ∧
    trackingLog (postAssignDriver (nearestAnswer [candidateFive]) (dispatchStore "available") 1
        ⟨false, false, true, true⟩).store 1 = ["pending"] := by
  refine ⟨rfl, rfl, rfl, rfl⟩

/-- C5 (amended): a run of assign-driver that answers anything but 200 leaves
every table as it was; a run that answers 200 in which neither the driver
update nor the tracking insert failed has bound the first candidate: every row
of the order carries that driver and status `assigned`, every row of that
driver reads `busy`, and the assignment entry is the last tracking entry. -/
theorem c5_assign_failure_or_complete (nearest : FindNearestDriverRpc) (st : Store) (id : Nat)
    (f : AssignFaults) :
    ((postAssignDriver nearest st id f).code ≠ 200 →
        (postAssignDriver nearest st id f).store = st) ∧
    ((postAssignDriver nearest st id f).code = 200 →
        f.updateDriver = false → f.insertTracking = false →
        ∃ o c rest, ordersById st id = [o] ∧
          nearest st ⟨o.pickup_lat, o.pickup_lng, 50⟩ = some (c :: rest) ∧
          ordersById (postAssignDriver nearest st id f).store id =
            [{ o with driver_id := some c.driver_id, status := "assigned" }] ∧
          (∀ d ∈ (postAssignDriver nearest st id f).store.drivers,
            d.id = c.driver_id → d.current_status = "busy") ∧
          (postAssignDriver nearest st id f).store.order_tracking =
            st.order_tracking ++ [assignmentEntry id c]) := by
  unfold postAssignDriver
  cases hsel : f.selectOrder
  · simp only [Bool.false_eq_true, if_false]
    cases hrow : single (ordersById st id) with
    | none => simp [reject]
    | some o =>
      have ho : ordersById st id = [o] := by
        generalize ordersById st id = l at hrow
        match l, hrow with
        | [r], h => simp [single] at h; rw [h]
      simp only []
      by_cases hdrv : o.driver_id.isSome = true
      · simp [hdrv, reject]
      · simp only [hdrv, if_false]
        cases hn : nearest st ⟨o.pickup_lat, o.pickup_lng, 50⟩ with
        | none => simp
        | some rows =>
          cases rows with
          | nil => simp
          | cons c rest =>
            simp only [assignWrites]
            cases hu : f.updateOrder
            · simp only [Bool.false_eq_true, if_false]
              refine ⟨by simp, ?_⟩
              intro _ hd ht
              refine ⟨o, c, rest, ho, hn, ?_, ?_, ?_⟩
              · simp only [hd, ht, Bool.false_eq_true, if_false]
                have h := ordersById_assignOrderRow st id c.driver_id
                rw [ho] at h
                simpa [ordersById, markDriverBusy] using h
              · simp only [hd, ht, Bool.false_eq_true, if_false]
                exact (busy_markDriverBusy (assignOrderRow st id c.driver_id) c.driver_id).1
              · simp [hd, ht, markDriverBusy, assignOrderRow]
            · simp
  · simp [reject]

/-- C5 (amended) at two runs on the dispatch store: with a failing order
update nothing changes; with no failing write the log ends with the
assignment entry. -/
theorem c5_assign_failure_or_complete_witness :
    (postAssignDriver (nearestAnswer [candidateFive]) (dispatchStore "available") 1
        ⟨false, true, false, false⟩).store = dispatchStore "available" ∧
    ∃ o c rest, ordersById (dispatchStore "available") 1 = [o] ∧
      nearestAnswer [candidateFive] (dispatchStore "available")
        ⟨o.pickup_lat, o.pickup_lng, 50⟩ = some (c :: rest) ∧
      ordersById (postAssignDriver (nearestAnswer [candidateFive]) (dispatchStore "available") 1
          AssignFaults.none).store 1 =
        [{ o with driver_id := some c.driver_id, status := "assigned" }] ∧
      (∀ d ∈ (postAssignDriver (nearestAnswer [candidateFive]) (dispatchStore "available") 1
          AssignFaults.none).store.drivers, d.id = c.driver_id → d.current_status = "busy") ∧
      (postAssignDriver (nearestAnswer [candidateFive]) (dispatchStore "available") 1
          AssignFaults.none).store.order_tracking =
        (dispatchStore "available").order_tracking ++ [assignmentEntry 1 c] :=
  ⟨(c5_assign_failure_or_complete (nearestAnswer [candidateFive]) (dispatchStore "available") 1
      ⟨false, true, false, false⟩).1 (by decide),
   (c5_assign_failure_or_complete (nearestAnswer [candidateFive]) (dispatchStore "available") 1
      AssignFaults.none).2 rfl rfl rfl⟩

/-- C6: for an order without a driver and a non-empty list of candidates, a
run of assign-driver in which no store call fails answers 200 for the first
candidate; afterwards the order carries that candidate's id and status
`assigned`, every row of that driver reads `busy`, exactly the assignment
entry has been appended to the tracking log, and the rows of the other orders
and drivers, and the location samples, are as they were. The query was issued
once, with the order's pickup point and distance 50. -/
theorem c6_assign_binds_first_candidate (nearest : FindNearestDriverRpc) (st : Store) (id : Nat)
    (o : Order) (c : Candidate) (rest : List Candidate)
    (ho : ordersById st id = [o])
    (hd : o.driver_id = none)
    (hn : nearest st ⟨o.pickup_lat, o.pickup_lng, 50⟩ = some (c :: rest)) :
    (postAssignDriver nearest st id AssignFaults.none).code = 200 ∧
    (postAssignDriver nearest st id AssignFaults.none).body =
      .assigned "Driver assigned successfully" c ∧
    (postAssignDriver nearest st id AssignFaults.none).nearestCalls =
      [⟨o.pickup_lat, o.pickup_lng, 50⟩] ∧
    ordersById (postAssignDriver nearest st id AssignFaults.none).store id =
      [{ o with driver_id := some c.driver_id, status := "assigned" }] ∧
    (postAssignDriver nearest st id AssignFaults.none).store.orders.filter (fun x => x.id ≠ id) =
      st.orders.filter (fun x => x.id ≠ id) ∧
    (∀ d ∈ (postAssignDriver nearest st id AssignFaults.none).store.drivers,
      d.id = c.driver_id → d.current_status = "busy") ∧
    (postAssignDriver nearest st id AssignFaults.none).store.drivers.map (fun d => d.id) =
      st.drivers.map (fun d => d.id) ∧
    (postAssignDriver nearest st id AssignFaults.none).store.drivers.filter
        (fun d => d.id ≠ c.driver_id) = st.drivers.filter (fun d => d.id ≠ c.driver_id) ∧
    (postAssignDriver nearest st id AssignFaults.none).store.order_tracking =
      st.order_tracking ++ [assignmentEntry id c] ∧
    (postAssignDriver nearest st id AssignFaults.none).store.driver_locations =
      st.driver_locations := by
  have hrun : postAssignDriver nearest st id AssignFaults.none =
      ⟨200, .assigned "Driver assigned successfully" c,
        { markDriverBusy (assignOrderRow st id c.driver_id) c.driver_id with
          order_tracking := st.order_tracking ++ [assignmentEntry id c] },
        [], [⟨o.pickup_lat, o.pickup_lng, 50⟩]⟩ := by
    simp [postAssignDriver, AssignFaults.none, ho, single, hd, hn, assignWrites,
      markDriverBusy, assignOrderRow]
  rw [hrun]
  refine ⟨rfl, rfl, rfl, ?_, ?_, ?_, ?_, ?_, rfl, rfl⟩
  · have h := ordersById_assignOrderRow st id c.driver_id
    rw [ho] at h
    simpa [ordersById, markDriverBusy] using h
  · exact others_assignOrderRow st id c.driver_id
  · exact (busy_markDriverBusy (assignOrderRow st id c.driver_id) c.driver_id).1
  · exact (busy_markDriverBusy (assignOrderRow st id c.driver_id) c.driver_id).2
  · exact others_markDriverBusy (assignOrderRow st id c.driver_id) c.driver_id

/-- C6 at the scenario of the specification: driver 5, available, at (0, 0);
order 1 with pickup at (0, 1/1000); the query answers with driver 5. -/
theorem c6_assign_binds_first_candidate_witness :
    (postAssignDriver (nearestAnswer [candidateFive]) (dispatchStore "available") 1
        AssignFaults.none).code = 200 ∧
    (postAssignDriver (nearestAnswer [candidateFive]) (dispatchStore "available") 1
        AssignFaults.none).nearestCalls = [⟨0, 1 / 1000, 50⟩] ∧
    ordersById (postAssignDriver (nearestAnswer [candidateFive]) (dispatchStore "available") 1
        AssignFaults.none).store 1 = [sampleOrder 1 (some 5) "assigned"] ∧
    (postAssignDriver (nearestAnswer [candidateFive]) (dispatchStore "available") 1
        AssignFaults.none).store.drivers = [⟨5, "KA-01", "busy"⟩] ∧
    trackingLog (postAssignDriver (nearestAnswer [candidateFive]) (dispatchStore "available") 1
        AssignFaults.none).store 1 = ["pending", "assigned"] :=
  have h := c6_assign_binds_first_candidate (nearestAnswer [candidateFive])
    (dispatchStore "available") 1 (sampleOrder 1 none "pending") candidateFive [] rfl rfl rfl
  ⟨h.1, h.2.2.1, h.2.2.2.1, rfl, rfl⟩

/-- C7: when the nearest-driver query answers with no row (or reports an
error) for an order without a driver, assign-driver answers 404 with
`No available drivers found nearby` and leaves every table as it was,
whichever later store call would have failed. -/
theorem c7_no_candidate_no_change (nearest : FindNearestDriverRpc) (st : Store) (id : Nat)
    (f : AssignFaults) (o : Order)
    (hf : f.selectOrder = false)
    (ho : ordersById st id = [o])
    (hd : o.driver_id = none)
    (hn : nearest st ⟨o.pickup_lat, o.pickup_lng, 50⟩ = some [] ∨
      nearest st ⟨o.pickup_lat, o.pickup_lng, 50⟩ = none) :
    (postAssignDriver nearest st id f).code = 404 ∧
    (postAssignDriver nearest st id f).body = .error "No available drivers found nearby" ∧
    (postAssignDriver nearest st id f).store = st ∧
    ordersById (postAssignDriver nearest st id f).store id = [o] := by
  have hrun : postAssignDriver nearest st id f =
      ⟨404, .error "No available drivers found nearby", st, [],
        [⟨o.pickup_lat, o.pickup_lng, 50⟩]⟩ := by
    rcases hn with hn | hn <;> simp [postAssignDriver, hf, ho, single, hd, hn]
  rw [hrun]
  exact ⟨rfl, rfl, rfl, ho⟩

/-- C7 at the dispatch store with a query that finds nobody. -/
theorem c7_no_candidate_no_change_witness :
    (postAssignDriver (nearestAnswer []) (dispatchStore "available") 1 AssignFaults.none).code
      = 404 ∧
    (postAssignDriver (nearestAnswer []) (dispatchStore "available") 1 AssignFaults.none).store
      = dispatchStore "available" :=
  have h := c7_no_candidate_no_change (nearestAnswer []) (dispatchStore "available") 1
    AssignFaults.none (sampleOrder 1 none "pending") rfl rfl rfl (Or.inl rfl)
  ⟨h.1, h.2.2.1⟩

/-- C8: on an id that matches no order assign-driver answers 404, and on an
order that already has a driver it answers 400; in both cases it issues no
nearest-driver query and leaves every table as it was. -/
theorem c8_unknown_or_already_assigned (nearest : FindNearestDriverRpc) (st : Store) (id : Nat)
    (f : AssignFaults)
    (h : ordersById st id = [] ∨
      ∃ o d, f.selectOrder = false ∧ ordersById st id = [o] ∧ o.driver_id = some d) :
    (postAssignDriver nearest st id f).nearestCalls = [] ∧
    (postAssignDriver nearest st id f).store = st ∧
    (ordersById st id = [] →
      (postAssignDriver nearest st id f).code = 404 ∧
      (postAssignDriver nearest st id f).body = .error "Order not found") ∧
    (∀ o d, f.selectOrder = false → ordersById st id = [o] → o.driver_id = some d →
      (postAssignDriver nearest st id f).code = 400 ∧
      (postAssignDriver nearest st id f).body = .error "Order already has a driver assigned") := by
  have unknown : ordersById st id = [] → postAssignDriver nearest st id f =
      reject 404 (.error "Order not found") st := by
    intro h0
    cases hsel : f.selectOrder <;> simp [postAssignDriver, hsel, h0, single]
  have taken : ∀ o d, f.selectOrder = false → ordersById st id = [o] → o.driver_id = some d →
      postAssignDriver nearest st id f =
        reject 400 (.error "Order already has a driver assigned") st := by
    intro o d hsel ho hd
    simp [postAssignDriver, hsel, ho, single, hd]
  refine ⟨?_, ?_, ?_, ?_⟩
  · rcases h with h0 | ⟨o, d, hsel, ho, hd⟩
    · rw [unknown h0]; rfl
    · rw [taken o d hsel ho hd]; rfl
  · rcases h with h0 | ⟨o, d, hsel, ho, hd⟩
    · rw [unknown h0]; rfl
    · rw [taken o d hsel ho hd]; rfl
  · intro h0
    rw [unknown h0]
    exact ⟨rfl, rfl⟩
  · intro o d hsel ho hd
    rw [taken o d hsel ho hd]
    exact ⟨rfl, rfl⟩

/-- C8 at the unknown id 2 of the dispatch store, and at order 1 of a store
in which it already has driver 5. -/
theorem c8_unknown_or_already_assigned_witness :
    ((postAssignDriver (nearestAnswer [candidateFive]) (dispatchStore "available") 2
        AssignFaults.none).code = 404 ∧
      (postAssignDriver (nearestAnswer [candidateFive]) (dispatchStore "available") 2
        AssignFaults.none).nearestCalls = []) ∧
    ((postAssignDriver (nearestAnswer [candidateFive]) (storeWithOrder "assigned") 1
        AssignFaults.none).code = 400 ∧
      (postAssignDriver (nearestAnswer [candidateFive]) (storeWithOrder "assigned") 1
        AssignFaults.none).store = storeWithOrder "assigned") :=
  have h1 := c8_unknown_or_already_assigned (nearestAnswer [candidateFive])
    (dispatchStore "available") 2 AssignFaults.none (Or.inl rfl)
  have h2 := c8_unknown_or_already_assigned (nearestAnswer [candidateFive])
    (storeWithOrder "assigned") 1 AssignFaults.none
    (Or.inr ⟨sampleOrder 1 (some 5) "assigned", 5, rfl, rfl, rfl⟩)
  ⟨⟨(h1.2.2.1 rfl).1, h1.1⟩, ⟨(h2.2.2.2 _ 5 rfl rfl rfl).1, h2.2.1⟩⟩

/-- C9 (as stated, refuted). First: two runs of assign-driver, for orders 1
and 2, have both read driver 5 as first candidate while it was `available`;
the writes of the first run make driver 5 `busy`; the writes of the second run
then find driver 5 `busy`, and still answer 200 and bind order 2 to driver 5.
Second: a single run whose first candidate is `offline` in `drivers` at the
moment of the write answers 200, binds the order to it and rewrites its row
to `busy`. -/
theorem c9_busy_write_is_unconditional :
    ((assignWrites twoOrderStore 1 candidateFive ⟨0, 1 / 1000, 50⟩ AssignFaults.none).store.drivers
        = [⟨5, "KA-01", "busy"⟩] ∧
      (assignWrites
          (assignWrites twoOrderStore 1 candidateFive ⟨0, 1 / 1000, 50⟩ AssignFaults.none).store
          2 candidateFive ⟨0, 1 / 1000, 50⟩ AssignFaults.none).code = 200 ∧
      (assignWrites
          (assignWrites twoOrderStore 1 candidateFive ⟨0, 1 / 1000, 50⟩ AssignFaults.none).store
          2 candidateFive ⟨0, 1 / 1000, 50⟩ AssignFaults.none).store.orders
        = [sampleOrder 1 (some 5) "assigned", sampleOrder 2 (some 5) "assigned"]) ∧
    ((dispatchStore "offline").drivers = [⟨5, "KA-01", "offline"⟩] ∧
      (postAssignDriver (nearestAnswer [candidateFive]) (dispatchStore "offline") 1
        AssignFaults.none).code = 200 ∧
      (postAssignDriver (nearestAnswer [candidateFive]) (dispatchStore "offline") 1
        AssignFaults.none).store.drivers = [⟨5, "KA-01", "busy"⟩] ∧
      (postAssignDriver (nearestAnswer [candidateFive]) (dispatchStore "offline") 1
        AssignFaults.none).store.orders = [sampleOrder 1 (some 5) "assigned"]) := by
  refine ⟨⟨rfl, rfl, rfl⟩, rfl, rfl, rfl, rfl⟩

/-- C9 (amended): in assign-driver the availability write is keyed on the
driver's id alone. For an order without a driver and a first candidate `c`,
when the order update and the driver update do not fail the call answers 200
for `c`, and every row of `drivers` with `c`'s id, whatever its
`current_status` was, is rewritten with `current_status` `busy`. -/
theorem c9_driver_set_busy_whatever_status (nearest : FindNearestDriverRpc) (st : Store)
    (id : Nat) (f : AssignFaults) (o : Order) (c : Candidate) (rest : List Candidate)
    (hsel : f.selectOrder = false) (hord : f.updateOrder = false) (hdrv : f.updateDriver = false)
    (ho : ordersById st id = [o])
    (hd : o.driver_id = none)
    (hn : nearest st ⟨o.pickup_lat, o.pickup_lng, 50⟩ = some (c :: rest)) :
    (postAssignDriver nearest st id f).code = 200 ∧
    (postAssignDriver nearest st id f).body = .assigned "Driver assigned successfully" c ∧
    (postAssignDriver nearest st id f).store.drivers =
      st.drivers.map (fun d =>
        if d.id = c.driver_id then { d with current_status := "busy" } else d) ∧
    (∀ d ∈ st.drivers, d.id = c.driver_id →
      ({ d with current_status := "busy" } : Driver) ∈
        (postAssignDriver nearest st id f).store.drivers) := by
  have hdrivers : (postAssignDriver nearest st id f).store.drivers =
      st.drivers.map (fun d =>
        if d.id = c.driver_id then { d with current_status := "busy" } else d) := by
    cases ht : f.insertTracking <;>
      simp [postAssignDriver, hsel, ho, single, hd, hn, assignWrites, hord, hdrv, ht,
        markDriverBusy, assignOrderRow]
  refine ⟨?_, ?_, hdrivers, ?_⟩
  · simp [postAssignDriver, hsel, ho, single, hd, hn, assignWrites, hord]
  · simp [postAssignDriver, hsel, ho, single, hd, hn, assignWrites, hord]
  · intro d hmem hid
    rw [hdrivers, List.mem_map]
    exact ⟨d, hmem, by rw [if_pos hid]⟩

/-- C9 (amended) at a first candidate that is `offline` when written. -/
theorem c9_driver_set_busy_whatever_status_witness :
    (postAssignDriver (nearestAnswer [candidateFive]) (dispatchStore "offline") 1
        AssignFaults.none).code = 200 ∧
    (⟨5, "KA-01", "busy"⟩ : Driver) ∈
      (postAssignDriver (nearestAnswer [candidateFive]) (dispatchStore "offline") 1
        AssignFaults.none).store.drivers :=
  have h := c9_driver_set_busy_whatever_status (nearestAnswer [candidateFive])
    (dispatchStore "offline") 1 AssignFaults.none (sampleOrder 1 none "pending") candidateFive []
    rfl rfl rfl rfl rfl rfl
  ⟨h.1, h.2.2.2 ⟨5, "KA-01", "offline"⟩ (List.mem_singleton.2 rfl) rfl⟩

/-! ## Theorems: POST /orders -/

/-- What `itemSchema` accepts, and the value it returns. -/
theorem itemSchema_eq_some (it : ItemBody) (i : Item) :
    itemSchema it = some i ↔
      it = ⟨.val i.name, .val i.quantity, .val i.price, []⟩ ∧ i.name ≠ "" ∧
      safeNumber i.quantity = true ∧ i.quantity.den = 1 ∧ 1 ≤ i.quantity ∧
      safeNumber i.price = true ∧ 0 < i.price := by
  obtain ⟨n, q, p, u⟩ := it
  obtain ⟨n', q', p'⟩ := i
  simp only [itemSchema, bind_assoc]
  rcases n with _ | _ | n0 <;> rcases q with _ | _ | q0 <;> rcases p with _ | _ | p0 <;>
    simp [Field.required, joiNumber_eq_some, joiString_eq_some, Option.bind_eq_some, isInteger,
      positive]
  constructor
  · rintro ⟨a, ⟨h1, rfl⟩, b, ⟨⟨h2, h3, h4⟩, rfl⟩, c, ⟨⟨h5, h6⟩, rfl⟩, hu, rfl, rfl, rfl⟩
    exact ⟨⟨rfl, rfl, rfl, hu⟩, h1, h2, h3, h4, h5, h6⟩
  · rintro ⟨⟨rfl, rfl, rfl, hu⟩, h1, h2, h3, h4, h5, h6⟩
    exact ⟨_, ⟨h1, rfl⟩, _, ⟨⟨h2, h3, h4⟩, rfl⟩, _, ⟨⟨h5, h6⟩, rfl⟩, hu, rfl, rfl, rfl⟩


/-- What `joiUuid` accepts. -/
theorem joiUuid_eq_some (isUuid : String → Bool) (s r : String) :
    joiUuid isUuid s = some r ↔ s ≠ "" ∧ isUuid s = true ∧ s = r := by
  simp only [joiUuid, Option.bind_eq_some, joiString_eq_some]
  constructor
  · rintro ⟨a, ⟨h1, rfl⟩, h2⟩
    split at h2
    · cases h2
      exact ⟨h1, by assumption, rfl⟩
    · cases h2
  · rintro ⟨h1, h2, rfl⟩
    exact ⟨s, ⟨h1, rfl⟩, by simp [h2]⟩

/-- In `Option`, `mapM` succeeds exactly when the rule succeeds on every
element, with the results in the same order. -/
theorem mapM_eq_some_iff {α β : Type} (f : α → Option β) (xs : List α) (ys : List β) :
    xs.mapM f = some ys ↔ List.Forall₂ (fun x y => f x = some y) xs ys := by
  rw [← List.mapM'_eq_mapM]
  induction xs generalizing ys with
  | nil =>
    cases ys <;> simp
  | cons x xs ih =>
    simp only [List.mapM'_cons]
    cases hx : f x with
    | none =>
      simp
      intro h
      cases h with
      | cons h1 _ => rw [hx] at h1; cases h1
    | some y =>
      cases hxs : List.mapM' f xs with
      | none =>
        simp
        intro h
        cases h with
        | cons _ h2 => rw [← ih] at h2; rw [hxs] at h2; cases h2
      | some l =>
        simp
        constructor
        · rintro rfl
          exact List.Forall₂.cons hx ((ih l).1 hxs)
        · intro h
          cases h with
          | cons h1 h2 =>
            rw [hx] at h1
            rw [← ih, hxs] at h2
            cases h1; cases h2; rfl

/-- What `joiItems` accepts. -/
theorem joiItems_eq_some (raw : List ItemBody) (l : List Item) :
    joiItems raw = some l ↔
      List.Forall₂ (fun x y => itemSchema x = some y) raw l ∧ 1 ≤ l.length := by
  simp only [joiItems, Option.bind_eq_some, mapM_eq_some_iff]
  constructor
  · rintro ⟨a, h1, h2⟩
    split at h2
    · cases h2
      exact ⟨h1, by assumption⟩
    · cases h2
  · rintro ⟨h1, h2⟩
    exact ⟨l, h1, by simp [h2]⟩

/-- What `createOrderSchema` accepts, and the value it returns. -/
theorem createOrderSchema_eq_some (isUuid : String → Bool) (b : CreateOrderBody)
    (v : OrderSpec) :
    createOrderSchema isUuid b = some v ↔
      ∃ its, b = ⟨.val v.restaurant_id, .val its, .val v.total_amount, .val v.delivery_address,
          .val v.delivery_lat, .val v.delivery_lng, .val v.pickup_lat, .val v.pickup_lng, []⟩ ∧
        List.Forall₂ (fun x y => itemSchema x = some y) its v.items ∧ 1 ≤ v.items.length ∧
        v.restaurant_id ≠ "" ∧ isUuid v.restaurant_id = true ∧
        (safeNumber v.total_amount = true ∧ positive v.total_amount = true) ∧
        v.delivery_address ≠ "" ∧
        (safeNumber v.delivery_lat = true ∧ inRange (-90) 90 v.delivery_lat = true) ∧
        (safeNumber v.delivery_lng = true ∧ inRange (-180) 180 v.delivery_lng = true) ∧
        (safeNumber v.pickup_lat = true ∧ inRange (-90) 90 v.pickup_lat = true) ∧
        (safeNumber v.pickup_lng = true ∧ inRange (-180) 180 v.pickup_lng = true) := by
  obtain ⟨rid, its, tot, addr, dlat, dlng, plat, plng, u⟩ := b
  obtain ⟨rid', its', tot', addr', dlat', dlng', plat', plng'⟩ := v
  simp only [createOrderSchema, Option.bind_eq_bind, Option.bind_eq_some, required_eq_some,
    joiNumber_eq_some, joiString_eq_some, joiUuid_eq_some, joiItems_eq_some]
  constructor
  · rintro ⟨a1, ⟨_, rfl, h1, h1', rfl⟩, a2, ⟨raw, rfl, h2, h2'⟩, a3, ⟨_, rfl, h3, rfl⟩,
      a4, ⟨_, rfl, h4, rfl⟩, a5, ⟨_, rfl, h5, rfl⟩, a6, ⟨_, rfl, h6, rfl⟩,
      a7, ⟨_, rfl, h7, rfl⟩, a8, ⟨_, rfl, h8, rfl⟩, hfin⟩
    split at hfin
    · rename_i hu
      cases hfin
      subst hu
      exact ⟨raw, rfl, h2, h2', h1, h1', h3, h4, h5, h6, h7, h8⟩
    · cases hfin
  · rintro ⟨raw, hb, h2, h2', h1, h1', h3, h4, h5, h6, h7, h8⟩
    cases hb
    exact ⟨_, ⟨_, rfl, h1, h1', rfl⟩, _, ⟨raw, rfl, h2, h2'⟩, _, ⟨_, rfl, h3, rfl⟩,
      _, ⟨_, rfl, h4, rfl⟩, _, ⟨_, rfl, h5, rfl⟩, _, ⟨_, rfl, h6, rfl⟩,
      _, ⟨_, rfl, h7, rfl⟩, _, ⟨_, rfl, h8, rfl⟩, by simp⟩


/-- Every element on the left of a pairwise relation has a partner. -/
theorem forall₂_mem_left {α β : Type} {R : α → β → Prop} {xs : List α} {ys : List β}
    (h : List.Forall₂ R xs ys) {x : α} (hx : x ∈ xs) : ∃ y, y ∈ ys ∧ R x y := by
  induction h with
  | nil => cases hx
  | cons hr _ ih =>
    rcases List.mem_cons.1 hx with rfl | hx
    · exact ⟨_, List.mem_cons_self _ _, hr⟩
    · obtain ⟨y, hy, hxy⟩ := ih hx
      exact ⟨y, List.mem_cons_of_mem _ hy, hxy⟩

/-- A list whose every element has a partner is pairwise related to some list. -/
theorem forall₂_of_forall_exists {α β : Type} {R : α → β → Prop} (xs : List α)
    (h : ∀ x ∈ xs, ∃ y, R x y) : ∃ ys, List.Forall₂ R xs ys := by
  induction xs with
  | nil => exact ⟨[], List.Forall₂.nil⟩
  | cons x xs ih =>
    obtain ⟨y, hy⟩ := h x (List.mem_cons_self _ _)
    obtain ⟨ys, hys⟩ := ih (fun z hz => h z (List.mem_cons_of_mem _ hz))
    exact ⟨y :: ys, List.Forall₂.cons hy hys⟩

/-- A number between two safe bounds is safe. -/
theorem safeNumber_of_bounds (q lo hi : ℚ) (hlo : -maxSafeInteger ≤ lo) (hhi : hi ≤ maxSafeInteger)
    (h1 : lo ≤ q) (h2 : q ≤ hi) : safeNumber q = true := by
  simp only [safeNumber, Bool.and_eq_true, decide_eq_true_eq]
  exact ⟨le_trans hlo h1, le_trans h2 hhi⟩

/-- C10 (as stated, refuted): the body has every required key, no item at all
(so no item out of bounds), a positive total and coordinates in range; no
choice of the UUID test makes it pass `createOrderSchema` (`items` needs at
least one element), and POST /orders answers 400. -/
theorem c10_empty_items_rejected :
    ¬ ∃ isUuid : String → Bool,
      createOrderSchema isUuid
        ⟨.val "123e4567-e89b-12d3-a456-426614174000", .val [], .val 20, .val "1 Main St",
          .val 0, .val 0, .val 0, .val 0, []⟩ ≠ none ∨
      (postOrder isUuid Store.empty 7
        ⟨.val "123e4567-e89b-12d3-a456-426614174000", .val [], .val 20, .val "1 Main St",
          .val 0, .val 0, .val 0, .val 0, []⟩ 1 "ORD-1" CreateFaults.none).code ≠ 400 := by
  rintro ⟨isUuid, h⟩
  have hv : createOrderSchema isUuid
      ⟨.val "123e4567-e89b-12d3-a456-426614174000", .val [], .val 20, .val "1 Main St",
        .val 0, .val 0, .val 0, .val 0, []⟩ = none := by
    cases hc : createOrderSchema isUuid
        ⟨.val "123e4567-e89b-12d3-a456-426614174000", .val [], .val 20, .val "1 Main St",
          .val 0, .val 0, .val 0, .val 0, []⟩ with
    | none => rfl
    | some v =>
      obtain ⟨its, hb, h2, h2', _⟩ := (createOrderSchema_eq_some isUuid _ v).1 hc
      injection hb with _ hits
      injection hits with hits
      subst hits
      have hlen := h2.length_eq
      simp only [List.length_nil] at hlen
      omega
  rcases h with h | h
  · exact h hv
  · simp [postOrder, hv, reject] at h

/-- C10 (amended). POST /orders answers 400 and writes nothing whenever some
item has a quantity below 1 or a non-integer quantity, some item has a price
not greater than 0, `total_amount` is not greater than 0, or a latitude lies
outside [-90, 90] or a longitude outside [-180, 180]. A body passes validation
when it has exactly the eight declared keys, `restaurant_id` is a non-empty
string in UUID format, `delivery_address` is a non-empty string, `items` has
at least one element, every item has exactly a non-empty `name`, an integer
`quantity` ≥ 1 and a `price` > 0, `total_amount` is > 0, the coordinates are
in range, and no number exceeds `Number.MAX_SAFE_INTEGER`. -/
theorem c10_create_order_validation (isUuid : String → Bool) (st : Store) (user : Nat)
    (body : CreateOrderBody) (newId : Nat) (orderNumber : String) (f : CreateFaults) :
    (((∃ its it q, body.items = .val its ∧ it ∈ its ∧ it.quantity = .val q ∧
          (q < 1 ∨ q.den ≠ 1)) ∨
      (∃ its it p, body.items = .val its ∧ it ∈ its ∧ it.price = .val p ∧ p ≤ 0) ∨
      (∃ t, body.total_amount = .val t ∧ t ≤ 0) ∨
      (∃ x, (body.pickup_lat = .val x ∨ body.delivery_lat = .val x) ∧ (x < -90 ∨ 90 < x)) ∨
      (∃ x, (body.pickup_lng = .val x ∨ body.delivery_lng = .val x) ∧
          (x < -180 ∨ 180 < x))) →
      createOrderSchema isUuid body = none ∧
      (postOrder isUuid st user body newId orderNumber f).code = 400 ∧
      (postOrder isUuid st user body newId orderNumber f).store = st) ∧
    ((∃ rid its total addr dlat dlng plat plng,
        body = ⟨.val rid, .val its, .val total, .val addr, .val dlat, .val dlng, .val plat,
          .val plng, []⟩ ∧
        rid ≠ "" ∧ isUuid rid = true ∧ addr ≠ "" ∧ its ≠ [] ∧
        (∀ it ∈ its, ∃ n q p, it = ⟨.val n, .val q, .val p, []⟩ ∧ n ≠ "" ∧
          q.den = 1 ∧ 1 ≤ q ∧ q ≤ maxSafeInteger ∧ 0 < p ∧ p ≤ maxSafeInteger) ∧
        0 < total ∧ total ≤ maxSafeInteger ∧
        (-90 ≤ dlat ∧ dlat ≤ 90) ∧ (-180 ≤ dlng ∧ dlng ≤ 180) ∧
        (-90 ≤ plat ∧ plat ≤ 90) ∧ (-180 ≤ plng ∧ plng ≤ 180)) →
      ∃ v, createOrderSchema isUuid body = some v ∧
        (postOrder isUuid st user body newId orderNumber f).code ≠ 400) := by
  constructor
  · intro hbad
    have hv : createOrderSchema isUuid body = none := by
      cases hc : createOrderSchema isUuid body with
      | none => rfl
      | some v =>
        exfalso
        obtain ⟨its, hb, h2, _, _, _, h3, _, h5, h6, h7, h8⟩ :=
          (createOrderSchema_eq_some isUuid body v).1 hc
        subst hb
        simp only [positive, inRange, Bool.and_eq_true, decide_eq_true_eq] at h3 h5 h6 h7 h8
        rcases hbad with ⟨its', it, q, hits, hit, hq, hbadq⟩ | ⟨its', it, p, hits, hit, hp, hbadp⟩ |
          ⟨t, ht, hbadt⟩ | ⟨x, hx, hbadx⟩ | ⟨x, hx, hbadx⟩
        · cases hits
          obtain ⟨y, _, hy⟩ := forall₂_mem_left h2 hit
          obtain ⟨hity, _, _, hden, hone, _, _⟩ := (itemSchema_eq_some it y).1 hy
          rw [hity] at hq
          cases hq
          rcases hbadq with hlt | hnd
          · exact absurd hone (not_le.2 hlt)
          · exact hnd hden
        · cases hits
          obtain ⟨y, _, hy⟩ := forall₂_mem_left h2 hit
          obtain ⟨hity, _, _, _, _, _, hpos⟩ := (itemSchema_eq_some it y).1 hy
          rw [hity] at hp
          cases hp
          exact absurd hpos (not_lt.2 hbadp)
        · cases ht
          exact absurd h3.2 (not_lt.2 hbadt)
        · rcases hx with hx | hx <;> cases hx
          · rcases hbadx with h | h
            · exact absurd h7.2.1 (not_le.2 h)
            · exact absurd h7.2.2 (not_le.2 h)
          · rcases hbadx with h | h
            · exact absurd h5.2.1 (not_le.2 h)
            · exact absurd h5.2.2 (not_le.2 h)
        · rcases hx with hx | hx <;> cases hx
          · rcases hbadx with h | h
            · exact absurd h8.2.1 (not_le.2 h)
            · exact absurd h8.2.2 (not_le.2 h)
          · rcases hbadx with h | h
            · exact absurd h6.2.1 (not_le.2 h)
            · exact absurd h6.2.2 (not_le.2 h)
    exact ⟨hv, by simp [postOrder, hv, reject], by simp [postOrder, hv, reject]⟩
  · rintro ⟨rid, its, total, addr, dlat, dlng, plat, plng, rfl, hrid, huuid, haddr, hne, hitems,
      htot, htot', hdlat, hdlng, hplat, hplng⟩
    have hmax : (0 : ℚ) ≤ maxSafeInteger := by norm_num [maxSafeInteger]
    have hlo : ∀ c : ℚ, -180 ≤ c → -maxSafeInteger ≤ c := by
      intro c hc
      have : -maxSafeInteger ≤ (-180 : ℚ) := by norm_num [maxSafeInteger]
      exact le_trans this hc
    have hhi : ∀ c : ℚ, c ≤ 180 → c ≤ maxSafeInteger := by
      intro c hc
      have : (180 : ℚ) ≤ maxSafeInteger := by norm_num [maxSafeInteger]
      exact le_trans hc this
    have hsafe : ∀ c : ℚ, 0 ≤ c → c ≤ maxSafeInteger → safeNumber c = true := by
      intro c h0 h1
      exact safeNumber_of_bounds c 0 maxSafeInteger (by simpa using hmax) le_rfl h0 h1
    have hcoord : ∀ c lo hi : ℚ, -180 ≤ lo → hi ≤ 180 → lo ≤ c → c ≤ hi →
        safeNumber c = true ∧ inRange lo hi c = true := by
      intro c lo hi h1 h2 h3 h4
      refine ⟨?_, by simp [inRange, h3, h4]⟩
      simp only [safeNumber, Bool.and_eq_true, decide_eq_true_eq]
      exact ⟨hlo c (le_trans h1 h3), hhi c (le_trans h4 h2)⟩
    obtain ⟨l, hl⟩ := forall₂_of_forall_exists (R := fun x y => itemSchema x = some y) its (by
      intro it hit
      obtain ⟨n, q, p, rfl, hn, hden, hq1, hq2, hp1, hp2⟩ := hitems it hit
      refine ⟨⟨n, q, p⟩, (itemSchema_eq_some _ _).2 ⟨rfl, hn, ?_, hden, hq1, ?_, hp1⟩⟩
      · exact hsafe q (le_trans zero_le_one hq1) hq2
      · exact hsafe p (le_of_lt hp1) hp2)
    have hlen : 1 ≤ l.length := by
      rw [← hl.length_eq]
      cases its with
      | nil => exact absurd rfl hne
      | cons _ _ => simp
    have hv : createOrderSchema isUuid
        ⟨.val rid, .val its, .val total, .val addr, .val dlat, .val dlng, .val plat, .val plng, []⟩
        = some ⟨rid, l, total, addr, dlat, dlng, plat, plng⟩ := by
      refine (createOrderSchema_eq_some isUuid _ _).2
        ⟨its, rfl, hl, hlen, hrid, huuid, ⟨hsafe total (le_of_lt htot) htot', ?_⟩, haddr,
          hcoord dlat (-90) 90 (by norm_num) (by norm_num) hdlat.1 hdlat.2,
          hcoord dlng (-180) 180 le_rfl le_rfl hdlng.1 hdlng.2,
          hcoord plat (-90) 90 (by norm_num) (by norm_num) hplat.1 hplat.2,
          hcoord plng (-180) 180 le_rfl le_rfl hplng.1 hplng.2⟩
      simp [positive, htot]
    refine ⟨_, hv, ?_⟩
    simp only [postOrder, hv]
    split <;> simp [reject]

/-- C10 (amended) at the creation scenario and at the same body with total 0. -/
theorem c10_create_order_validation_witness :
    (∃ v, createOrderSchema sampleIsUuid pizzaBody = some v ∧
      (postOrder sampleIsUuid Store.empty 7 pizzaBody 1 "ORD-1" CreateFaults.none).code ≠ 400) ∧
    (postOrder sampleIsUuid Store.empty 7 { pizzaBody with total_amount := .val 0 } 1 "ORD-1"
      CreateFaults.none).code = 400 :=
  ⟨(c10_create_order_validation sampleIsUuid Store.empty 7 pizzaBody 1 "ORD-1"
      CreateFaults.none).2
      ⟨"123e4567-e89b-12d3-a456-426614174000", [⟨.val "Pizza", .val 2, .val 10, []⟩], 20,
        "1 Main St", 0, 0, 0, 0, rfl, by decide, by decide, by decide, by simp,
        by
          intro it hit
          rw [List.mem_singleton] at hit
          exact ⟨"Pizza", 2, 10, hit, by decide, rfl, by norm_num,
            by norm_num [maxSafeInteger], by norm_num, by norm_num [maxSafeInteger]⟩,
        by norm_num, by norm_num [maxSafeInteger], by norm_num, by norm_num, by norm_num,
        by norm_num⟩,
   ((c10_create_order_validation sampleIsUuid Store.empty 7
      { pizzaBody with total_amount := .val 0 } 1 "ORD-1" CreateFaults.none).1
      (Or.inr (Or.inr (Or.inl ⟨0, rfl, le_rfl⟩)))).2.1⟩

/-! ## Theorems: reachable states -/

/-- C4 (as stated, refuted): from a store with one available driver and no
order, a valid POST /orders followed by assign-driver (no call failing)
leaves order 1 with status `assigned`, which is not one of the eight statuses
of §4.1, and with the tracking log pending, assigned, whose only step is not
an edge of the §4.1 graph. -/
theorem c4_assigned_is_reached :
    (run specUpdateOrderStatus fleetStore
        [.create sampleIsUuid 7 pizzaBody 1 "ORD-1" CreateFaults.none,
         .assign (nearestAnswer [candidateFive]) 1 AssignFaults.none]).orders.map
      (fun o => (o.id, o.status)) = [(1, "assigned")] ∧
    "assigned" ∉ ["pending", "accepted", "preparing", "ready_for_pickup", "picked_up",
      "out_for_delivery", "delivered", "cancelled"] ∧
    trackingLog (run specUpdateOrderStatus fleetStore
        [.create sampleIsUuid 7 pizzaBody 1 "ORD-1" CreateFaults.none,
         .assign (nearestAnswer [candidateFive]) 1 AssignFaults.none]) 1 =
      ["pending", "assigned"] ∧
    legalSuccessor "pending" "assigned" = false := by
  refine ⟨?_, by decide, ?_, by decide⟩
  · decide
  · decide


/-- The rows of one key after an update of the rows of a key that keeps keys. -/
theorem filter_id_map_update (l : List Order) (id id1 : Nat) (g : Order → Order)
    (hg : ∀ x, (g x).id = x.id) :
    (l.map (fun x => if x.id = id then g x else x)).filter (fun o => o.id = id1) =
      (l.filter (fun o => o.id = id1)).map (fun x => if x.id = id then g x else x) := by
  have hp : ((fun o : Order => decide (o.id = id1)) ∘ fun x => if x.id = id then g x else x) =
      fun o => decide (o.id = id1) := by
    funext x
    simp only [Function.comp]
    split
    · rw [hg x]
    · rfl
  rw [List.filter_map, hp]

/-- The log of an order after one more tracking entry. -/
theorem filter_log_append (t : List TrackingEntry) (e : TrackingEntry) (id : Nat) :
    ((t ++ [e]).filter (fun x => x.order_id = id)).map (fun x => x.status) =
      (t.filter (fun x => x.order_id = id)).map (fun x => x.status) ++
        (if e.order_id = id then [e.status] else []) := by
  by_cases h : e.order_id = id <;> simp [List.filter_append, List.filter_cons, h]


/-- The call `single` answers with a row exactly on a one-row list. -/
theorem single_eq_some {α : Type} (l : List α) (a : α) : single l = some a ↔ l = [a] := by
  match l with
  | [] => simp [single]
  | [r] => simp [single]
  | _ :: _ :: _ => simp [single]

/-- What a run of PATCH /orders/:id/status does to `orders` and
`order_tracking` when the procedure keeps to §4.1. -/
theorem patchOrderStatus_shape (rpc : UpdateOrderStatusRpc) (hrpc : LegalProcedure rpc)
    (st : Store) (user id : Nat) (body : UpdateStatusBody) (f : PatchFaults) :
    (patchOrderStatus rpc st user id body f).store = st ∨
    ∃ (o : Order) (a : UpdateStatusArgs), a.order_uuid = id ∧ ordersById st id = [o] ∧
      o.driver_id = some user ∧ legalSuccessor o.status a.new_status = true ∧
      (patchOrderStatus rpc st user id body f).store = applyTransition st a := by
  unfold patchOrderStatus
  cases updateStatusSchema body with
  | none => left; rfl
  | some value =>
    simp only []
    cases hsel : f.selectOrder
    · simp only [Bool.false_eq_true, if_false]
      cases hrow : single (st.orders.filter (fun o => o.id = id ∧ o.driver_id = some user)) with
      | none => left; rfl
      | some o1 =>
        simp only []
        cases hr : rpc st ⟨id, value.status, value.description, value.location_lat,
            value.location_lng⟩ with
        | none => left; rfl
        | some st1 =>
          simp only []
          rcases hrpc st _ st1 hr with h | ⟨o, ho, hl, hst⟩
          · left; exact h
          · right
            refine ⟨o, _, rfl, ho, ?_, hl, hst⟩
            rw [filter_id_driver, ho, single_eq_some] at hrow
            by_cases hd : o.driver_id = some user
            · exact hd
            · simp [List.filter_cons, hd] at hrow
    · left; rfl

/-- What a run of assign-driver does to `orders` and `order_tracking`. -/
theorem postAssignDriver_shape (nearest : FindNearestDriverRpc) (st : Store) (id : Nat)
    (f : AssignFaults) :
    (postAssignDriver nearest st id f).store = st ∨
    ∃ (o : Order) (c : Candidate), ordersById st id = [o] ∧ o.driver_id = none ∧
      (postAssignDriver nearest st id f).store.orders =
        st.orders.map (fun x =>
          if x.id = id then { x with driver_id := some c.driver_id, status := "assigned" }
          else x) ∧
      (postAssignDriver nearest st id f).store.order_tracking =
        (if f.insertTracking then st.order_tracking
         else st.order_tracking ++ [assignmentEntry id c]) := by
  unfold postAssignDriver
  cases hsel : f.selectOrder
  · simp only [Bool.false_eq_true, if_false]
    cases hrow : single (ordersById st id) with
    | none => left; rfl
    | some o =>
      rw [single_eq_some] at hrow
      simp only []
      cases hdrv : o.driver_id with
      | some d => left; rfl
      | none =>
        simp only [Option.isSome_none, Bool.false_eq_true, if_false]
        cases nearest st ⟨o.pickup_lat, o.pickup_lng, 50⟩ with
        | none => left; rfl
        | some rows =>
          cases rows with
          | nil => left; rfl
          | cons c rest =>
            simp only [assignWrites]
            cases f.updateOrder
            · right
              refine ⟨o, c, hrow, hdrv, ?_, ?_⟩
              · cases f.updateDriver <;> cases f.insertTracking <;> rfl
              · cases f.updateDriver <;> cases f.insertTracking <;> rfl
            · left; rfl
  · left; rfl


/-- The procedure of §4.1 keeps to §4.1. -/
theorem legalProcedure_spec : LegalProcedure specUpdateOrderStatus := by
  intro st a st1 h
  unfold specUpdateOrderStatus at h
  cases hrow : single (ordersById st a.order_uuid) with
  | none => simp [hrow] at h
  | some o =>
    simp only [hrow] at h
    rw [single_eq_some] at hrow
    split at h
    · left
      injection h with h
      exact h.symm
    · split at h
      · rename_i hl
        right
        injection h with h
        exact ⟨o, hrow, hl, h.symm⟩
      · cases h

/-- In the graph of §4.1 the only successor of `assigned` is `cancelled`. -/
theorem legalSuccessor_assigned (s : String) (h : legalSuccessor "assigned" s = true) :
    s = "cancelled" := by
  have hc : chainNext "assigned" = none := by decide
  simp only [legalSuccessor, hc, Bool.or_eq_true, decide_eq_true_eq, Bool.and_eq_true] at h
  rcases h with h | ⟨h, _⟩
  · cases h
  · exact h

/-- In the graph of §4.1 `cancelled` has no successor. -/
theorem legalSuccessor_cancelled (s : String) : legalSuccessor "cancelled" s = false := by
  have hc : chainNext "cancelled" = none := by decide
  have ht : isTerminal "cancelled" = true := by decide
  simp [legalSuccessor, hc, ht]

/-- The order POST /orders stores has no driver. -/
theorem postOrder_new_row (isUuid : String → Bool) (st : Store) (user : Nat)
    (body : CreateOrderBody) (newId : Nat) (orderNumber : String) (f : CreateFaults) :
    (postOrder isUuid st user body newId orderNumber f).store = st ∨
    ∃ o : Order, o.id = newId ∧ ordersById st newId = [] ∧ o.status = "pending" ∧
      o.driver_id = none ∧
      (postOrder isUuid st user body newId orderNumber f).store.orders = st.orders ++ [o] ∧
      (postOrder isUuid st user body newId orderNumber f).store.order_tracking =
        (if f.insertTracking then st.order_tracking
         else st.order_tracking ++
          [⟨newId, "pending", some "Order placed successfully", none, none⟩]) := by
  unfold postOrder
  cases createOrderSchema isUuid body with
  | none => left; rfl
  | some value =>
    simp only []
    split
    · left; rfl
    · rename_i hcond
      simp only [Bool.or_eq_true, decide_eq_true_eq, not_or, Bool.not_eq_true, ne_eq,
        not_not] at hcond
      right
      let o : Order :=
        { id := newId, customer_id := user, driver_id := none, order_number := orderNumber,
          status := "pending", restaurant_id := value.restaurant_id, items := value.items,
          total_amount := value.total_amount, delivery_address := value.delivery_address,
          delivery_lat := value.delivery_lat, delivery_lng := value.delivery_lng,
          pickup_lat := value.pickup_lat, pickup_lng := value.pickup_lng }
      refine ⟨o, rfl, hcond.2, rfl, rfl, ?_, ?_⟩
      · cases f.insertTracking <;> rfl
      · cases f.insertTracking <;> rfl

/-- The property of the rows survives the insertion of a new order with its
first tracking entry. -/
theorem rowsWith_insert (P : Order → List String → Prop) (st st1 : Store) (o : Order)
    (e : TrackingEntry) (hc : RowsWith P st) (ho : ordersById st o.id = [])
    (he1 : e.order_id = o.id) (hP : P o [e.status])
    (horders : st1.orders = st.orders ++ [o])
    (htrack : st1.order_tracking = st.order_tracking ++ [e]) : RowsWith P st1 := by
  intro id1
  have hlog : trackingLog st1 id1 =
      trackingLog st id1 ++ (if e.order_id = id1 then [e.status] else []) := by
    simp only [trackingLog, htrack]
    exact filter_log_append st.order_tracking e id1
  have hrows : ordersById st1 id1 = ordersById st id1 ++ (if o.id = id1 then [o] else []) := by
    simp only [ordersById, horders, List.filter_append]
    by_cases h : o.id = id1 <;> simp [List.filter_cons, h]
  by_cases h : o.id = id1
  · subst h
    right
    rcases hc o.id with ⟨_, hl⟩ | ⟨o1, ho1, _⟩
    · refine ⟨o, ?_, ?_⟩
      · rw [hrows, ho]; simp
      · rw [hlog, hl]
        simp only [he1, if_true, List.nil_append]
        exact hP
    · rw [ho] at ho1
      cases ho1
  · have h2 : ¬ e.order_id = id1 := by rw [he1]; exact h
    rw [hlog, hrows]
    simp only [h, h2, if_false, List.append_nil]
    exact hc id1

/-- The property of the rows survives a change of one order written together
with its tracking entry, when the property passes from the old row and log to
the new. -/
theorem rowsWith_update (P : Order → List String → Prop) (st st1 : Store) (id : Nat)
    (o : Order) (g : Order → Order) (e : TrackingEntry)
    (hc : RowsWith P st) (ho : ordersById st id = [o])
    (hg1 : ∀ x, (g x).id = x.id) (he1 : e.order_id = id)
    (hP : ∀ log, P o log → P (g o) (log ++ [e.status]))
    (horders : st1.orders = st.orders.map (fun x => if x.id = id then g x else x))
    (htrack : st1.order_tracking = st.order_tracking ++ [e]) : RowsWith P st1 := by
  intro id1
  have hlog : trackingLog st1 id1 =
      trackingLog st id1 ++ (if e.order_id = id1 then [e.status] else []) := by
    simp only [trackingLog, htrack]
    exact filter_log_append st.order_tracking e id1
  have hrows : ordersById st1 id1 =
      (ordersById st id1).map (fun x => if x.id = id then g x else x) := by
    simp only [ordersById, horders]
    exact filter_id_map_update st.orders id id1 g hg1
  have hoid : o.id = id := by
    have hmem : o ∈ ordersById st id := by rw [ho]; exact List.mem_singleton.2 rfl
    simp only [ordersById, List.mem_filter, decide_eq_true_eq] at hmem
    exact hmem.2
  by_cases h : id1 = id
  · subst h
    right
    rcases hc id1 with ⟨h0, _⟩ | ⟨o1, ho1, hw⟩
    · rw [ho] at h0
      cases h0
    · rw [ho] at ho1
      cases ho1
      refine ⟨g o, ?_, ?_⟩
      · rw [hrows, ho]
        simp [hoid]
      · rw [hlog]
        simp only [he1, if_true]
        exact hP _ hw
  · have h2 : ¬ e.order_id = id1 := by
      rw [he1]
      exact fun h3 => h h3.symm
    have hmap : (ordersById st id1).map (fun x => if x.id = id then g x else x) =
        ordersById st id1 := by
      conv_rhs => rw [← List.map_id (ordersById st id1)]
      apply List.map_congr_left
      intro x hx
      simp only [ordersById, List.mem_filter, decide_eq_true_eq] at hx
      have : ¬ x.id = id := by
        rw [hx.2]
        exact h
      simp [this]
    rw [hlog, hrows, hmap]
    simp only [h2, if_false, List.append_nil]
    exact hc id1

/-- Every handler whose tracking insert does not fail keeps every order at
one of the three stages, when the procedure keeps to §4.1. -/
theorem stage_handle (rpc : UpdateOrderStatusRpc) (hrpc : LegalProcedure rpc)
    (st : Store) (r : Request) (htr : r.tracked = true) (h : RowsWith Stage st) :
    RowsWith Stage (handle rpc st r).store := by
  cases r with
  | create isUuid user body newId orderNumber f =>
    have hf : f.insertTracking = false := by simpa [Request.tracked] using htr
    rcases postOrder_new_row isUuid st user body newId orderNumber f with
      hs | ⟨o, hid, hnew, hp, hd, h1, h2⟩
    · simp only [handle, hs]; exact h
    · simp only [hf, Bool.false_eq_true, if_false] at h2
      exact rowsWith_insert Stage st _ o _ h (by rw [hid]; exact hnew) (by rw [hid])
        (Or.inl ⟨hd, hp, rfl⟩) h1 h2
  | status user id body f =>
    rcases patchOrderStatus_shape rpc hrpc st user id body f with
      hs | ⟨o, a, ha, hrow, hd, hl, hs⟩
    · simp only [handle, hs]; exact h
    · subst ha
      simp only [handle, hs]
      refine rowsWith_update Stage st _ a.order_uuid o (fun x => { x with status := a.new_status })
        ⟨a.order_uuid, a.new_status, a.description, a.location_lat, a.location_lng⟩
        h hrow (fun _ => rfl) rfl ?_ rfl rfl
      intro log hst
      rcases hst with ⟨hn, _, _⟩ | ⟨hdn, hs1, hlog⟩ | ⟨_, hs1, _⟩
      · rw [hd] at hn
        cases hn
      · rw [hs1] at hl
        have hnew := legalSuccessor_assigned _ hl
        right; right
        refine ⟨hdn, hnew, ?_⟩
        simp only [hlog, hnew]
        rfl
      · rw [hs1, legalSuccessor_cancelled] at hl
        cases hl
  | assign nearest id f =>
    have hf : f.insertTracking = false := by simpa [Request.tracked] using htr
    rcases postAssignDriver_shape nearest st id f with hs | ⟨o, c, hrow, hd, h1, h2⟩
    · simp only [handle, hs]; exact h
    · simp only [hf, Bool.false_eq_true, if_false] at h2
      refine rowsWith_update Stage st _ id o
        (fun x => { x with driver_id := some c.driver_id, status := "assigned" })
        (assignmentEntry id c) h hrow (fun _ => rfl) rfl ?_ h1 h2
      intro log hst
      rcases hst with ⟨_, _, hlog⟩ | ⟨hdn, _, _⟩ | ⟨hdn, _, _⟩
      · right; left
        refine ⟨by simp, rfl, ?_⟩
        rw [hlog]
        rfl
      · exact absurd hd hdn
      · exact absurd hd hdn

/-- The three stages along a run in which no tracking insert fails. -/
theorem stage_run (rpc : UpdateOrderStatusRpc) (hrpc : LegalProcedure rpc)
    (reqs : List Request) :
    ∀ st, (∀ r ∈ reqs, r.tracked = true) → RowsWith Stage st →
      RowsWith Stage (run rpc st reqs) := by
  induction reqs with
  | nil => intro st _ h; exact h
  | cons r rs ih =>
    intro st htr h
    exact ih _ (fun x hx => htr x (List.mem_cons_of_mem _ hx))
      (stage_handle rpc hrpc st r (htr r (List.mem_cons_self _ _)) h)

/-- What the writes of the assignment handler do to `orders` and to
`order_tracking`. -/
theorem assignWrites_tables (st : Store) (id : Nat) (c : Candidate) (q : NearestArgs)
    (f : AssignFaults) :
    ((assignWrites st id c q f).store.orders = st.orders ∨
      (assignWrites st id c q f).store.orders =
        st.orders.map (fun x =>
          if x.id = id then { x with driver_id := some c.driver_id, status := "assigned" }
          else x)) ∧
    ((assignWrites st id c q f).store.order_tracking = st.order_tracking ∨
      (assignWrites st id c q f).store.order_tracking =
        st.order_tracking ++ [assignmentEntry id c]) := by
  unfold assignWrites
  cases f.updateOrder
  · cases f.updateDriver <;> cases f.insertTracking <;>
      simp [assignOrderRow, markDriverBusy]
  · exact ⟨Or.inl rfl, Or.inl rfl⟩

/-- The writes of the assignment handler keep the statuses among the three. -/
theorem threeStatuses_assignWrites (st : Store) (id : Nat) (c : Candidate) (q : NearestArgs)
    (f : AssignFaults) (h : ThreeStatuses st) :
    ThreeStatuses (assignWrites st id c q f).store := by
  obtain ⟨ho, ht⟩ := h
  obtain ⟨h1, h2⟩ := assignWrites_tables st id c q f
  constructor
  · intro x hx
    rcases h1 with h1 | h1
    · rw [h1] at hx
      exact ho x hx
    · rw [h1] at hx
      obtain ⟨y, hy, rfl⟩ := List.mem_map.1 hx
      split
      · right
        exact ⟨by simp, Or.inl rfl⟩
      · exact ho y hy
  · intro e he
    rcases h2 with h2 | h2
    · rw [h2] at he
      exact ht e he
    · rw [h2] at he
      rcases List.mem_append.1 he with he | he
      · exact ht e he
      · rw [List.mem_singleton.1 he]
        exact (by decide : "assigned" ∈ ["pending", "assigned", "cancelled"])

/-- A response of the assignment handler sent before the writes comes with
the tables as they were. -/
theorem assignRead_inl_store (nearest : FindNearestDriverRpc) (st : Store) (id : Nat)
    (f : AssignFaults) (out : Outcome) (h : assignRead nearest st id f = .inl out) :
    out.store = st := by
  unfold assignRead at h
  cases hsel : f.selectOrder
  · simp only [hsel, Bool.false_eq_true, if_false] at h
    cases hrow : single (ordersById st id) with
    | none =>
      simp only [hrow] at h
      rw [← Sum.inl.inj h]
      rfl
    | some o =>
      simp only [hrow] at h
      cases hdrv : o.driver_id with
      | some d =>
        simp only [hdrv, Option.isSome_some, if_true] at h
        rw [← Sum.inl.inj h]
        rfl
      | none =>
        simp only [hdrv, Option.isSome_none, Bool.false_eq_true, if_false] at h
        cases hn : nearest st ⟨o.pickup_lat, o.pickup_lng, 50⟩ with
        | none =>
          simp only [hn] at h
          rw [← Sum.inl.inj h]
        | some rows =>
          cases rows with
          | nil =>
            simp only [hn] at h
            rw [← Sum.inl.inj h]
          | cons c rest =>
            simp only [hn] at h
            cases h
  · simp only [hsel, if_true] at h
    rw [← Sum.inl.inj h]
    rfl

/-- Two overlapping runs of the assignment handler keep the statuses among the
three. -/
theorem threeStatuses_overlap (nearest : FindNearestDriverRpc) (st : Store) (id1 id2 : Nat)
    (f1 f2 : AssignFaults) (h : ThreeStatuses st) :
    ThreeStatuses (assignOverlapping nearest st id1 id2 f1 f2).2.store := by
  unfold assignOverlapping
  cases h1 : assignRead nearest st id1 f1 with
  | inl out1 =>
    cases h2 : assignRead nearest st id2 f2 with
    | inl out2 =>
      simp only []
      rw [assignRead_inl_store nearest st id2 f2 out2 h2]
      exact h
    | inr p2 =>
      obtain ⟨c2, q2⟩ := p2
      exact threeStatuses_assignWrites st id2 c2 q2 f2 h
  | inr p1 =>
    obtain ⟨c1, q1⟩ := p1
    cases h2 : assignRead nearest st id2 f2 with
    | inl out2 => exact threeStatuses_assignWrites st id1 c1 q1 f1 h
    | inr p2 =>
      obtain ⟨c2, q2⟩ := p2
      exact threeStatuses_assignWrites _ id2 c2 q2 f2
        (threeStatuses_assignWrites st id1 c1 q1 f1 h)

/-- Every handler keeps the statuses among the three, when the procedure
keeps to §4.1. -/
theorem threeStatuses_handle (rpc : UpdateOrderStatusRpc) (hrpc : LegalProcedure rpc)
    (st : Store) (r : Request) (h : ThreeStatuses st) :
    ThreeStatuses (handle rpc st r).store := by
  obtain ⟨ho, ht⟩ := h
  cases r with
  | create isUuid user body newId orderNumber f =>
    rcases postOrder_new_row isUuid st user body newId orderNumber f with
      hs | ⟨o, _, _, hp, hd, h1, h2⟩
    · simp only [handle, hs]; exact ⟨ho, ht⟩
    · simp only [handle, ThreeStatuses, h1, h2]
      constructor
      · intro x hx
        rcases List.mem_append.1 hx with hx | hx
        · exact ho x hx
        · rw [List.mem_singleton.1 hx]
          exact Or.inl ⟨hd, hp⟩
      · intro e he
        split at he
        · exact ht e he
        · rcases List.mem_append.1 he with he | he
          · exact ht e he
          · rw [List.mem_singleton.1 he]
            exact (by decide : "pending" ∈ ["pending", "assigned", "cancelled"])
  | status user id body f =>
    rcases patchOrderStatus_shape rpc hrpc st user id body f with
      hs | ⟨o, a, ha, hrow, hd, hl, hs⟩
    · simp only [handle, hs]; exact ⟨ho, ht⟩
    · have hmem : o ∈ st.orders := by
        have : o ∈ ordersById st id := by rw [hrow]; exact List.mem_singleton.2 rfl
        exact (List.mem_filter.1 this).1
      have hnew : a.new_status = "cancelled" := by
        rcases ho o hmem with ⟨hn, _⟩ | ⟨_, hs1 | hs1⟩
        · rw [hd] at hn
          cases hn
        · rw [hs1] at hl
          exact legalSuccessor_assigned _ hl
        · rw [hs1, legalSuccessor_cancelled] at hl
          cases hl
      simp only [handle, ThreeStatuses, hs, applyTransition]
      constructor
      · intro x hx
        obtain ⟨y, hy, rfl⟩ := List.mem_map.1 hx
        split
        · rename_i hyid
          have hyo : y = o := by
            have : y ∈ ordersById st id :=
              List.mem_filter.2 ⟨hy, by simpa [ha] using hyid⟩
            rw [hrow] at this
            exact List.mem_singleton.1 this
          subst hyo
          right
          exact ⟨by simp [hd], Or.inr hnew⟩
        · exact ho y hy
      · intro e he
        rcases List.mem_append.1 he with he | he
        · exact ht e he
        · rw [List.mem_singleton.1 he]
          simp only [hnew]
          exact (by decide : "cancelled" ∈ ["pending", "assigned", "cancelled"])
  | assign nearest id f =>
    rcases postAssignDriver_shape nearest st id f with hs | ⟨o, c, _, _, h1, h2⟩
    · simp only [handle, hs]; exact ⟨ho, ht⟩
    · simp only [handle, ThreeStatuses, h1, h2]
      constructor
      · intro x hx
        obtain ⟨y, hy, rfl⟩ := List.mem_map.1 hx
        split
        · right
          exact ⟨by simp, Or.inl rfl⟩
        · exact ho y hy
      · intro e he
        split at he
        · exact ht e he
        · rcases List.mem_append.1 he with he | he
          · exact ht e he
          · rw [List.mem_singleton.1 he]
            exact (by decide : "assigned" ∈ ["pending", "assigned", "cancelled"])

/-- The three statuses along the rounds. -/
theorem threeStatuses_runRounds (rpc : UpdateOrderStatusRpc) (hrpc : LegalProcedure rpc)
    (rounds : List Round) :
    ∀ st, ThreeStatuses st → ThreeStatuses (runRounds rpc st rounds) := by
  induction rounds with
  | nil => intro st h; exact h
  | cons r rs ih =>
    intro st h
    apply ih
    cases r with
    | serve r => exact threeStatuses_handle rpc hrpc st r h
    | overlap nearest id1 id2 f1 f2 => exact threeStatuses_overlap nearest st id1 id2 f1 f2 h

/-- Serving requests one after the other is a run of rounds. -/
theorem runRounds_serve (rpc : UpdateOrderStatusRpc) (reqs : List Request) :
    ∀ st, runRounds rpc st (reqs.map Round.serve) = run rpc st reqs := by
  induction reqs with
  | nil => intro st; rfl
  | cons r rs ih =>
    intro st
    exact ih _

/-- C4 (amended): start from tables with no order and no tracking entry,
`update_order_status` keeping to §4.1. After any rounds of POST /orders,
PATCH /orders/:id/status and assign-driver requests, each served alone or two
assign-driver runs overlapping, every status stored in `orders` and in
`order_tracking` is pending, assigned or cancelled. After requests served one
after the other (which is a run of rounds) with no tracking insert failing,
the tracking log of every order is pending, or pending, assigned, or pending,
assigned, cancelled; it ends at the order's current status and each step of it
is an edge of §4.1 or the edge pending → assigned. After two overlapping
assign-driver runs on one order the log reads pending, assigned, assigned. -/
theorem c4_reachable_statuses_and_logs (rpc : UpdateOrderStatusRpc)
    (hrpc : LegalProcedure rpc) (init : Store)
    (hinit : init.orders = [] ∧ init.order_tracking = []) (rounds : List Round)
    (reqs : List Request) :
    (∀ o ∈ (runRounds rpc init rounds).orders,
      o.status ∈ ["pending", "assigned", "cancelled"]) ∧
    (∀ e ∈ (runRounds rpc init rounds).order_tracking,
      e.status ∈ ["pending", "assigned", "cancelled"]) ∧
    runRounds rpc init (reqs.map Round.serve) = run rpc init reqs ∧
    ((∀ r ∈ reqs, r.tracked = true) →
      ∀ o ∈ (run rpc init reqs).orders,
        trackingLog (run rpc init reqs) o.id ∈
          [["pending"], ["pending", "assigned"], ["pending", "assigned", "cancelled"]] ∧
        (trackingLog (run rpc init reqs) o.id).getLast? = some o.status ∧
        List.Chain' (fun a b => handlerEdge a b = true) (trackingLog (run rpc init reqs) o.id)) ∧
    trackingLog (runRounds specUpdateOrderStatus fleetStore
        [.serve (.create sampleIsUuid 7 pizzaBody 1 "ORD-1" CreateFaults.none),
         .overlap nearestAvailable 1 1 AssignFaults.none AssignFaults.none]) 1 =
      ["pending", "assigned", "assigned"] := by
  have hw0 : ThreeStatuses init := by
    constructor
    · intro o ho
      rw [hinit.1] at ho
      cases ho
    · intro e he
      rw [hinit.2] at he
      cases he
  have hc0 : RowsWith Stage init := by
    intro id
    left
    simp [ordersById, trackingLog, hinit.1, hinit.2]
  have hw := threeStatuses_runRounds rpc hrpc rounds init hw0
  refine ⟨?_, hw.2, runRounds_serve rpc reqs init, ?_, by decide⟩
  · intro o ho
    rcases hw.1 o ho with ⟨_, hs⟩ | ⟨_, hs | hs⟩ <;> rw [hs] <;> decide
  · intro htr o ho
    have hc := stage_run rpc hrpc reqs init htr hc0
    have hmem : o ∈ ordersById (run rpc init reqs) o.id := by
      simp [ordersById, ho]
    rcases hc o.id with ⟨h0, _⟩ | ⟨o1, ho1, hst⟩
    · rw [h0] at hmem
      cases hmem
    · rw [ho1, List.mem_singleton] at hmem
      subst hmem
      rcases hst with ⟨_, hs, hl⟩ | ⟨_, hs, hl⟩ | ⟨_, hs, hl⟩ <;> rw [hl, hs]
      · exact ⟨by decide, rfl, List.chain'_singleton _⟩
      · exact ⟨by decide, rfl, List.Chain'.cons (by decide) (List.chain'_singleton _)⟩
      · exact ⟨by decide, rfl,
          List.Chain'.cons (by decide) (List.Chain'.cons (by decide) (List.chain'_singleton _))⟩

/-- C4 (amended) on the fleet store with the procedure of §4.1: order 1 is
created, assigned and cancelled; its status is cancelled and its log reads
pending, assigned, cancelled. -/
theorem c4_reachable_statuses_and_logs_witness :
    (∀ o ∈ (runRounds specUpdateOrderStatus fleetStore
        (sampleRequests.map Round.serve)).orders,
      o.status ∈ ["pending", "assigned", "cancelled"]) ∧
    (∀ o ∈ (run specUpdateOrderStatus fleetStore sampleRequests).orders,
      (trackingLog (run specUpdateOrderStatus fleetStore sampleRequests) o.id).getLast?
        = some o.status) ∧
    trackingLog (run specUpdateOrderStatus fleetStore sampleRequests) 1 =
      ["pending", "assigned", "cancelled"] :=
  have h := c4_reachable_statuses_and_logs specUpdateOrderStatus legalProcedure_spec fleetStore
    ⟨rfl, rfl⟩ (sampleRequests.map Round.serve) sampleRequests
  ⟨h.1, fun o ho => (h.2.2.2.1 (by decide) o ho).2.1, by decide⟩


/-! ## Theorems: POST /orders, creation -/

/-- C11: for a body that passes `createOrderSchema`, a run of POST /orders in
which no store call fails (the new key being unused) answers 201 with the new
order, whose status is `pending` and whose customer is the authenticated user;
the order is appended to `orders`, exactly one entry, for the new order and
with status `pending`, is appended to `order_tracking`, and every other row
of every table is as it was. -/
theorem c11_create_adds_order_and_entry (isUuid : String → Bool) (st : Store) (user : Nat)
    (body : CreateOrderBody) (value : OrderSpec) (newId : Nat) (orderNumber : String)
    (hv : createOrderSchema isUuid body = some value)
    (hnew : ordersById st newId = []) :
    ∃ o : Order, o.id = newId ∧ o.status = "pending" ∧ o.customer_id = user ∧
      o.driver_id = none ∧ o.items = value.items ∧ o.total_amount = value.total_amount ∧
      (postOrder isUuid st user body newId orderNumber CreateFaults.none).code = 201 ∧
      (postOrder isUuid st user body newId orderNumber CreateFaults.none).body = .order o ∧
      (postOrder isUuid st user body newId orderNumber CreateFaults.none).store.orders =
        st.orders ++ [o] ∧
      (postOrder isUuid st user body newId orderNumber CreateFaults.none).store.order_tracking =
        st.order_tracking ++ [⟨newId, "pending", some "Order placed successfully", none, none⟩] ∧
      (postOrder isUuid st user body newId orderNumber CreateFaults.none).store.drivers =
        st.drivers ∧
      (postOrder isUuid st user body newId orderNumber
        CreateFaults.none).store.driver_locations = st.driver_locations := by
  refine ⟨{ id := newId, customer_id := user, driver_id := none, order_number := orderNumber,
            status := "pending", restaurant_id := value.restaurant_id, items := value.items,
            total_amount := value.total_amount, delivery_address := value.delivery_address,
            delivery_lat := value.delivery_lat, delivery_lng := value.delivery_lng,
            pickup_lat := value.pickup_lat, pickup_lng := value.pickup_lng },
    rfl, rfl, rfl, rfl, rfl, rfl, ?_⟩
  simp [postOrder, hv, hnew, CreateFaults.none]

/-- C11 at the creation scenario of the specification: one Pizza, quantity 2,
price 10, total 20, on the fleet store. -/
theorem c11_create_adds_order_and_entry_witness :
    (postOrder sampleIsUuid fleetStore 7 pizzaBody 1 "ORD-1" CreateFaults.none).code = 201 ∧
    (postOrder sampleIsUuid fleetStore 7 pizzaBody 1 "ORD-1" CreateFaults.none).body =
      .order pizzaOrder ∧
    (postOrder sampleIsUuid fleetStore 7 pizzaBody 1 "ORD-1" CreateFaults.none).store.orders =
      [pizzaOrder] ∧
    (postOrder sampleIsUuid fleetStore 7 pizzaBody 1 "ORD-1"
      CreateFaults.none).store.order_tracking =
      [⟨1, "pending", some "Order placed successfully", none, none⟩] := by
  obtain ⟨o, _, _, _, _, _, _, h1, h2, h3, h4, _⟩ :=
    c11_create_adds_order_and_entry sampleIsUuid fleetStore 7 pizzaBody pizzaSpec 1 "ORD-1"
      (by decide) rfl
  have ho : o = pizzaOrder := by
    have : (postOrder sampleIsUuid fleetStore 7 pizzaBody 1 "ORD-1" CreateFaults.none).body =
        .order pizzaOrder := by decide
    rw [this] at h2
    injection h2 with h2
    exact h2.symm
  subst ho
  exact ⟨h1, h2, h3, h4⟩

/-- C12 (as stated, refuted): the body is valid and the order insert succeeds,
the tracking insert fails. POST /orders answers 201, the order is in `orders`
and `order_tracking` holds no entry for it. -/
theorem c12_order_without_first_entry :
    (postOrder sampleIsUuid fleetStore 7 pizzaBody 1 "ORD-1" ⟨false, true⟩).code = 201 ∧
    (postOrder sampleIsUuid fleetStore 7 pizzaBody 1 "ORD-1" ⟨false, true⟩).store.orders =
      [pizzaOrder] ∧
    trackingLog (postOrder sampleIsUuid fleetStore 7 pizzaBody 1 "ORD-1"
      ⟨false, true⟩).store 1 = [] := by
  decide

/-- C12 (amended): after POST /orders, if the answer is not 201 no table has
changed (neither the order nor a tracking entry exists); if the answer is 201
the order row with status `pending` has been appended, and, when the tracking
insert did not fail, so has its `pending` tracking entry. A failing order
insert (or a key already in use) is answered 500. -/
theorem c12_create_failure_or_complete (isUuid : String → Bool) (st : Store) (user : Nat)
    (body : CreateOrderBody) (newId : Nat) (orderNumber : String) (f : CreateFaults) :
    ((postOrder isUuid st user body newId orderNumber f).code ≠ 201 →
      (postOrder isUuid st user body newId orderNumber f).store = st) ∧
    ((postOrder isUuid st user body newId orderNumber f).code = 201 →
      ∃ o : Order, o.id = newId ∧ o.status = "pending" ∧
        (postOrder isUuid st user body newId orderNumber f).store.orders = st.orders ++ [o] ∧
        (f.insertTracking = false →
          (postOrder isUuid st user body newId orderNumber f).store.order_tracking =
            st.order_tracking ++
              [⟨newId, "pending", some "Order placed successfully", none, none⟩])) ∧
    (createOrderSchema isUuid body ≠ none → (f.insertOrder = true ∨ ordersById st newId ≠ []) →
      (postOrder isUuid st user body newId orderNumber f).code = 500) := by
  unfold postOrder
  cases hv : createOrderSchema isUuid body with
  | none => simp [reject]
  | some value =>
    simp only []
    by_cases hcond : (f.insertOrder || decide (ordersById st newId ≠ [])) = true
    · rw [if_pos hcond]
      refine ⟨fun _ => rfl, fun h => absurd h (by simp [reject]), fun _ _ => rfl⟩
    · rw [if_neg hcond]
      let o : Order :=
        { id := newId, customer_id := user, driver_id := none, order_number := orderNumber,
          status := "pending", restaurant_id := value.restaurant_id, items := value.items,
          total_amount := value.total_amount, delivery_address := value.delivery_address,
          delivery_lat := value.delivery_lat, delivery_lng := value.delivery_lng,
          pickup_lat := value.pickup_lat, pickup_lng := value.pickup_lng }
      refine ⟨fun h => absurd rfl h, fun _ => ⟨o, rfl, rfl, ?_, ?_⟩, ?_⟩
      · cases f.insertTracking <;> rfl
      · intro ht
        simp [ht]
      · intro _ h
        exfalso
        apply hcond
        rcases h with h | h
        · simp [h]
        · simp [h]

/-- C12 (amended) with a failing order insert (500, nothing written) and with
no failing insert (201, order and entry). -/
theorem c12_create_failure_or_complete_witness :
    (postOrder sampleIsUuid fleetStore 7 pizzaBody 1 "ORD-1" ⟨true, false⟩).store = fleetStore ∧
    ∃ o : Order, o.id = 1 ∧ o.status = "pending" ∧
      (postOrder sampleIsUuid fleetStore 7 pizzaBody 1 "ORD-1"
        CreateFaults.none).store.orders = fleetStore.orders ++ [o] ∧
      (CreateFaults.none.insertTracking = false →
        (postOrder sampleIsUuid fleetStore 7 pizzaBody 1 "ORD-1"
          CreateFaults.none).store.order_tracking =
          fleetStore.order_tracking ++
            [⟨1, "pending", some "Order placed successfully", none, none⟩]) :=
  ⟨(c12_create_failure_or_complete sampleIsUuid fleetStore 7 pizzaBody 1 "ORD-1"
      ⟨true, false⟩).1 (by decide),
   (c12_create_failure_or_complete sampleIsUuid fleetStore 7 pizzaBody 1 "ORD-1"
      CreateFaults.none).2.1 (by decide)⟩


/-! ## Theorems: authorisation of status requests -/

/-- C13 (as stated, refuted): order 1 is `pending` and bound to driver 5.
A request for `cancelled` by driver 5 is not answered 403 and reaches
`update_order_status`, whatever the procedure; with the procedure of §4.1 it
is answered 200 and the order is `cancelled`. The same request by the admin 9
is answered 403, whatever the procedure. -/
theorem c13_driver_cancels_admin_refused :
    (¬ ∃ rpc : UpdateOrderStatusRpc,
      (patchStatusRoute rpc sampleUsers (storeWithOrder "pending") (.verified 5) false 1
          (statusBody "cancelled") PatchFaults.none).code = 403 ∨
      (patchStatusRoute rpc sampleUsers (storeWithOrder "pending") (.verified 5) false 1
          (statusBody "cancelled") PatchFaults.none).statusCalls = []) ∧
    (patchStatusRoute specUpdateOrderStatus sampleUsers (storeWithOrder "pending") (.verified 5)
        false 1 (statusBody "cancelled") PatchFaults.none).code = 200 ∧
    (patchStatusRoute specUpdateOrderStatus sampleUsers (storeWithOrder "pending") (.verified 5)
        false 1 (statusBody "cancelled") PatchFaults.none).store.orders =
      [sampleOrder 1 (some 5) "cancelled"] ∧
    (¬ ∃ rpc : UpdateOrderStatusRpc,
      (patchStatusRoute rpc sampleUsers (storeWithOrder "pending") (.verified 9) false 1
          (statusBody "cancelled") PatchFaults.none).code ≠ 403) := by
  have hauth5 : authenticateDriver sampleUsers (.verified 5) false = .inr ⟨5, "Asha", "driver"⟩ := by
    decide
  have hauth9 : authenticateDriver sampleUsers (.verified 9) false =
      .inl (403, .error "Driver access required") := by decide
  have hv : updateStatusSchema (statusBody "cancelled") = some ⟨"cancelled", none, none, none⟩ := by
    decide
  have hrow : single ((storeWithOrder "pending").orders.filter
      (fun o => o.id = 1 ∧ o.driver_id = some 5)) = some (sampleOrder 1 (some 5) "pending") := rfl
  refine ⟨?_, rfl, rfl, ?_⟩
  · rintro ⟨rpc, h⟩
    simp only [patchStatusRoute, hauth5, patchOrderStatus, hv, PatchFaults.none, hrow] at h
    cases hr : rpc (storeWithOrder "pending") ⟨1, "cancelled", none, none, none⟩ <;>
      simp [hr] at h
  · rintro ⟨rpc, h⟩
    simp [patchStatusRoute, hauth9, reject] at h

/-- C13 (amended): the status route authorises by role `driver` and by
assignment only, for every requested status alike. A verified token whose
user is not a `driver` row of `users` (an admin, for one) is answered 403
`Driver access required`, with no call of `update_order_status` and no change.
A verified driver to whom the order is bound has every valid request,
`cancelled` included, forwarded to `update_order_status`, and is never
answered 403. -/
theorem c13_status_route_authorisation (rpc : UpdateOrderStatusRpc) (users : List UserRow)
    (st : Store) (uid : Nat) (authFails : Bool) (id : Nat) (body : UpdateStatusBody)
    (f : PatchFaults) :
    (users.filter (fun u => u.id = uid ∧ u.role = "driver") = [] →
      (patchStatusRoute rpc users st (.verified uid) authFails id body f).code = 403 ∧
      (patchStatusRoute rpc users st (.verified uid) authFails id body f).body =
        .error "Driver access required" ∧
      (patchStatusRoute rpc users st (.verified uid) authFails id body f).statusCalls = [] ∧
      (patchStatusRoute rpc users st (.verified uid) authFails id body f).store = st) ∧
    (∀ (u : UserRow) (value : StatusUpdate) (o : Order),
      authFails = false → users.filter (fun u => u.id = uid ∧ u.role = "driver") = [u] →
      updateStatusSchema body = some value → f.selectOrder = false →
      single (st.orders.filter (fun o => o.id = id ∧ o.driver_id = some uid)) = some o →
      (patchStatusRoute rpc users st (.verified uid) authFails id body f).statusCalls =
        [⟨id, value.status, value.description, value.location_lat, value.location_lng⟩] ∧
      (patchStatusRoute rpc users st (.verified uid) authFails id body f).code ≠ 403) := by
  constructor
  · intro hnone
    have hauth : authenticateDriver users (.verified uid) authFails =
        .inl (403, .error "Driver access required") := by
      cases authFails
      · simp only [authenticateDriver, authenticate, hnone, single, Bool.false_eq_true, if_false]
      · simp only [authenticateDriver, authenticate, if_true]
    simp only [patchStatusRoute, hauth, reject, and_self]
  · intro u value o hauth hu hv hf ho
    have huid : u.id = uid := by
      have hmem : u ∈ users.filter (fun u => u.id = uid ∧ u.role = "driver") := by
        rw [hu]
        exact List.mem_singleton.2 rfl
      simp only [List.mem_filter, decide_eq_true_eq] at hmem
      exact hmem.2.1
    have hok : authenticateDriver users (.verified uid) authFails = .inr u := by
      simp only [authenticateDriver, authenticate, hauth, hu, single, Bool.false_eq_true,
        if_false]
    simp only [patchStatusRoute, hok, patchOrderStatus, hv, hf, huid, ho, Bool.false_eq_true,
      if_false]
    cases hr : rpc st ⟨id, value.status, value.description, value.location_lat,
      value.location_lng⟩ <;> simp

/-- C13 (amended) at the admin 9 (403) and at the assigned driver 5 asking for
`cancelled` (forwarded). -/
theorem c13_status_route_authorisation_witness :
    (patchStatusRoute specUpdateOrderStatus sampleUsers (storeWithOrder "pending") (.verified 9)
        false 1 (statusBody "cancelled") PatchFaults.none).code = 403 ∧
    (patchStatusRoute specUpdateOrderStatus sampleUsers (storeWithOrder "pending") (.verified 5)
        false 1 (statusBody "cancelled") PatchFaults.none).statusCalls =
      [⟨1, "cancelled", none, none, none⟩] :=
  ⟨((c13_status_route_authorisation specUpdateOrderStatus sampleUsers (storeWithOrder "pending")
      9 false 1 (statusBody "cancelled") PatchFaults.none).1 (by decide)).1,
   ((c13_status_route_authorisation specUpdateOrderStatus sampleUsers (storeWithOrder "pending")
      5 false 1 (statusBody "cancelled") PatchFaults.none).2 ⟨5, "Asha", "driver"⟩
      ⟨"cancelled", none, none, none⟩ (sampleOrder 1 (some 5) "pending")
      rfl (by decide) (by decide) rfl rfl).1⟩

/-- C14: for a driver `user` and an id that matches no order bound to that
driver (no order at all, an order of another driver, an order without
driver), PATCH /orders/:id/status with a valid payload answers 404, does not
call `update_order_status` and leaves every table as it was, the order's row
and its tracking log included. -/
theorem c14_not_assigned_is_404 (rpc : UpdateOrderStatusRpc) (st : Store) (user id : Nat)
    (body : UpdateStatusBody) (value : StatusUpdate) (f : PatchFaults)
    (hv : updateStatusSchema body = some value)
    (hnot : ∀ o ∈ st.orders, o.id = id → o.driver_id ≠ some user) :
    (patchOrderStatus rpc st user id body f).code = 404 ∧
    (patchOrderStatus rpc st user id body f).body =
      .error "Order not found or not assigned to you" ∧
    (patchOrderStatus rpc st user id body f).statusCalls = [] ∧
    (patchOrderStatus rpc st user id body f).store = st ∧
    ordersById (patchOrderStatus rpc st user id body f).store id = ordersById st id ∧
    trackingLog (patchOrderStatus rpc st user id body f).store id = trackingLog st id := by
  have hfilter : st.orders.filter (fun o => o.id = id ∧ o.driver_id = some user) = [] := by
    rw [List.filter_eq_nil_iff]
    intro o ho
    simp only [decide_eq_true_eq, not_and]
    exact hnot o ho
  have hrun : patchOrderStatus rpc st user id body f =
      reject 404 (.error "Order not found or not assigned to you") st := by
    cases hs : f.selectOrder
    · simp only [patchOrderStatus, hv, hs, hfilter, single, Bool.false_eq_true, if_false]
    · simp only [patchOrderStatus, hv, hs, if_true]
  rw [hrun]
  exact ⟨rfl, rfl, rfl, rfl, rfl, rfl⟩

/-- C14 at three requests by driver 6: the unknown id 2, order 1 of driver 5,
and the unassigned order 1 of the dispatch store. -/
theorem c14_not_assigned_is_404_witness :
    (patchOrderStatus specUpdateOrderStatus (storeWithOrder "assigned") 6 2
        (statusBody "picked_up") PatchFaults.none).code = 404 ∧
    (patchOrderStatus specUpdateOrderStatus (storeWithOrder "assigned") 6 1
        (statusBody "picked_up") PatchFaults.none).code = 404 ∧
    (patchOrderStatus specUpdateOrderStatus (dispatchStore "available") 6 1
        (statusBody "accepted") PatchFaults.none).statusCalls = [] :=
  ⟨(c14_not_assigned_is_404 specUpdateOrderStatus (storeWithOrder "assigned") 6 2
      (statusBody "picked_up") ⟨"picked_up", none, none, none⟩ PatchFaults.none (by decide)
      (by decide)).1,
   (c14_not_assigned_is_404 specUpdateOrderStatus (storeWithOrder "assigned") 6 1
      (statusBody "picked_up") ⟨"picked_up", none, none, none⟩ PatchFaults.none (by decide)
      (by decide)).1,
   (c14_not_assigned_is_404 specUpdateOrderStatus (dispatchStore "available") 6 1
      (statusBody "accepted") ⟨"accepted", none, none, none⟩ PatchFaults.none (by decide)
      (by
        intro o ho
        simp only [dispatchStore, List.mem_singleton] at ho
        subst ho
        intro _
        simp [sampleOrder])).2.2.1⟩


/-! ## Theorems: POST /location/update -/

/-- A body that passes `locationUpdateSchema` carries coordinates in range. -/
theorem locationUpdateSchema_coordinates {b : LocationBody} {v : LocationUpdate}
    (h : locationUpdateSchema b = some v) :
    b.lat = .val v.lat ∧ (-90 ≤ v.lat ∧ v.lat ≤ 90) ∧
    b.lng = .val v.lng ∧ (-180 ≤ v.lng ∧ v.lng ≤ 180) := by
  simp only [locationUpdateSchema, Option.bind_eq_bind, Option.bind_eq_some, required_eq_some,
    joiNumber_eq_some] at h
  obtain ⟨lat, ⟨_, hlat, ⟨_, hr1⟩, rfl⟩, lng, ⟨_, hlng, ⟨_, hr2⟩, rfl⟩, a, _, sp, _, hd, _, hfin⟩ := h
  split at hfin
  · cases hfin
    simp only [inRange, Bool.and_eq_true, decide_eq_true_eq] at hr1 hr2
    exact ⟨hlat, hr1, hlng, hr2⟩
  · cases hfin

/-- An optional key that is absent passes every rule. -/
theorem optionalKey_absent {α : Type} (rule : α → Option α) :
    optionalKey rule (.absent : Field α) = some none := rfl

/-- An optional key that is present is handed to the rule. -/
theorem optionalKey_val {α : Type} (rule : α → Option α) (a : α) :
    optionalKey rule (.val a) = (rule a).map some := rfl

/-- C17 (as stated, refuted): latitude 0 and longitude 0 are in range; with
`accuracy` 0, and likewise with `speed` -1, the body fails
`locationUpdateSchema`, POST /location/update answers 400 and stores nothing. -/
theorem c17_metadata_is_validated :
    locationUpdateSchema ⟨.val 0, .val 0, .val 0, .absent, .absent, []⟩ = none ∧
    (postLocationUpdate fleetStore 5 ⟨.val 0, .val 0, .val 0, .absent, .absent, []⟩ 100
      false).code = 400 ∧
    (postLocationUpdate fleetStore 5 ⟨.val 0, .val 0, .val 0, .absent, .absent, []⟩ 100
      false).store = fleetStore ∧
    locationUpdateSchema ⟨.val 0, .val 0, .absent, .val (-1), .absent, []⟩ = none ∧
    (postLocationUpdate fleetStore 5 ⟨.val 0, .val 0, .absent, .val (-1), .absent, []⟩ 100
      false).code = 400 := by
  decide

/-- C17 (amended): a location update with `lat` in [-90, 90] and `lng` in
[-180, 180], in which each of `accuracy`, `speed`, `heading` is absent or
satisfies its rule (`accuracy` > 0, `speed` ≥ 0, `heading` in [0, 360], none
beyond `Number.MAX_SAFE_INTEGER`) and no other key is present, passes
validation; when the insert does not fail the handler answers 200 and appends
the sample, with the authenticated driver's id and the current time. -/
theorem c17_valid_location_is_stored (st : Store) (user : Nat) (now : Nat) (lat lng : ℚ)
    (accuracy speed heading : Field ℚ)
    (hlat : -90 ≤ lat ∧ lat ≤ 90) (hlng : -180 ≤ lng ∧ lng ≤ 180)
    (hacc : accuracy = .absent ∨ ∃ a, accuracy = .val a ∧ 0 < a ∧ a ≤ maxSafeInteger)
    (hspd : speed = .absent ∨ ∃ a, speed = .val a ∧ 0 ≤ a ∧ a ≤ maxSafeInteger)
    (hhdg : heading = .absent ∨ ∃ a, heading = .val a ∧ 0 ≤ a ∧ a ≤ 360) :
    ∃ value : LocationUpdate,
      locationUpdateSchema ⟨.val lat, .val lng, accuracy, speed, heading, []⟩ = some value ∧
      value.lat = lat ∧ value.lng = lng ∧
      (postLocationUpdate st user ⟨.val lat, .val lng, accuracy, speed, heading, []⟩ now
        false).code = 200 ∧
      (postLocationUpdate st user ⟨.val lat, .val lng, accuracy, speed, heading, []⟩ now
        false).store.driver_locations =
        st.driver_locations ++
          [⟨user, lat, lng, value.accuracy, value.speed, value.heading, now⟩] := by
  have h180 : (180 : ℚ) ≤ maxSafeInteger := by norm_num [maxSafeInteger]
  have h360 : (360 : ℚ) ≤ maxSafeInteger := by norm_num [maxSafeInteger]
  have hneg : -maxSafeInteger ≤ (-180 : ℚ) := by norm_num [maxSafeInteger]
  have hneg0 : -maxSafeInteger ≤ (0 : ℚ) := by norm_num [maxSafeInteger]
  have hsafeLat : safeNumber lat = true :=
    safeNumber_of_bounds lat (-180) 180 hneg h180 (le_trans (by norm_num) hlat.1)
      (le_trans hlat.2 (by norm_num))
  have hsafeLng : safeNumber lng = true :=
    safeNumber_of_bounds lng (-180) 180 hneg h180 hlng.1 hlng.2
  have h1 : joiNumber (inRange (-90) 90) lat = some lat := by
    simp [joiNumber, hsafeLat, inRange, hlat.1, hlat.2]
  have h2 : joiNumber (inRange (-180) 180) lng = some lng := by
    simp [joiNumber, hsafeLng, inRange, hlng.1, hlng.2]
  have h3 : ∃ a, optionalKey (joiNumber positive) accuracy = some a := by
    rcases hacc with rfl | ⟨a, rfl, ha, ha'⟩
    · exact ⟨none, rfl⟩
    · refine ⟨some a, ?_⟩
      have : safeNumber a = true :=
        safeNumber_of_bounds a 0 maxSafeInteger hneg0 le_rfl (le_of_lt ha) ha'
      simp [optionalKey_val, joiNumber, this, positive, ha]
  have h4 : ∃ a, optionalKey (joiNumber (fun q => decide (0 ≤ q))) speed = some a := by
    rcases hspd with rfl | ⟨a, rfl, ha, ha'⟩
    · exact ⟨none, rfl⟩
    · refine ⟨some a, ?_⟩
      have : safeNumber a = true := safeNumber_of_bounds a 0 maxSafeInteger hneg0 le_rfl ha ha'
      simp [optionalKey_val, joiNumber, this, ha]
  have h5 : ∃ a, optionalKey (joiNumber (inRange 0 360)) heading = some a := by
    rcases hhdg with rfl | ⟨a, rfl, ha, ha'⟩
    · exact ⟨none, rfl⟩
    · refine ⟨some a, ?_⟩
      have : safeNumber a = true := safeNumber_of_bounds a 0 360 hneg0 h360 ha ha'
      simp [optionalKey_val, joiNumber, this, inRange, ha, ha']
  obtain ⟨a, ha⟩ := h3
  obtain ⟨sp, hsp⟩ := h4
  obtain ⟨hd, hhd⟩ := h5
  have hv : locationUpdateSchema ⟨.val lat, .val lng, accuracy, speed, heading, []⟩ =
      some ⟨lat, lng, a, sp, hd⟩ := by
    simp [locationUpdateSchema, Field.required, h1, h2, ha, hsp, hhd]
  refine ⟨⟨lat, lng, a, sp, hd⟩, hv, rfl, rfl, ?_, ?_⟩
  · simp [postLocationUpdate, hv]
  · simp [postLocationUpdate, hv]

/-- C17 (amended) at driver 5 reporting (12, 77) with accuracy 5 and speed 0. -/
theorem c17_valid_location_is_stored_witness :
    (postLocationUpdate fleetStore 5 ⟨.val 12, .val 77, .val 5, .val 0, .absent, []⟩ 100
      false).code = 200 ∧
    (postLocationUpdate fleetStore 5 ⟨.val 12, .val 77, .val 5, .val 0, .absent, []⟩ 100
      false).store.driver_locations =
      fleetStore.driver_locations ++ [⟨5, 12, 77, some 5, some 0, none, 100⟩] := by
  obtain ⟨value, hv, _, _, hcode, hstore⟩ :=
    c17_valid_location_is_stored fleetStore 5 100 12 77 (.val 5) (.val 0) .absent
      (by norm_num) (by norm_num)
      (Or.inr ⟨5, rfl, by norm_num, by norm_num [maxSafeInteger]⟩)
      (Or.inr ⟨0, rfl, le_rfl, by norm_num [maxSafeInteger]⟩) (Or.inl rfl)
  have hval : locationUpdateSchema ⟨.val 12, .val 77, .val 5, .val 0, .absent, []⟩ =
      some ⟨12, 77, some 5, some 0, none⟩ := by decide
  rw [hval] at hv
  injection hv with hv
  subst hv
  exact ⟨hcode, hstore⟩

/-- C18: a location update in which `lat` is missing (or not a number) or
outside [-90, 90], or `lng` is missing (or not a number) or outside
[-180, 180], fails validation: the handler answers 400 and inserts no sample;
through the route, whatever the credential, no sample is inserted, and a
request that passes `authenticateDriver` is answered 400. -/
theorem c18_bad_coordinates_rejected (users : List UserRow) (st : Store) (cred : Credential)
    (authFails : Bool) (user : Nat) (body : LocationBody) (now : Nat) (insertFails : Bool)
    (hbad : (body.lat = .absent ∨ body.lat = .illTyped ∨
        ∃ x, body.lat = .val x ∧ (x < -90 ∨ 90 < x)) ∨
      (body.lng = .absent ∨ body.lng = .illTyped ∨
        ∃ x, body.lng = .val x ∧ (x < -180 ∨ 180 < x))) :
    locationUpdateSchema body = none ∧
    (postLocationUpdate st user body now insertFails).code = 400 ∧
    (postLocationUpdate st user body now insertFails).store = st ∧
    (locationUpdateRoute users st cred authFails body now insertFails).store = st ∧
    (∀ u, authenticateDriver users cred authFails = .inr u →
      (locationUpdateRoute users st cred authFails body now insertFails).code = 400) := by
  have hv : locationUpdateSchema body = none := by
    cases hc : locationUpdateSchema body with
    | none => rfl
    | some v =>
      exfalso
      obtain ⟨h1, h2, h3, h4⟩ := locationUpdateSchema_coordinates hc
      rcases hbad with (h | h | ⟨x, hx, hb⟩) | (h | h | ⟨x, hx, hb⟩)
      · rw [h] at h1; cases h1
      · rw [h] at h1; cases h1
      · rw [hx] at h1
        injection h1 with h1
        subst h1
        rcases hb with hb | hb
        · exact absurd h2.1 (not_le.2 hb)
        · exact absurd h2.2 (not_le.2 hb)
      · rw [h] at h3; cases h3
      · rw [h] at h3; cases h3
      · rw [hx] at h3
        injection h3 with h3
        subst h3
        rcases hb with hb | hb
        · exact absurd h4.1 (not_le.2 hb)
        · exact absurd h4.2 (not_le.2 hb)
  have hrun : ∀ u, postLocationUpdate st u body now insertFails =
      reject 400 .validationError st := by
    intro u
    simp only [postLocationUpdate, hv]
  refine ⟨hv, by rw [hrun]; rfl, by rw [hrun]; rfl, ?_, ?_⟩
  · unfold locationUpdateRoute
    cases authenticateDriver users cred authFails with
    | inl r => rfl
    | inr u => simp only [hrun]; rfl
  · intro u hu
    simp only [locationUpdateRoute, hu, hrun]
    rfl

/-- C18 at driver 5 sending latitude 91, and sending no longitude. -/
theorem c18_bad_coordinates_rejected_witness :
    (postLocationUpdate fleetStore 5 (locationBody 91 0) 100 false).code = 400 ∧
    (postLocationUpdate fleetStore 5 (locationBody 91 0) 100 false).store = fleetStore ∧
    (locationUpdateRoute sampleUsers fleetStore (.verified 5) false
      ⟨.val 0, .absent, .absent, .absent, .absent, []⟩ 100 false).code = 400 :=
  have h1 := c18_bad_coordinates_rejected sampleUsers fleetStore (.verified 5) false 5
    (locationBody 91 0) 100 false (Or.inl (Or.inr (Or.inr ⟨91, rfl, Or.inr (by norm_num)⟩)))
  have h2 := c18_bad_coordinates_rejected sampleUsers fleetStore (.verified 5) false 5
    ⟨.val 0, .absent, .absent, .absent, .absent, []⟩ 100 false (Or.inr (Or.inl rfl))
  ⟨h1.2.1, h1.2.2.1, h2.2.2.2.2 ⟨5, "Asha", "driver"⟩ (by decide)⟩


/-! ## Theorems: overlapping runs of assign-driver -/

/-- The assignment handler is its lookups followed by its writes. -/
theorem postAssignDriver_eq_read_then_write (nearest : FindNearestDriverRpc) (st : Store)
    (id : Nat) (f : AssignFaults) :
    postAssignDriver nearest st id f =
      match assignRead nearest st id f with
      | .inl out => out
      | .inr (driver, q) => assignWrites st id driver q f := by
  unfold postAssignDriver assignRead
  cases f.selectOrder
  · simp only [Bool.false_eq_true, if_false]
    cases single (ordersById st id) with
    | none => rfl
    | some o =>
      simp only []
      cases o.driver_id with
      | some d => rfl
      | none =>
        simp only [Option.isSome_none, Bool.false_eq_true, if_false]
        cases nearest st ⟨o.pickup_lat, o.pickup_lng, 50⟩ with
        | none => rfl
        | some rows =>
          cases rows with
          | nil => rfl
          | cons c rest => rfl
  · rfl

/-- The lookups of the assignment handler end with the first candidate when
the order exists, has no driver and the query answers with a row. -/
theorem assignRead_first_candidate (nearest : FindNearestDriverRpc) (st : Store) (id : Nat)
    (f : AssignFaults) (o : Order) (c : Candidate) (rest : List Candidate)
    (hf : f.selectOrder = false) (ho : ordersById st id = [o]) (hd : o.driver_id = none)
    (hn : nearest st ⟨o.pickup_lat, o.pickup_lng, 50⟩ = some (c :: rest)) :
    assignRead nearest st id f = .inr (c, ⟨o.pickup_lat, o.pickup_lng, 50⟩) := by
  simp [assignRead, hf, ho, single, hd, hn]

/-- The assignment write on `orders` leaves the rows of every other key as
they were. -/
theorem ordersById_assignOrderRow_ne (st : Store) (id id1 driver : Nat) (h : id1 ≠ id) :
    ordersById (assignOrderRow st id driver) id1 = ordersById st id1 := by
  have hrows := filter_id_map_update st.orders id id1
    (fun o => { o with driver_id := some driver, status := "assigned" }) (fun _ => rfl)
  simp only [ordersById, assignOrderRow]
  rw [hrows]
  conv_rhs => rw [← List.map_id (st.orders.filter (fun o => o.id = id1))]
  apply List.map_congr_left
  intro x hx
  simp only [List.mem_filter, decide_eq_true_eq] at hx
  have : ¬ x.id = id := by
    rw [hx.2]
    exact h
  simp [this]

/-- The writes of the assignment handler, none failing. -/
theorem assignWrites_none (st : Store) (id : Nat) (c : Candidate) (q : NearestArgs) :
    assignWrites st id c q AssignFaults.none =
      ⟨200, .assigned "Driver assigned successfully" c,
        { markDriverBusy (assignOrderRow st id c.driver_id) c.driver_id with
          order_tracking := st.order_tracking ++ [assignmentEntry id c] }, [], [q]⟩ := rfl

/-- C15 (as stated, refuted): orders 1 and 2 are unassigned and driver 5 is
the only available driver; the nearest-driver procedure answers with the
drivers that are available when it is called. Both runs of assign-driver read
before either writes: both answer 200 for driver 5 and both orders end up
bound to driver 5. -/
theorem c15_both_orders_claim_driver :
    (assignOverlapping nearestAvailable twoOrderStore 1 2 AssignFaults.none
      AssignFaults.none).1.code = 200 ∧
    (assignOverlapping nearestAvailable twoOrderStore 1 2 AssignFaults.none
      AssignFaults.none).2.code = 200 ∧
    (assignOverlapping nearestAvailable twoOrderStore 1 2 AssignFaults.none
      AssignFaults.none).2.store.orders =
      [sampleOrder 1 (some 5) "assigned", sampleOrder 2 (some 5) "assigned"] ∧
    (assignOverlapping nearestAvailable twoOrderStore 1 2 AssignFaults.none
      AssignFaults.none).2.store.drivers = [⟨5, "KA-01", "busy"⟩] := by
  refine ⟨rfl, rfl, rfl, rfl⟩

/-- C15 (amended): two runs of assign-driver for two different orders without
driver, whose nearest-driver queries both answer, before either run writes,
with the same first candidate, both claim that driver: with no store call
failing both answer 200 for that candidate and both orders end up bound to
it with status `assigned`. -/
theorem c15_overlapping_runs_share_driver (nearest : FindNearestDriverRpc) (st : Store)
    (id1 id2 : Nat) (o1 o2 : Order) (c : Candidate) (rest1 rest2 : List Candidate)
    (hne : id1 ≠ id2)
    (ho1 : ordersById st id1 = [o1]) (ho2 : ordersById st id2 = [o2])
    (hd1 : o1.driver_id = none) (hd2 : o2.driver_id = none)
    (hn1 : nearest st ⟨o1.pickup_lat, o1.pickup_lng, 50⟩ = some (c :: rest1))
    (hn2 : nearest st ⟨o2.pickup_lat, o2.pickup_lng, 50⟩ = some (c :: rest2)) :
    (assignOverlapping nearest st id1 id2 AssignFaults.none AssignFaults.none).1.code = 200 ∧
    (assignOverlapping nearest st id1 id2 AssignFaults.none AssignFaults.none).1.body =
      .assigned "Driver assigned successfully" c ∧
    (assignOverlapping nearest st id1 id2 AssignFaults.none AssignFaults.none).2.code = 200 ∧
    (assignOverlapping nearest st id1 id2 AssignFaults.none AssignFaults.none).2.body =
      .assigned "Driver assigned successfully" c ∧
    ordersById (assignOverlapping nearest st id1 id2 AssignFaults.none
      AssignFaults.none).2.store id1 =
      [{ o1 with driver_id := some c.driver_id, status := "assigned" }] ∧
    ordersById (assignOverlapping nearest st id1 id2 AssignFaults.none
      AssignFaults.none).2.store id2 =
      [{ o2 with driver_id := some c.driver_id, status := "assigned" }] := by
  have hr1 := assignRead_first_candidate nearest st id1 AssignFaults.none o1 c rest1 rfl ho1 hd1 hn1
  have hr2 := assignRead_first_candidate nearest st id2 AssignFaults.none o2 c rest2 rfl ho2 hd2 hn2
  simp only [assignOverlapping, hr1, hr2, assignWrites_none]
  refine ⟨trivial, trivial, trivial, trivial, ?_, ?_⟩
  · show ordersById (assignOrderRow (assignOrderRow st id1 c.driver_id) id2 c.driver_id) id1 = _
    rw [ordersById_assignOrderRow_ne _ id2 id1 _ hne, ordersById_assignOrderRow, ho1]
    rfl
  · show ordersById (assignOrderRow (assignOrderRow st id1 c.driver_id) id2 c.driver_id) id2 = _
    rw [ordersById_assignOrderRow, ordersById_assignOrderRow_ne _ id1 id2 _ (Ne.symm hne), ho2]
    rfl

/-- C15 (amended) at orders 1 and 2 of the two-order store and driver 5. -/
theorem c15_overlapping_runs_share_driver_witness :
    (assignOverlapping nearestAvailable twoOrderStore 1 2 AssignFaults.none
      AssignFaults.none).1.body =
      .assigned "Driver assigned successfully" ⟨5, "Asha", "KA-01", 0⟩ ∧
    (assignOverlapping nearestAvailable twoOrderStore 1 2 AssignFaults.none
      AssignFaults.none).2.body =
      .assigned "Driver assigned successfully" ⟨5, "Asha", "KA-01", 0⟩ :=
  have h := c15_overlapping_runs_share_driver nearestAvailable twoOrderStore 1 2
    (sampleOrder 1 none "pending") (sampleOrder 2 none "pending") ⟨5, "Asha", "KA-01", 0⟩ [] []
    (by decide) rfl rfl rfl rfl rfl rfl
  ⟨h.2.1, h.2.2.2.1⟩


/-- A run of assign-driver that answers 200 has found the order, without
driver, and has written a driver on it. -/
theorem postAssignDriver_ok_binds (nearest : FindNearestDriverRpc) (st : Store) (id : Nat)
    (f : AssignFaults) (h : (postAssignDriver nearest st id f).code = 200) :
    ∃ (o : Order) (c : Candidate), ordersById st id = [o] ∧ o.driver_id = none ∧
      ordersById (postAssignDriver nearest st id f).store id =
        [{ o with driver_id := some c.driver_id, status := "assigned" }] := by
  unfold postAssignDriver at h ⊢
  cases hsel : f.selectOrder
  · simp only [hsel, Bool.false_eq_true, if_false] at h ⊢
    cases hrow : single (ordersById st id) with
    | none => simp [hrow, reject] at h
    | some o =>
      have ho := (single_eq_some _ _).1 hrow
      simp only [hrow] at h ⊢
      cases hdrv : o.driver_id with
      | some d => simp [hdrv, reject] at h
      | none =>
        simp only [hdrv, Option.isSome_none, Bool.false_eq_true, if_false] at h ⊢
        cases hn : nearest st ⟨o.pickup_lat, o.pickup_lng, 50⟩ with
        | none => simp [hn] at h
        | some rows =>
          cases rows with
          | nil => simp [hn] at h
          | cons c rest =>
            simp only [hn, assignWrites] at h ⊢
            cases hu : f.updateOrder
            · refine ⟨o, c, ho, hdrv, ?_⟩
              have hrows := ordersById_assignOrderRow st id c.driver_id
              rw [ho] at hrows
              cases f.updateDriver <;> cases f.insertTracking <;> exact hrows
            · simp [hu] at h
  · simp [hsel, reject] at h

/-- C16 (as stated, refuted): order 1 is unassigned and driver 5 is available.
Two runs of assign-driver on order 1 both read the order before either
writes: both answer 200, and the order's log holds two `assigned` entries. -/
theorem c16_both_runs_succeed :
    (assignOverlapping nearestAvailable (dispatchStore "available") 1 1 AssignFaults.none
      AssignFaults.none).1.code = 200 ∧
    (assignOverlapping nearestAvailable (dispatchStore "available") 1 1 AssignFaults.none
      AssignFaults.none).2.code = 200 ∧
    (assignOverlapping nearestAvailable (dispatchStore "available") 1 1 AssignFaults.none
      AssignFaults.none).2.store.orders = [sampleOrder 1 (some 5) "assigned"] ∧
    trackingLog (assignOverlapping nearestAvailable (dispatchStore "available") 1 1
      AssignFaults.none AssignFaults.none).2.store 1 = ["pending", "assigned", "assigned"] := by
  refine ⟨rfl, rfl, rfl, rfl⟩

/-- C16 (amended): the check that the order has no driver and the write of
`driver_id` are two store calls of the handler, with nothing that serialises
them. When one run of assign-driver has answered 200, a later run on the same
order finds the driver and answers 400 without writing. When two runs on the
same order both read before either writes, both answer 200 and two assignment
entries are appended. -/
theorem c16_same_order_sequential_and_overlapping (nearest : FindNearestDriverRpc) (st : Store)
    (id : Nat) :
    (∀ (nearest2 : FindNearestDriverRpc) (f1 f2 : AssignFaults), f2.selectOrder = false →
      (postAssignDriver nearest st id f1).code = 200 →
      (postAssignDriver nearest2 (postAssignDriver nearest st id f1).store id f2).code = 400 ∧
      (postAssignDriver nearest2 (postAssignDriver nearest st id f1).store id f2).store =
        (postAssignDriver nearest st id f1).store) ∧
    (∀ (o : Order) (c : Candidate) (rest : List Candidate), ordersById st id = [o] →
      o.driver_id = none → nearest st ⟨o.pickup_lat, o.pickup_lng, 50⟩ = some (c :: rest) →
      (assignOverlapping nearest st id id AssignFaults.none AssignFaults.none).1.code = 200 ∧
      (assignOverlapping nearest st id id AssignFaults.none AssignFaults.none).2.code = 200 ∧
      (assignOverlapping nearest st id id AssignFaults.none
        AssignFaults.none).2.store.order_tracking =
        st.order_tracking ++ [assignmentEntry id c, assignmentEntry id c]) := by
  constructor
  · intro nearest2 f1 f2 hf2 h200
    obtain ⟨o, c, _, _, hrows⟩ := postAssignDriver_ok_binds nearest st id f1 h200
    generalize (postAssignDriver nearest st id f1).store = st1 at hrows ⊢
    have hrun : postAssignDriver nearest2 st1 id f2 =
        reject 400 (.error "Order already has a driver assigned") st1 := by
      simp only [postAssignDriver, hf2, hrows, single, Bool.false_eq_true, if_false,
        Option.isSome_some, if_true]
    rw [hrun]
    exact ⟨rfl, rfl⟩
  · intro o c rest ho hd hn
    have hr := assignRead_first_candidate nearest st id AssignFaults.none o c rest rfl ho hd hn
    simp only [assignOverlapping, hr, assignWrites_none]
    refine ⟨trivial, trivial, ?_⟩
    simp [markDriverBusy, assignOrderRow]

/-- C16 (amended) on order 1 of the dispatch store: a second run after the
first is answered 400; two overlapping runs are both answered 200. -/
theorem c16_same_order_sequential_and_overlapping_witness :
    (postAssignDriver nearestAvailable
      (postAssignDriver nearestAvailable (dispatchStore "available") 1 AssignFaults.none).store 1
      AssignFaults.none).code = 400 ∧
    (assignOverlapping nearestAvailable (dispatchStore "available") 1 1 AssignFaults.none
      AssignFaults.none).2.store.order_tracking =
      (dispatchStore "available").order_tracking ++
        [assignmentEntry 1 ⟨5, "Asha", "KA-01", 0⟩, assignmentEntry 1 ⟨5, "Asha", "KA-01", 0⟩] :=
  have h := c16_same_order_sequential_and_overlapping nearestAvailable
    (dispatchStore "available") 1
  ⟨(h.1 nearestAvailable AssignFaults.none AssignFaults.none rfl rfl).1,
   (h.2 (sampleOrder 1 none "pending") ⟨5, "Asha", "KA-01", 0⟩ [] rfl rfl rfl).2.2⟩


/-! ## Theorems: GET /location/active-drivers -/

/-- One step of the grouping keeps the accumulator the latest row per driver. -/
theorem latestOf_step (acc seen : List ActiveRow) (x : ActiveRow) (h : LatestOf acc seen) :
    LatestOf (latestStep acc x) (seen ++ [x]) := by
  obtain ⟨hnd, hmem, hmax, hall⟩ := h
  unfold latestStep
  cases hfind : acc.find? (fun r => r.sample.driver_id = x.sample.driver_id) with
  | none =>
    have hno : ∀ r ∈ acc, r.sample.driver_id ≠ x.sample.driver_id := by
      intro r hr
      have := List.find?_eq_none.1 hfind r hr
      simpa using this
    simp only []
    refine ⟨?_, ?_, ?_, ?_⟩
    · rw [List.map_append, List.nodup_append]
      refine ⟨hnd, List.nodup_singleton _, ?_⟩
      intro d hd1 hd2
      simp only [List.map_cons, List.map_nil, List.mem_singleton] at hd2
      obtain ⟨r, hr, hrd⟩ := List.mem_map.1 hd1
      exact hno r hr (hrd.trans hd2)
    · intro r hr
      rcases List.mem_append.1 hr with hr | hr
      · exact List.mem_append_left _ (hmem r hr)
      · exact List.mem_append_right _ hr
    · intro r hr y hy hk
      rcases List.mem_append.1 hr with hr | hr
      · rcases List.mem_append.1 hy with hy | hy
        · exact hmax r hr y hy hk
        · rw [List.mem_singleton.1 hy] at hk
          exact absurd hk.symm (hno r hr)
      · rw [List.mem_singleton.1 hr] at hk ⊢
        rcases List.mem_append.1 hy with hy | hy
        · obtain ⟨r1, hr1, hk1⟩ := hall y hy
          exact absurd (hk1.trans hk) (hno r1 hr1)
        · rw [List.mem_singleton.1 hy]
    · intro y hy
      rcases List.mem_append.1 hy with hy | hy
      · obtain ⟨r1, hr1, hk1⟩ := hall y hy
        exact ⟨r1, List.mem_append_left _ hr1, hk1⟩
      · exact ⟨x, List.mem_append_right _ (List.mem_singleton.2 rfl),
          by rw [List.mem_singleton.1 hy]⟩
  | some cur =>
    have hcur : cur ∈ acc := List.mem_of_find?_eq_some hfind
    have hkey : cur.sample.driver_id = x.sample.driver_id := by
      have := List.find?_some hfind
      simpa using this
    simp only []
    by_cases hlt : cur.sample.timestamp < x.sample.timestamp
    · rw [if_pos hlt]
      have hkeys : (acc.map (fun r =>
          if r.sample.driver_id = x.sample.driver_id then x else r)).map
            (fun r => r.sample.driver_id) = acc.map (fun r => r.sample.driver_id) := by
        rw [List.map_map]
        apply List.map_congr_left
        intro r _
        simp only [Function.comp]
        split
        · rename_i hr
          exact hr.symm
        · rfl
      refine ⟨by rw [hkeys]; exact hnd, ?_, ?_, ?_⟩
      · intro r hr
        obtain ⟨r0, hr0, rfl⟩ := List.mem_map.1 hr
        split
        · exact List.mem_append_right _ (List.mem_singleton.2 rfl)
        · exact List.mem_append_left _ (hmem r0 hr0)
      · intro r hr y hy hk
        obtain ⟨r0, hr0, rfl⟩ := List.mem_map.1 hr
        by_cases hr0k : r0.sample.driver_id = x.sample.driver_id
        · rw [if_pos hr0k] at hk ⊢
          rcases List.mem_append.1 hy with hy | hy
          · exact le_trans (hmax cur hcur y hy (hk.trans hkey.symm)) (le_of_lt hlt)
          · rw [List.mem_singleton.1 hy]
        · rw [if_neg hr0k] at hk ⊢
          rcases List.mem_append.1 hy with hy | hy
          · exact hmax r0 hr0 y hy hk
          · rw [List.mem_singleton.1 hy] at hk
            exact absurd hk.symm hr0k
      · intro y hy
        rcases List.mem_append.1 hy with hy | hy
        · obtain ⟨r1, hr1, hk1⟩ := hall y hy
          refine ⟨_, List.mem_map.2 ⟨r1, hr1, rfl⟩, ?_⟩
          split
          · rename_i hr
            rw [← hr, hk1]
          · exact hk1
        · refine ⟨_, List.mem_map.2 ⟨cur, hcur, rfl⟩, ?_⟩
          rw [if_pos hkey, List.mem_singleton.1 hy]
    · rw [if_neg hlt]
      refine ⟨hnd, fun r hr => List.mem_append_left _ (hmem r hr), ?_, ?_⟩
      · intro r hr y hy hk
        rcases List.mem_append.1 hy with hy | hy
        · exact hmax r hr y hy hk
        · rw [List.mem_singleton.1 hy] at hk ⊢
          have : r = cur :=
            List.inj_on_of_nodup_map hnd hr hcur (hk.symm.trans hkey.symm)
          rw [this]
          exact not_lt.1 hlt
      · intro y hy
        rcases List.mem_append.1 hy with hy | hy
        · exact hall y hy
        · exact ⟨cur, hcur, by rw [List.mem_singleton.1 hy, hkey]⟩

/-- The grouping of a whole list, from any accumulator. -/
theorem latestOf_foldl (l : List ActiveRow) :
    ∀ acc seen, LatestOf acc seen → LatestOf (l.foldl latestStep acc) (seen ++ l) := by
  induction l with
  | nil =>
    intro acc seen h
    simpa using h
  | cons x xs ih =>
    intro acc seen h
    have := ih (latestStep acc x) (seen ++ [x]) (latestOf_step acc seen x h)
    simpa [List.append_assoc] using this

/-- The result of the grouping is the latest row per driver of the list. -/
theorem latestOf_driverLocations (l : List ActiveRow) : LatestOf (driverLocations l) l := by
  have h0 : LatestOf [] [] := by
    refine ⟨List.nodup_nil, ?_, ?_, ?_⟩ <;> intro r hr <;> cases hr
  simpa [driverLocations] using latestOf_foldl l [] [] h0


/-- C19: for every list of fetched rows, the grouping step of
GET /location/active-drivers returns one row for each driver id that occurs in
the list and none for any other (the driver ids of the result are pairwise
different); each returned row is a row of the list and no row of the same
driver in the list has a greater timestamp. When no two different rows of a
driver share a timestamp, the rows returned for a reordering of the list are
the rows returned for the list (the array is the same up to the order of its
elements, which follows the first occurrence of each driver). -/
theorem c19_latest_sample_per_driver (l : List ActiveRow) :
    ((driverLocations l).map (fun r => r.sample.driver_id)).Nodup ∧
    (∀ d, d ∈ (driverLocations l).map (fun r => r.sample.driver_id) ↔
      d ∈ l.map (fun r => r.sample.driver_id)) ∧
    (∀ r ∈ driverLocations l, r ∈ l ∧
      ∀ x ∈ l, x.sample.driver_id = r.sample.driver_id →
        x.sample.timestamp ≤ r.sample.timestamp) ∧
    (∀ l1 : List ActiveRow, l1.Perm l →
      (∀ x ∈ l, ∀ y ∈ l, x.sample.driver_id = y.sample.driver_id →
        x.sample.timestamp = y.sample.timestamp → x = y) →
      (driverLocations l1).Perm (driverLocations l)) := by
  -- membership in the result, for any list with pairwise different timestamps per driver
  have hchar : ∀ m : List ActiveRow,
      (∀ x ∈ m, ∀ y ∈ m, x.sample.driver_id = y.sample.driver_id →
        x.sample.timestamp = y.sample.timestamp → x = y) →
      ∀ r, r ∈ driverLocations m ↔
        (r ∈ m ∧ ∀ x ∈ m, x.sample.driver_id = r.sample.driver_id →
          x.sample.timestamp ≤ r.sample.timestamp) := by
    intro m hdist r
    obtain ⟨_, hmem, hmax, hall⟩ := latestOf_driverLocations m
    constructor
    · intro hr
      exact ⟨hmem r hr, hmax r hr⟩
    · rintro ⟨hr, hrmax⟩
      obtain ⟨r1, hr1, hk⟩ := hall r hr
      have h1 : r.sample.timestamp ≤ r1.sample.timestamp := hmax r1 hr1 r hr hk.symm
      have h2 : r1.sample.timestamp ≤ r.sample.timestamp := hrmax r1 (hmem r1 hr1) hk
      have : r1 = r := hdist r1 (hmem r1 hr1) r hr hk (le_antisymm h2 h1)
      rw [← this]
      exact hr1
  obtain ⟨hnd, hmem, hmax, hall⟩ := latestOf_driverLocations l
  refine ⟨hnd, ?_, fun r hr => ⟨hmem r hr, hmax r hr⟩, ?_⟩
  · intro d
    constructor
    · intro hd
      obtain ⟨r, hr, rfl⟩ := List.mem_map.1 hd
      exact List.mem_map.2 ⟨r, hmem r hr, rfl⟩
    · intro hd
      obtain ⟨x, hx, rfl⟩ := List.mem_map.1 hd
      obtain ⟨r, hr, hk⟩ := hall x hx
      exact List.mem_map.2 ⟨r, hr, hk⟩
  · intro l1 hperm hdist
    have hdist1 : ∀ x ∈ l1, ∀ y ∈ l1, x.sample.driver_id = y.sample.driver_id →
        x.sample.timestamp = y.sample.timestamp → x = y := by
      intro x hx y hy
      exact hdist x (hperm.mem_iff.1 hx) y (hperm.mem_iff.1 hy)
    have hnd1 := (latestOf_driverLocations l1).1
    rw [List.perm_ext_iff_of_nodup (List.Nodup.of_map _ hnd1) (List.Nodup.of_map _ hnd)]
    intro r
    rw [hchar l1 hdist1 r, hchar l hdist r]
    constructor
    · rintro ⟨h1, h2⟩
      exact ⟨hperm.mem_iff.1 h1, fun x hx => h2 x (hperm.mem_iff.2 hx)⟩
    · rintro ⟨h1, h2⟩
      exact ⟨hperm.mem_iff.2 h1, fun x hx => h2 x (hperm.mem_iff.1 hx)⟩

/-- C19 at three fetched rows, two of driver 5 (times 10 and 30) and one of
driver 6, and at a reordering of them. -/
theorem c19_latest_sample_per_driver_witness :
    driverLocations [sampleAt 5 10, sampleAt 6 20, sampleAt 5 30] =
      [sampleAt 5 30, sampleAt 6 20] ∧
    driverLocations [sampleAt 6 20, sampleAt 5 30, sampleAt 5 10] =
      [sampleAt 6 20, sampleAt 5 30] ∧
    (driverLocations [sampleAt 6 20, sampleAt 5 30, sampleAt 5 10]).Perm
      (driverLocations [sampleAt 5 10, sampleAt 6 20, sampleAt 5 30]) :=
  ⟨by decide, by decide,
   (c19_latest_sample_per_driver [sampleAt 5 10, sampleAt 6 20, sampleAt 5 30]).2.2.2
     [sampleAt 6 20, sampleAt 5 30, sampleAt 5 10] (by decide) (by decide)⟩

/-- C20 (the code at the failing input): driver 5 is `available`, driver 6 is
`busy`, each has one sample. The filter on the embedded `drivers` columns
does not remove the rows of `driver_locations`: GET /location/active-drivers
answers 200 with both samples, the one of the busy driver 6 with `driver`
set to `null`. -/
theorem c20_busy_driver_sample_returned :
    (mixedFleetStore.drivers.map (fun d => (d.id, d.current_status))) =
      [(5, "available"), (6, "busy")] ∧
    (getActiveDrivers mixedFleetStore false).code = 200 ∧
    (getActiveDrivers mixedFleetStore false).body =
      .locations [⟨⟨6, 1, 1, none, none, none, 20⟩, none⟩,
        ⟨⟨5, 0, 0, none, none, none, 10⟩, some ⟨5, "KA-01", "available"⟩⟩] := by
  decide


/-! ## Theorems: GET /location/driver/:driverId/history -/

/-- The integer part of 3/2 is the safe integer 1. -/
theorem parseIntHours_three_halves : parseIntHours (.decimal (3 / 2)) = .whole 1 := by
  have h1 : (3 / 2 : ℚ).num = 3 := by norm_num
  have h2 : (3 / 2 : ℚ).den = 2 := by norm_num
  simp only [parseIntHours, h1, h2]
  decide

/-- C21 (as stated, refuted): the request time is 10000000 ms and `hours` is
`1.5`. The sample of driver 5 at 5680000 ms lies within 1.5 hours of the
request time (the window starts at 4600000 ms), yet the handler, which keeps
the integer part 1 of the parameter, returns only the sample at 9000000 ms. -/
theorem c21_fractional_hours_truncated :
    ((10000000 : ℚ) - (3 / 2) * 3600000 = 4600000 ∧ (4600000 : ℚ) ≤ 5680000) ∧
    (⟨5, 0, 0, none, none, none, 5680000⟩ : LocationSample) ∈ historyStore.driver_locations ∧
    parseIntHours (.decimal (3 / 2)) = .whole 1 ∧
    (getLocationHistory historyStore 5 (.decimal (3 / 2)) 10000000 false).body =
      .history [⟨5, 0, 0, none, none, none, 9000000⟩] := by
  refine ⟨⟨by norm_num, by norm_num⟩, by decide, parseIntHours_three_halves, ?_⟩
  simp only [getLocationHistory, parseIntHours_three_halves]
  decide

/-- C21 (amended): the request time is a time up to the year 9999. The
integer `parseInt` reads from the `hours` parameter is 24 when the parameter
is absent and the integer part of a decimal numeral when that is a safe
integer. When `parseInt` reads the safe integer `n` and the cutoff, the
request time minus `n` hours, is within the range of `Date`, the handler
answers 200 with exactly the samples of that driver whose timestamp is at or
after the cutoff, in ascending timestamp order, an empty list when there is
none, and changes no table; when the query fails it answers 500 `Failed to
fetch location history`. When `parseInt` reads `NaN` or a number beyond the
safe integers, or the cutoff is out of the range of `Date`, the handler
answers 500 `Internal server error`, whether the query would fail or not, and
changes no table. -/
theorem c21_history_window (st : Store) (driverId : Nat) (hours : HoursParam) (now : Nat)
    (hnow : now ≤ maxClock) :
    parseIntHours .absent = .whole 24 ∧
    (∀ q : ℚ, -maxSafeInteger ≤ ((q.num.tdiv q.den : Int) : ℚ) →
      ((q.num.tdiv q.den : Int) : ℚ) ≤ maxSafeInteger →
      parseIntHours (.decimal q) = .whole (q.num.tdiv q.den)) ∧
    (∀ n : Int, parseIntHours hours = .whole n →
      -maxTimeValue ≤ (now : Int) - n * msPerHour → (now : Int) - n * msPerHour ≤ maxTimeValue →
      getLocationHistory st driverId hours now true =
        ⟨500, .error "Failed to fetch location history", st, [], []⟩ ∧
      ∃ l : List LocationSample,
        getLocationHistory st driverId hours now false = ⟨200, .history l, st, [], []⟩ ∧
        l.Perm (st.driver_locations.filter
          (fun s => s.driver_id = driverId ∧
            (now : Int) - n * msPerHour ≤ (s.timestamp : Int))) ∧
        l.Sorted (fun a b => a.timestamp ≤ b.timestamp) ∧
        (∀ s, s ∈ l ↔ s ∈ st.driver_locations ∧ s.driver_id = driverId ∧
          (now : Int) - n * msPerHour ≤ (s.timestamp : Int)) ∧
        ((∀ s ∈ st.driver_locations, s.driver_id = driverId →
            ¬ (now : Int) - n * msPerHour ≤ (s.timestamp : Int)) → l = [])) ∧
    ((parseIntHours hours = .nan ∨ parseIntHours hours = .beyond) →
      ∀ selectFails, getLocationHistory st driverId hours now selectFails =
        ⟨500, .error "Internal server error", st, [], []⟩) ∧
    (∀ n : Int, parseIntHours hours = .whole n →
      ((now : Int) - n * msPerHour < -maxTimeValue ∨
        maxTimeValue < (now : Int) - n * msPerHour) →
      ∀ selectFails, getLocationHistory st driverId hours now selectFails =
        ⟨500, .error "Internal server error", st, [], []⟩) ∧
    (∀ n : Int, safeWhole n = .beyond →
      ((now : Int) - n * msPerHour < -maxTimeValue ∨
        maxTimeValue < (now : Int) - n * msPerHour)) := by
  haveI : IsTotal LocationSample (fun a b => a.timestamp ≤ b.timestamp) :=
    ⟨fun a b => Nat.le_total a.timestamp b.timestamp⟩
  haveI : IsTrans LocationSample (fun a b => a.timestamp ≤ b.timestamp) :=
    ⟨fun _ _ _ h1 h2 => Nat.le_trans h1 h2⟩
  refine ⟨rfl, ?_, ?_, ?_, ?_, ?_⟩
  · intro q hlo hhi
    simp only [parseIntHours, safeWhole, hlo, hhi, and_self, if_true]
  · intro n hn hlo hhi
    have hvalid : ¬ ((now : Int) - n * msPerHour < -maxTimeValue ∨
        maxTimeValue < (now : Int) - n * msPerHour) := by
      rintro (h | h)
      · exact absurd hlo (not_le.2 h)
      · exact absurd hhi (not_le.2 h)
    refine ⟨?_, _, ?_, List.perm_insertionSort _ _, List.sorted_insertionSort _ _, ?_, ?_⟩
    · simp only [getLocationHistory, hn, hvalid, if_false, if_true]
      rfl
    · simp only [getLocationHistory, hn, hvalid, if_false, Bool.false_eq_true]
    · intro s
      rw [(List.perm_insertionSort _ _).mem_iff, List.mem_filter]
      simp only [decide_eq_true_eq]
    · intro hnone
      have hfil : st.driver_locations.filter
          (fun s => s.driver_id = driverId ∧ (now : Int) - n * msPerHour ≤ (s.timestamp : Int))
          = [] := by
        rw [List.filter_eq_nil_iff]
        intro s hs
        simp only [decide_eq_true_eq, not_and]
        exact hnone s hs
      rw [hfil]
      rfl
  · rintro (h | h) selectFails
    · simp only [getLocationHistory, h]
      rfl
    · simp only [getLocationHistory, h]
      rfl
  · intro n hn hout selectFails
    simp only [getLocationHistory, hn, hout, if_true]
    rfl
  · intro n hn
    unfold safeWhole at hn
    split at hn
    · cases hn
    · rename_i hsafe
      have hsafe2 : ¬ (-9007199254740991 ≤ n ∧ n ≤ 9007199254740991) := by
        intro h
        apply hsafe
        unfold maxSafeInteger
        exact ⟨by exact_mod_cast h.1, by exact_mod_cast h.2⟩
      have hnow2 : now ≤ 253402300799999 := hnow
      unfold maxTimeValue msPerHour
      omega

/-- C21 (amended) on the history store at request time 10000000 ms: without
the parameter the window is 24 hours and the three samples of driver 5 come
back in ascending order; with a parameter that `parseInt` reads as `NaN` the
answer is 500. -/
theorem c21_history_window_witness :
    10000000 ≤ maxClock ∧
    (∃ l : List LocationSample,
      getLocationHistory historyStore 5 .absent 10000000 false =
        ⟨200, .history l, historyStore, [], []⟩ ∧
      l.Sorted (fun a b => a.timestamp ≤ b.timestamp) ∧
      l = [⟨5, 0, 0, none, none, none, 100⟩, ⟨5, 0, 0, none, none, none, 5680000⟩,
        ⟨5, 0, 0, none, none, none, 9000000⟩]) ∧
    getLocationHistory historyStore 5 (.other .nan) 10000000 false =
      ⟨500, .error "Internal server error", historyStore, [], []⟩ := by
  have h := c21_history_window historyStore 5 .absent 10000000 (by decide)
  have h2 := c21_history_window historyStore 5 (.other .nan) 10000000 (by decide)
  obtain ⟨_, l, hl, _, hsorted, _⟩ := h.2.2.1 24 rfl (by decide) (by decide)
  refine ⟨by decide, ⟨l, hl, hsorted, ?_⟩, h2.2.2.2.1 (Or.inl rfl) false⟩
  have hval : getLocationHistory historyStore 5 .absent 10000000 false =
      ⟨200, .history [⟨5, 0, 0, none, none, none, 100⟩, ⟨5, 0, 0, none, none, none, 5680000⟩,
        ⟨5, 0, 0, none, none, none, 9000000⟩], historyStore, [], []⟩ := by decide
  rw [hval] at hl
  injection hl with _ hbody
  injection hbody with hbody
  exact hbody.symm

/-! ## Theorems: append-only logs -/

/-- Nothing appended is appending only. -/
theorem appendOnly_refl (st : Store) : AppendOnly st st :=
  ⟨⟨[], by simp⟩, ⟨[], by simp⟩, ⟨[], by simp⟩⟩

/-- An update of the rows of one key keeps the keys of `orders` in place. -/
theorem map_id_update (l : List Order) (id : Nat) (g : Order → Order)
    (hg : ∀ x, (g x).id = x.id) :
    (l.map (fun x => if x.id = id then g x else x)).map (fun o => o.id) =
      l.map (fun o => o.id) := by
  rw [List.map_map]
  apply List.map_congr_left
  intro x _
  simp only [Function.comp]
  split
  · exact hg x
  · rfl

/-- The writes of the assignment handler append only. -/
theorem appendOnly_assignWrites (st : Store) (id : Nat) (c : Candidate) (q : NearestArgs)
    (f : AssignFaults) : AppendOnly st (assignWrites st id c q f).store := by
  unfold assignWrites
  cases f.updateOrder
  · have hids := map_id_update st.orders id
      (fun o => { o with driver_id := some c.driver_id, status := "assigned" }) (fun _ => rfl)
    cases f.updateDriver <;> cases f.insertTracking
    · exact ⟨⟨[assignmentEntry id c], rfl⟩, ⟨[], by simp [markDriverBusy, assignOrderRow]⟩,
        ⟨[], by simpa [markDriverBusy, assignOrderRow] using hids⟩⟩
    · exact ⟨⟨[], by simp [markDriverBusy, assignOrderRow]⟩,
        ⟨[], by simp [markDriverBusy, assignOrderRow]⟩,
        ⟨[], by simpa [markDriverBusy, assignOrderRow] using hids⟩⟩
    · exact ⟨⟨[assignmentEntry id c], rfl⟩, ⟨[], by simp [assignOrderRow]⟩,
        ⟨[], by simpa [assignOrderRow] using hids⟩⟩
    · exact ⟨⟨[], by simp [assignOrderRow]⟩, ⟨[], by simp [assignOrderRow]⟩,
        ⟨[], by simpa [assignOrderRow] using hids⟩⟩
  · exact appendOnly_refl st

/-- C22: under every handler the logs are append-only. A run of POST /orders,
of assign-driver or of POST /location/update, whatever its inputs and
whichever store call fails, leaves every row of `order_tracking` and of
`driver_locations` unmodified and in place and only appends rows to them, and
removes no order from `orders`; so does a run of PATCH /orders/:id/status
when `update_order_status` keeps to §4.1; the read handlers change no table. -/
theorem c22_logs_append_only (rpc : UpdateOrderStatusRpc) (st : Store)
    (isUuid : String → Bool) (user : Nat) (body : CreateOrderBody) (newId : Nat)
    (orderNumber : String) (cf : CreateFaults)
    (nearest : FindNearestDriverRpc) (id : Nat) (af : AssignFaults)
    (lbody : LocationBody) (now : Nat) (lf : Bool)
    (sbody : UpdateStatusBody) (pf : PatchFaults)
    (hours : HoursParam) (customers : List Contact) (restaurants : List RestaurantRow)
    (cred : Credential) :
    AppendOnly st (postOrder isUuid st user body newId orderNumber cf).store ∧
    AppendOnly st (postAssignDriver nearest st id af).store ∧
    AppendOnly st (postLocationUpdate st user lbody now lf).store ∧
    (LegalProcedure rpc → AppendOnly st (patchOrderStatus rpc st user id sbody pf).store) ∧
    (getActiveDrivers st lf).store = st ∧
    (getLocationHistory st id hours now lf).store = st ∧
    (getOrder customers restaurants st cred id lf).store = st := by
  refine ⟨?_, ?_, ?_, ?_, ?_, ?_, ?_⟩
  · unfold postOrder
    cases createOrderSchema isUuid body with
    | none => exact appendOnly_refl st
    | some value =>
      simp only []
      split
      · exact appendOnly_refl st
      · cases cf.insertTracking
        · exact ⟨⟨_, rfl⟩, ⟨[], by simp⟩, ⟨[newId], by simp⟩⟩
        · exact ⟨⟨[], by simp⟩, ⟨[], by simp⟩, ⟨[newId], by simp⟩⟩
  · unfold postAssignDriver
    cases af.selectOrder
    · simp only [Bool.false_eq_true, if_false]
      cases single (ordersById st id) with
      | none => exact appendOnly_refl st
      | some o =>
        simp only []
        cases o.driver_id with
        | some d => exact appendOnly_refl st
        | none =>
          simp only [Option.isSome_none, Bool.false_eq_true, if_false]
          cases nearest st ⟨o.pickup_lat, o.pickup_lng, 50⟩ with
          | none => exact appendOnly_refl st
          | some rows =>
            cases rows with
            | nil => exact appendOnly_refl st
            | cons c rest => exact appendOnly_assignWrites st id c _ af
    · exact appendOnly_refl st
  · unfold postLocationUpdate
    cases locationUpdateSchema lbody with
    | none => exact appendOnly_refl st
    | some value =>
      simp only []
      cases lf
      · exact ⟨⟨[], by simp⟩, ⟨_, rfl⟩, ⟨[], by simp⟩⟩
      · exact appendOnly_refl st
  · intro hrpc
    rcases patchOrderStatus_shape rpc hrpc st user id sbody pf with hs | ⟨o, a, _, _, _, _, hs⟩
    · rw [hs]
      exact appendOnly_refl st
    · rw [hs]
      exact ⟨⟨_, rfl⟩, ⟨[], by simp [applyTransition]⟩,
        ⟨[], by
          simpa [applyTransition] using
            map_id_update st.orders a.order_uuid (fun o => { o with status := a.new_status })
              (fun _ => rfl)⟩⟩
  · unfold getActiveDrivers
    cases lf <;> rfl
  · unfold getLocationHistory
    cases parseIntHours hours with
    | nan => rfl
    | beyond => rfl
    | whole n =>
      simp only []
      split
      · rfl
      · cases lf <;> rfl
  · unfold getOrder
    cases lf
    · simp only [Bool.false_eq_true, if_false]
      cases single (ordersById st id) <;> rfl
    · rfl


/-- C22 on the store with order 1 assigned to driver 5, with the procedure
modelled from §4.1: the four mutating handlers append only. -/
theorem c22_logs_append_only_witness :
    LegalProcedure specUpdateOrderStatus ∧
    AppendOnly (storeWithOrder "assigned")
      (postOrder sampleIsUuid (storeWithOrder "assigned") 5 pizzaBody 2 "ORD-2"
        CreateFaults.none).store ∧
    AppendOnly (storeWithOrder "assigned")
      (postAssignDriver nearestAvailable (storeWithOrder "assigned") 1 AssignFaults.none).store ∧
    AppendOnly (storeWithOrder "assigned")
      (postLocationUpdate (storeWithOrder "assigned") 5 (locationBody 0 0) 10 false).store ∧
    AppendOnly (storeWithOrder "assigned")
      (patchOrderStatus specUpdateOrderStatus (storeWithOrder "assigned") 5 1
        (statusBody "picked_up") PatchFaults.none).store :=
  have h := c22_logs_append_only specUpdateOrderStatus (storeWithOrder "assigned") sampleIsUuid 5
    pizzaBody 2 "ORD-2" CreateFaults.none nearestAvailable 1 AssignFaults.none (locationBody 0 0)
    10 false (statusBody "picked_up") PatchFaults.none HoursParam.absent [] [] Credential.missing
  ⟨legalProcedure_spec, h.1, h.2.1, h.2.2.1, h.2.2.2.1 legalProcedure_spec⟩

/-! ## Theorems: Socket.IO rooms and events -/

/-- The sockets of a room are the sockets that joined it. -/
theorem mem_members (h : Hub) (room : String) (s : Nat) :
    s ∈ h.members room ↔ (s, room) ∈ h.joined := by
  unfold Hub.members
  rw [List.mem_dedup, List.mem_map]
  constructor
  · rintro ⟨⟨a, r⟩, hp, rfl⟩
    rw [List.mem_filter] at hp
    have hr : r = room := by simpa using hp.2
    subst hr
    exact hp.1
  · intro hj
    exact ⟨(s, room), List.mem_filter.mpr ⟨hj, by simp⟩, rfl⟩

/-- The events of `socket.to(room).emit`: one for each socket of the room
other than the sender. -/
theorem mem_socketToEmit {α : Type} (h : Hub) (socket : Nat) (room event : String) (data : α)
    (e : Emission α) :
    e ∈ socketToEmit h socket room event data ↔
      (e.socket, room) ∈ h.joined ∧ e.socket ≠ socket ∧ e.event = event ∧ e.data = data := by
  unfold socketToEmit
  rw [List.mem_map]
  constructor
  · rintro ⟨s, hs, rfl⟩
    rw [List.mem_filter, mem_members] at hs
    exact ⟨hs.1, by simpa using hs.2, rfl, rfl⟩
  · obtain ⟨s, ev, d⟩ := e
    rintro ⟨hj, hne, hev, hd⟩
    simp only at hj hne hev hd
    subst hev
    subst hd
    exact ⟨s, List.mem_filter.mpr ⟨(mem_members h room s).mpr hj, by simpa using hne⟩, rfl⟩

/-- No socket gets an event of `socket.to(room).emit` twice. -/
theorem nodup_socketToEmit {α : Type} (h : Hub) (socket : Nat) (room event : String)
    (data : α) :
    ((socketToEmit h socket room event data).map (fun e => e.socket)).Nodup := by
  unfold socketToEmit Hub.members
  rw [List.map_map]
  have hid : ((fun e : Emission α => e.socket) ∘ fun s => (⟨s, event, data⟩ : Emission α)) = id := by
    funext s
    rfl
  rw [hid, List.map_id]
  exact (List.nodup_dedup _).filter _

/-- The events of `io.to(room).emit`: one for each socket of the room. -/
theorem mem_ioToEmit {α : Type} (h : Hub) (room event : String) (data : α) (e : Emission α) :
    e ∈ ioToEmit h room event data ↔
      (e.socket, room) ∈ h.joined ∧ e.event = event ∧ e.data = data := by
  unfold ioToEmit
  rw [List.mem_map]
  constructor
  · rintro ⟨s, hs, rfl⟩
    rw [mem_members] at hs
    exact ⟨hs, rfl, rfl⟩
  · obtain ⟨s, ev, d⟩ := e
    rintro ⟨hj, hev, hd⟩
    simp only at hj hev hd
    subst hev
    subst hd
    exact ⟨s, (mem_members h room s).mpr hj, rfl⟩

/-- C23 fails as stated: while the tables hold order 1 as pending, with a
log that holds only `pending`, an `order-status-update` message of socket 3
naming `delivered` is delivered to socket 2 in the room of order 1 as an
`order-status-changed` event: the relay reads no table. -/
theorem c23_relayed_status_never_committed :
    onOrderStatusUpdate roomHub 3 ⟨"1", "delivered"⟩ =
      [⟨2, "order-status-changed", ⟨"1", "delivered"⟩⟩] ∧
    (∀ o ∈ (dispatchStore "available").orders, o.status = "pending") ∧
    (∀ e ∈ (dispatchStore "available").order_tracking, e.status = "pending") := by
  refine ⟨by decide, ?_, ?_⟩
  · intro o ho
    simp only [dispatchStore, List.mem_singleton] at ho
    rw [ho]
    rfl
  · intro e he
    simp only [dispatchStore, List.mem_singleton] at he
    rw [he]

/-- C23, amended: an `order-status-changed` event of the change-feed
subscription carries the key and the status of the updated row that the feed
reports, and every socket joined to the order's room gets it; an
`order-status-changed` event of the `order-status-update` handler carries the
data of the sender's message as sent, whatever the tables hold, and every
socket joined to the room other than the sender gets it. -/
theorem c23_status_events_carry (keyText : Nat → String) (h : Hub) (new : Order)
    (socket : Nat) (data : StatusData) :
    (∀ e ∈ onOrdersUpdate keyText h new,
      e.event = "order-status-changed" ∧ e.data = ⟨keyText new.id, new.status⟩ ∧
        (e.socket, "order-" ++ keyText new.id) ∈ h.joined) ∧
    (∀ s, (s, "order-" ++ keyText new.id) ∈ h.joined →
      ⟨s, "order-status-changed", ⟨keyText new.id, new.status⟩⟩ ∈
        onOrdersUpdate keyText h new) ∧
    (∀ e ∈ onOrderStatusUpdate h socket data,
      e.event = "order-status-changed" ∧ e.data = data ∧
        (e.socket, "order-" ++ data.orderId) ∈ h.joined) ∧
    (∀ s, s ≠ socket → (s, "order-" ++ data.orderId) ∈ h.joined →
      ⟨s, "order-status-changed", data⟩ ∈ onOrderStatusUpdate h socket data) := by
  refine ⟨?_, ?_, ?_, ?_⟩
  · intro e he
    have := (mem_ioToEmit h _ _ _ e).mp he
    exact ⟨this.2.1, this.2.2, this.1⟩
  · intro s hs
    exact (mem_ioToEmit h _ _ _ _).mpr ⟨hs, rfl, rfl⟩
  · intro e he
    have := (mem_socketToEmit h socket _ _ _ e).mp he
    exact ⟨this.2.2.1, this.2.2.2, this.1⟩
  · intro s hne hs
    exact (mem_socketToEmit h socket _ _ _ _).mpr ⟨hs, hne, rfl, rfl⟩

/-- C23, amended, on the sample hub: the update of order 1 to `picked_up`
reaches socket 2 through the change feed, and the message of socket 3 naming
`delivered` reaches socket 2 as sent. -/
theorem c23_status_events_carry_witness :
    (⟨2, "order-status-changed", ⟨"1", "picked_up"⟩⟩ : Emission StatusData) ∈
      onOrdersUpdate (fun n => toString n) roomHub (sampleOrder 1 (some 5) "picked_up") ∧
    (⟨2, "order-status-changed", ⟨"1", "delivered"⟩⟩ : Emission StatusData) ∈
      onOrderStatusUpdate roomHub 3 ⟨"1", "delivered"⟩ :=
  have h := c23_status_events_carry (fun n => toString n) roomHub
    (sampleOrder 1 (some 5) "picked_up") 3 ⟨"1", "delivered"⟩
  ⟨h.2.1 2 (by decide), h.2.2.2 2 (by decide) (by decide)⟩

/-- C24 fails as stated: socket 3 has joined the room of order 1, and its own
`order-status-update` message for order 1 is not delivered to it; socket 4
has joined the room of driver 5, and its `driver-location-update` message for
driver 5 is delivered to no socket. -/
theorem c24_sender_is_left_out :
    (3, "order-1") ∈ roomHub.joined ∧
    onOrderStatusUpdate roomHub 3 ⟨"1", "picked_up"⟩ =
      [⟨2, "order-status-changed", ⟨"1", "picked_up"⟩⟩] ∧
    (4, "driver-5") ∈ roomHub.joined ∧
    onDriverLocationUpdate roomHub 4 ⟨"5", 0, 0⟩ = [] := by
  refine ⟨by decide, by decide, by decide, by decide⟩

/-- C24, amended: when an `order-status-update` or `driver-location-update`
message for id X arrives on a socket, the corresponding event, with the data
of the message, is delivered once to every socket joined to the room order-X
(respectively driver-X) other than the sending socket, and to no other
socket; with no other socket in the room nothing is delivered and the handler
completes. -/
theorem c24_relay_reaches_other_members (h : Hub) (socket : Nat) (sd : StatusData)
    (ld : LocationData) :
    (∀ e, e ∈ onOrderStatusUpdate h socket sd ↔
      ((e.socket, "order-" ++ sd.orderId) ∈ h.joined ∧ e.socket ≠ socket ∧
        e.event = "order-status-changed" ∧ e.data = sd)) ∧
    ((onOrderStatusUpdate h socket sd).map (fun e => e.socket)).Nodup ∧
    ((∀ s, (s, "order-" ++ sd.orderId) ∈ h.joined → s = socket) →
      onOrderStatusUpdate h socket sd = []) ∧
    (∀ e, e ∈ onDriverLocationUpdate h socket ld ↔
      ((e.socket, "driver-" ++ ld.driverId) ∈ h.joined ∧ e.socket ≠ socket ∧
        e.event = "driver-location-changed" ∧ e.data = ld)) ∧
    ((onDriverLocationUpdate h socket ld).map (fun e => e.socket)).Nodup ∧
    ((∀ s, (s, "driver-" ++ ld.driverId) ∈ h.joined → s = socket) →
      onDriverLocationUpdate h socket ld = []) := by
  refine ⟨fun e => mem_socketToEmit h socket _ _ _ e, nodup_socketToEmit h socket _ _ _, ?_,
    fun e => mem_socketToEmit h socket _ _ _ e, nodup_socketToEmit h socket _ _ _, ?_⟩
  · intro hall
    rw [List.eq_nil_iff_forall_not_mem]
    intro e he
    have := (mem_socketToEmit h socket _ _ _ e).mp he
    exact this.2.1 (hall _ this.1)
  · intro hall
    rw [List.eq_nil_iff_forall_not_mem]
    intro e he
    have := (mem_socketToEmit h socket _ _ _ e).mp he
    exact this.2.1 (hall _ this.1)

/-- C24, amended, on the sample hub: the message of socket 3 for order 1
reaches socket 2, and the message of socket 4 for driver 5, alone in its room,
reaches nobody. -/
theorem c24_relay_reaches_other_members_witness :
    (⟨2, "order-status-changed", ⟨"1", "picked_up"⟩⟩ : Emission StatusData) ∈
      onOrderStatusUpdate roomHub 3 ⟨"1", "picked_up"⟩ ∧
    onDriverLocationUpdate roomHub 4 ⟨"5", 0, 0⟩ = [] :=
  have h3 := c24_relay_reaches_other_members roomHub 3 ⟨"1", "picked_up"⟩ ⟨"5", 0, 0⟩
  have h4 := c24_relay_reaches_other_members roomHub 4 ⟨"1", "picked_up"⟩ ⟨"5", 0, 0⟩
  ⟨(h3.1 _).mpr ⟨by decide, by decide, rfl, rfl⟩,
    h4.2.2.2.2.2 (by
      intro s hs
      simpa [roomHub] using hs)⟩


/-! ## Theorems: the driver dashboard's next status -/

/-- C25 fails as stated: `getNextStatus` maps `assigned` to `picked_up`, and
`assigned` has no successor in the chain of §4.1, nor is assigned → picked_up
an edge of §4.1 at all. -/
theorem c25_assigned_is_off_the_chain :
    getNextStatus "assigned" = some "picked_up" ∧
    chainNext "assigned" = none ∧
    legalSuccessor "assigned" "picked_up" = false := by
  refine ⟨by decide, by decide, by decide⟩

/-- C25, amended: `getNextStatus` maps `assigned` to `picked_up`,
`picked_up` to `out_for_delivery`, `out_for_delivery` to `delivered`, and
every other status, among them the terminal `delivered` and `cancelled`, to
null. So for every status s, if `getNextStatus s` is not null then either s is
`assigned` and the result is `picked_up`, or s → `getNextStatus s` is an edge
of the chain of §4.1; and from every status the fourth application at the
latest is null. -/
theorem c25_next_status_edges (s : String) :
    getNextStatus "assigned" = some "picked_up" ∧
    getNextStatus "picked_up" = some "out_for_delivery" ∧
    getNextStatus "out_for_delivery" = some "delivered" ∧
    (s ≠ "assigned" → s ≠ "picked_up" → s ≠ "out_for_delivery" → getNextStatus s = none) ∧
    (∀ t, getNextStatus s = some t →
      (s = "assigned" ∧ t = "picked_up") ∨ chainNext s = some t) ∧
    getNextStatus "delivered" = none ∧
    getNextStatus "cancelled" = none ∧
    (((getNextStatus s).bind getNextStatus).bind getNextStatus).bind getNextStatus = none := by
  have hother : s ≠ "assigned" → s ≠ "picked_up" → s ≠ "out_for_delivery" →
      getNextStatus s = none := by
    intro h1 h2 h3
    unfold getNextStatus
    rw [if_neg h1, if_neg h2, if_neg h3]
  refine ⟨by decide, by decide, by decide, hother, ?_, by decide, by decide, ?_⟩
  · intro t ht
    unfold getNextStatus at ht
    split_ifs at ht with h1 h2 h3
    · left
      exact ⟨h1, (Option.some.inj ht).symm⟩
    · right
      subst h2
      rw [← ht]
      decide
    · right
      subst h3
      rw [← ht]
      decide
  · by_cases h1 : s = "assigned"
    · subst h1
      decide
    · by_cases h2 : s = "picked_up"
      · subst h2
        decide
      · by_cases h3 : s = "out_for_delivery"
        · subst h3
          decide
        · rw [hother h1 h2 h3]
          rfl

/-- C25, amended, at `picked_up` and at `ready_for_pickup`: the next status of
`picked_up` is `out_for_delivery`, an edge of the chain, and
`ready_for_pickup` has no next status. -/
theorem c25_next_status_edges_witness :
    getNextStatus "picked_up" = some "out_for_delivery" ∧
    chainNext "picked_up" = some "out_for_delivery" ∧
    getNextStatus "ready_for_pickup" = none :=
  ⟨by decide,
    ((c25_next_status_edges "picked_up").2.2.2.2.1 "out_for_delivery" (by decide)).resolve_left
      (by decide),
    (c25_next_status_edges "ready_for_pickup").2.2.2.1 (by decide) (by decide) (by decide)⟩

/-! ## Theorems: GET /orders (admin listing) -/

/-- A decimal numeral has at least as many digits as were there to begin
with. -/
theorem toDigitsCore_length_le (fuel n : Nat) (ds : List Char) :
    ds.length ≤ (Nat.toDigitsCore 10 fuel n ds).length := by
  induction fuel generalizing n ds with
  | zero => simp [Nat.toDigitsCore]
  | succ f ih =>
    simp only [Nat.toDigitsCore]
    split
    · simp
    · exact le_trans (by simp) (ih _ _)

/-- A decimal numeral has at least one digit. -/
theorem toDigits_length_pos (n : Nat) : 1 ≤ (Nat.toDigits 10 n).length := by
  unfold Nat.toDigits
  simp only [Nat.toDigitsCore]
  split
  · simp
  · exact le_trans (by simp) (toDigitsCore_length_le _ _ _)

/-- A numeral below 10^k gets at most k digits. -/
theorem toDigitsCore_length_le_add (fuel : Nat) :
    ∀ (k n : Nat) (ds : List Char), 1 ≤ k → n < 10 ^ k →
      (Nat.toDigitsCore 10 fuel n ds).length ≤ ds.length + k := by
  induction fuel with
  | zero =>
    intro k n ds _ _
    simp [Nat.toDigitsCore]
  | succ f ih =>
    intro k n ds hk hn
    simp only [Nat.toDigitsCore]
    split
    · simp only [List.length_cons]
      omega
    · rename_i hdiv
      have hk2 : 2 ≤ k := by
        by_contra hlt
        have hk1 : k = 1 := by omega
        subst hk1
        apply hdiv
        exact Nat.div_eq_of_lt (by simpa using hn)
      have hn2 : n / 10 < 10 ^ (k - 1) := by
        apply Nat.div_lt_of_lt_mul
        have : 10 ^ k = 10 * 10 ^ (k - 1) := by
          rw [← pow_succ', Nat.sub_add_cancel hk]
        omega
      have := ih (k - 1) (n / 10) (Nat.digitChar (n % 10) :: ds) (by omega) hn2
      simp only [List.length_cons] at this
      omega

/-- A numeral of up to five digits: ten to the number of its digits is at most
100000. -/
theorem toDigits_pow_le (l : Fin 100000) :
    (10 : Int) ^ (Nat.toDigits 10 l.val).length ≤ 100000 := by
  have hlen : (Nat.toDigits 10 l.val).length ≤ 5 := by
    have := toDigitsCore_length_le_add (l.val + 1) 5 l.val [] (by norm_num)
      (by have := l.isLt; omega)
    simpa [Nat.toDigits] using this
  calc (10 : Int) ^ (Nat.toDigits 10 l.val).length ≤ 10 ^ 5 :=
        pow_le_pow_right₀ (by norm_num) hlen
    _ = 100000 := by norm_num

/-- The offset of the listing lies between -99999 and 99998 · 99999. -/
theorem listOffset_bounds (page limit : QueryNumber) :
    -99999 ≤ listOffset page limit ∧ listOffset page limit ≤ 9999700002 := by
  cases page with
  | absent =>
    cases limit with
    | absent => simp [listOffset]
    | digits l => simp [listOffset]
  | digits p =>
    have hp := p.isLt
    cases limit with
    | absent =>
      simp only [listOffset]
      constructor <;> omega
    | digits l =>
      have hl := l.isLt
      simp only [listOffset]
      have h1 : (-1 : Int) ≤ (p.val : Int) - 1 := by omega
      have h2 : (p.val : Int) - 1 ≤ 99998 := by omega
      have h3 : (0 : Int) ≤ (l.val : Int) := by omega
      have h4 : (l.val : Int) ≤ 99999 := by omega
      constructor <;> nlinarith

/-- Every number of the listing is a safe integer: the offset, the number the
concatenated string reads as, and the end of the range. -/
theorem listRange_safe (page limit : QueryNumber) :
    -9007199254740991 ≤ listOffset page limit ∧ listOffset page limit ≤ 9007199254740991 ∧
    -9007199254740991 ≤ listRangeEnd page limit ∧
    listRangeEnd page limit + 1 ≤ 9007199254740991 := by
  obtain ⟨hlo, hhi⟩ := listOffset_bounds page limit
  refine ⟨by omega, by omega, ?_⟩
  cases limit with
  | absent =>
    simp only [listRangeEnd]
    constructor <;> omega
  | digits l =>
    have hl := l.isLt
    have hk := toDigits_pow_le l
    have hk0 : (0 : Int) < 10 ^ (Nat.toDigits 10 l.val).length := by positivity
    simp only [listRangeEnd, concatDecimal]
    split
    · rename_i hneg
      have h1 : -listOffset page (.digits l) ≤ 99999 := by omega
      have h2 : (0 : Int) ≤ -listOffset page (.digits l) := by omega
      have h3 : -listOffset page (.digits l) * 10 ^ (Nat.toDigits 10 l.val).length ≤
          99999 * 100000 := mul_le_mul h1 hk (le_of_lt hk0) (by norm_num)
      have h4 : (0 : Int) ≤ -listOffset page (.digits l) * 10 ^ (Nat.toDigits 10 l.val).length :=
        mul_nonneg h2 (le_of_lt hk0)
      constructor <;> omega
    · rename_i hneg
      have h2 : (0 : Int) ≤ listOffset page (.digits l) := by omega
      have h3 : listOffset page (.digits l) * 10 ^ (Nat.toDigits 10 l.val).length ≤
          9999700002 * 100000 := mul_le_mul hhi hk (le_of_lt hk0) (by norm_num)
      have h4 : (0 : Int) ≤ listOffset page (.digits l) * 10 ^ (Nat.toDigits 10 l.val).length :=
        mul_nonneg h2 (le_of_lt hk0)
      constructor <;> omega

/-- C26: the row range of the admin listing. For `page=2&limit=10` the first
row asked for is 10, as claimed, and the last is 1009, not 19: `limit` is a
string, and `offset + limit` appends its digits to those of the offset. On
thirty orders the page holds twenty rows, more than the limit of 10. For every
page from 2 on and every limit from 1 on (numerals of up to five digits) the
last row asked for is beyond the claimed p·L - 1. The range is the claimed one
on page 1, where the offset is 0, and when `limit` is absent. Every number in
this is a safe integer. -/
theorem c26_range_end_appends_digits :
    listOffset (.digits 2) (.digits 10) = 10 ∧
    listRangeEnd (.digits 2) (.digits 10) = 1009 ∧
    (listOrders thirtyOrderStore (.digits 2) (.digits 10)).length = 20 ∧
    (∀ p l : Fin 100000, 2 ≤ p.val → 1 ≤ l.val →
      listOffset (.digits p) (.digits l) = ((p.val : Int) - 1) * (l.val : Int) ∧
      (p.val : Int) * (l.val : Int) - 1 < listRangeEnd (.digits p) (.digits l)) ∧
    (∀ l : Fin 100000, listOffset (.digits 1) (.digits l) = 0 ∧
      listRangeEnd (.digits 1) (.digits l) = (l.val : Int) - 1) ∧
    (∀ p : Fin 100000, listOffset (.digits p) .absent = ((p.val : Int) - 1) * 20 ∧
      listRangeEnd (.digits p) .absent = (p.val : Int) * 20 - 1) ∧
    (∀ page limit : QueryNumber,
      -9007199254740991 ≤ listOffset page limit ∧ listOffset page limit ≤ 9007199254740991 ∧
      -9007199254740991 ≤ listRangeEnd page limit ∧
      listRangeEnd page limit + 1 ≤ 9007199254740991) := by
  refine ⟨by decide, by decide, by decide, ?_, ?_, ?_, listRange_safe⟩
  · intro p l hp hl
    refine ⟨rfl, ?_⟩
    have hp2 : (1 : Int) ≤ (p.val : Int) - 1 := by omega
    have hl2 : (1 : Int) ≤ (l.val : Int) := by omega
    have hm : (1 : Int) ≤ ((p.val : Int) - 1) * (l.val : Int) := by nlinarith
    have hk : (10 : Int) ≤ 10 ^ (Nat.toDigits 10 l.val).length := by
      calc (10 : Int) = 10 ^ 1 := by norm_num
        _ ≤ 10 ^ (Nat.toDigits 10 l.val).length :=
          pow_le_pow_right₀ (by norm_num) (toDigits_length_pos l.val)
    have hneg : ¬ ((p.val : Int) - 1) * (l.val : Int) < 0 := by omega
    simp only [listRangeEnd, listOffset, concatDecimal, hneg, if_false]
    nlinarith
  · intro l
    have h1 : ((1 : Fin 100000).val : Int) = 1 := rfl
    simp [listOffset, listRangeEnd, concatDecimal, h1]
  · intro p
    simp only [listOffset, listRangeEnd]
    constructor
    · trivial
    · ring

/-! ## Theorems: identity fields -/

/-- A body that passes `locationUpdateSchema` has no key beyond the declared
ones. -/
theorem locationUpdateSchema_unknownKeys {b : LocationBody} {v : LocationUpdate}
    (h : locationUpdateSchema b = some v) : b.unknownKeys = [] := by
  simp only [locationUpdateSchema, Option.bind_eq_bind, Option.bind_eq_some] at h
  obtain ⟨_, _, _, _, _, _, _, _, _, _, hfin⟩ := h
  split at hfin
  · assumption
  · cases hfin

/-- C27: identity fields come from the authenticated user, never from the
body. For two bodies that pass `createOrderSchema` and two that pass
`locationUpdateSchema`, sent by the same user: no body has a key beyond the
declared ones; when the insert succeeds, each POST /orders stores one order,
with `customer_id` the user's id and status `pending`, and each
POST /location/update stores one sample, with `driver_id` the user's id; so
the two stored orders agree in `customer_id` and status and the two stored
samples in `driver_id`. -/
theorem c27_identity_from_user (isUuid : String → Bool) (st : Store) (user : Nat)
    (body1 body2 : CreateOrderBody) (newId : Nat) (orderNumber : String) (f : CreateFaults)
    (lbody1 lbody2 : LocationBody) (now : Nat)
    (v1 v2 : OrderSpec) (l1 l2 : LocationUpdate)
    (hv1 : createOrderSchema isUuid body1 = some v1)
    (hv2 : createOrderSchema isUuid body2 = some v2)
    (hl1 : locationUpdateSchema lbody1 = some l1)
    (hl2 : locationUpdateSchema lbody2 = some l2)
    (hins : f.insertOrder = false) (hfree : ordersById st newId = []) :
    body1.unknownKeys = [] ∧ body2.unknownKeys = [] ∧
    lbody1.unknownKeys = [] ∧ lbody2.unknownKeys = [] ∧
    ∃ (o1 o2 : Order) (s1 s2 : LocationSample),
      (postOrder isUuid st user body1 newId orderNumber f).code = 201 ∧
      (postOrder isUuid st user body1 newId orderNumber f).store.orders = st.orders ++ [o1] ∧
      (postOrder isUuid st user body2 newId orderNumber f).code = 201 ∧
      (postOrder isUuid st user body2 newId orderNumber f).store.orders = st.orders ++ [o2] ∧
      (postLocationUpdate st user lbody1 now false).code = 200 ∧
      (postLocationUpdate st user lbody1 now false).store.driver_locations =
        st.driver_locations ++ [s1] ∧
      (postLocationUpdate st user lbody2 now false).code = 200 ∧
      (postLocationUpdate st user lbody2 now false).store.driver_locations =
        st.driver_locations ++ [s2] ∧
      o1.customer_id = user ∧ o1.status = "pending" ∧
      o2.customer_id = user ∧ o2.status = "pending" ∧
      s1.driver_id = user ∧ s2.driver_id = user ∧
      o1.customer_id = o2.customer_id ∧ o1.status = o2.status ∧ s1.driver_id = s2.driver_id := by
  have hu1 : body1.unknownKeys = [] := by
    obtain ⟨its, hb, _⟩ := (createOrderSchema_eq_some isUuid body1 v1).mp hv1
    rw [hb]
  have hu2 : body2.unknownKeys = [] := by
    obtain ⟨its, hb, _⟩ := (createOrderSchema_eq_some isUuid body2 v2).mp hv2
    rw [hb]
  refine ⟨hu1, hu2, locationUpdateSchema_unknownKeys hl1, locationUpdateSchema_unknownKeys hl2,
    ?_⟩
  have hp : ∀ (body : CreateOrderBody) (v : OrderSpec), createOrderSchema isUuid body = some v →
      ∃ o : Order, (postOrder isUuid st user body newId orderNumber f).code = 201 ∧
        (postOrder isUuid st user body newId orderNumber f).store.orders = st.orders ++ [o] ∧
        o.customer_id = user ∧ o.status = "pending" := by
    intro body v hv
    let o : Order :=
      { id := newId, customer_id := user, driver_id := none, order_number := orderNumber,
        status := "pending", restaurant_id := v.restaurant_id, items := v.items,
        total_amount := v.total_amount, delivery_address := v.delivery_address,
        delivery_lat := v.delivery_lat, delivery_lng := v.delivery_lng,
        pickup_lat := v.pickup_lat, pickup_lng := v.pickup_lng }
    refine ⟨o, ?_, ?_, rfl, rfl⟩
    · unfold postOrder
      simp only [hv, hins, hfree, ne_eq, not_true_eq_false, decide_False, Bool.or_self,
        Bool.false_eq_true, if_false]
    · unfold postOrder
      simp only [hv, hins, hfree, ne_eq, not_true_eq_false, decide_False, Bool.or_self,
        Bool.false_eq_true, if_false]
      cases f.insertTracking <;> rfl
  have hq : ∀ (lbody : LocationBody) (l : LocationUpdate), locationUpdateSchema lbody = some l →
      ∃ s : LocationSample, (postLocationUpdate st user lbody now false).code = 200 ∧
        (postLocationUpdate st user lbody now false).store.driver_locations =
          st.driver_locations ++ [s] ∧ s.driver_id = user := by
    intro lbody l hl
    refine ⟨⟨user, l.lat, l.lng, l.accuracy, l.speed, l.heading, now⟩, ?_, ?_, rfl⟩
    · unfold postLocationUpdate
      simp only [hl, Bool.false_eq_true, if_false]
    · unfold postLocationUpdate
      simp only [hl, Bool.false_eq_true, if_false]
  obtain ⟨o1, ha1, hb1, hc1, hd1⟩ := hp body1 v1 hv1
  obtain ⟨o2, ha2, hb2, hc2, hd2⟩ := hp body2 v2 hv2
  obtain ⟨s1, he1, hf1, hg1⟩ := hq lbody1 l1 hl1
  obtain ⟨s2, he2, hf2, hg2⟩ := hq lbody2 l2 hl2
  exact ⟨o1, o2, s1, s2, ha1, hb1, ha2, hb2, he1, hf1, he2, hf2, hc1, hd1, hc2, hd2, hg1, hg2,
    hc1.trans hc2.symm, hd1.trans hd2.symm, hg1.trans hg2.symm⟩


/-- C27 on the fleet store: customer 7 sends the pizza body and the pasta
body, and user 7 sends two location bodies; both orders are stored for
customer 7 as pending, both samples for driver 7. -/
theorem c27_identity_from_user_witness :
    ∃ (o1 o2 : Order) (s1 s2 : LocationSample),
      (postOrder sampleIsUuid fleetStore 7 pizzaBody 1 "ORD-1" CreateFaults.none).store.orders =
        fleetStore.orders ++ [o1] ∧
      (postOrder sampleIsUuid fleetStore 7 pastaBody 1 "ORD-1" CreateFaults.none).store.orders =
        fleetStore.orders ++ [o2] ∧
      (postLocationUpdate fleetStore 7 (locationBody 0 0) 100 false).store.driver_locations =
        fleetStore.driver_locations ++ [s1] ∧
      (postLocationUpdate fleetStore 7 (locationBody 12 77) 100 false).store.driver_locations =
        fleetStore.driver_locations ++ [s2] ∧
      o1.customer_id = 7 ∧ o1.status = "pending" ∧ o2.customer_id = 7 ∧ o2.status = "pending" ∧
      s1.driver_id = 7 ∧ s2.driver_id = 7 := by
  obtain ⟨_, _, _, _, o1, o2, s1, s2, _, h1, _, h2, _, h3, _, h4, h5, h6, h7, h8, h9, h10, _⟩ :=
    c27_identity_from_user sampleIsUuid fleetStore 7 pizzaBody pastaBody 1 "ORD-1"
      CreateFaults.none (locationBody 0 0) (locationBody 12 77) 100 pizzaSpec pastaSpec
      ⟨0, 0, none, none, none⟩ ⟨12, 77, none, none, none⟩
      (by decide) (by decide) (by decide) (by decide) rfl rfl
  exact ⟨o1, o2, s1, s2, h1, h2, h3, h4, h5, h6, h7, h8, h9, h10⟩

/-! ## Theorems: the status timeline -/

/-- When no element passes, `findIndex` answers -1. -/
theorem findIndexFrom_none {α : Type} (p : α → Bool) (l : List α) (i : Nat)
    (h : ∀ x ∈ l, p x = false) : findIndexFrom p i l = -1 := by
  induction l generalizing i with
  | nil => rfl
  | cons a t ih =>
    unfold findIndexFrom
    rw [h a (List.mem_cons_self a t)]
    simp only [Bool.false_eq_true, if_false]
    exact ih (i + 1) (fun x hx => h x (List.mem_cons_of_mem a hx))

/-- C28: the marks of `StatusTimeline`. The steps are, in this order,
pending, accepted, preparing, ready_for_pickup, picked_up, out_for_delivery,
delivered, and the index of each is its position, 0 to 6. For a status s among
the seven, at position j, the step at index i is marked completed exactly when
i ≤ j and current exactly when i = j; for a status that is not one of the
seven steps, among them `assigned` and `cancelled`, and for an undefined
status, the index is -1 and no step is marked completed or current. The status
shown is `currentStatus` when that is a non-empty string, and else the
order's. -/
theorem c28_timeline_marks (s : String) :
    statusSteps = ["pending", "accepted", "preparing", "ready_for_pickup", "picked_up",
      "out_for_delivery", "delivered"] ∧
    (getStatusIndex (some "pending") = 0 ∧ getStatusIndex (some "accepted") = 1 ∧
      getStatusIndex (some "preparing") = 2 ∧ getStatusIndex (some "ready_for_pickup") = 3 ∧
      getStatusIndex (some "picked_up") = 4 ∧ getStatusIndex (some "out_for_delivery") = 5 ∧
      getStatusIndex (some "delivered") = 6) ∧
    (s ∈ statusSteps → ∃ j : Nat, statusSteps[j]? = some s ∧
      getStatusIndex (some s) = (j : Int) ∧ ∀ i : Nat,
      (isCompleted (getStatusIndex (some s)) i = true ↔ i ≤ j) ∧
      (isCurrent (getStatusIndex (some s)) i = true ↔ i = j)) ∧
    (s ∉ statusSteps → getStatusIndex (some s) = -1 ∧ ∀ i : Nat,
      isCompleted (getStatusIndex (some s)) i = false ∧
      isCurrent (getStatusIndex (some s)) i = false) ∧
    "assigned" ∉ statusSteps ∧ "cancelled" ∉ statusSteps ∧
    (getStatusIndex none = -1 ∧ ∀ i : Nat, isCompleted (getStatusIndex none) i = false ∧
      isCurrent (getStatusIndex none) i = false) ∧
    (∀ os, s ≠ "" → shownStatus (some s) os = some s) ∧
    shownStatus none (some s) = some s ∧ shownStatus (some "") (some s) = some s := by
  have hmarks : ∀ (idx : Int) (j : Nat), idx = (j : Int) → ∀ i : Nat,
      (isCompleted idx i = true ↔ i ≤ j) ∧ (isCurrent idx i = true ↔ i = j) := by
    intro idx j hidx i
    subst hidx
    simp only [isCompleted, isCurrent, decide_eq_true_eq]
    constructor <;> constructor <;> intro h <;> omega
  have hoff : ∀ idx : Int, idx = -1 → ∀ i : Nat,
      isCompleted idx i = false ∧ isCurrent idx i = false := by
    intro idx hidx i
    subst hidx
    simp only [isCompleted, isCurrent, decide_eq_false_iff_not]
    constructor <;> omega
  refine ⟨rfl, ⟨by decide, by decide, by decide, by decide, by decide, by decide, by decide⟩,
    ?_, ?_, by decide, by decide, ⟨by decide, hoff _ (by decide)⟩, ?_, rfl, rfl⟩
  · intro hs
    simp only [statusSteps, List.mem_cons, List.mem_singleton, List.not_mem_nil, or_false] at hs
    rcases hs with h | h | h | h | h | h | h <;> subst h
    · exact ⟨0, by decide, by decide, hmarks _ 0 (by decide)⟩
    · exact ⟨1, by decide, by decide, hmarks _ 1 (by decide)⟩
    · exact ⟨2, by decide, by decide, hmarks _ 2 (by decide)⟩
    · exact ⟨3, by decide, by decide, hmarks _ 3 (by decide)⟩
    · exact ⟨4, by decide, by decide, hmarks _ 4 (by decide)⟩
    · exact ⟨5, by decide, by decide, hmarks _ 5 (by decide)⟩
    · exact ⟨6, by decide, by decide, hmarks _ 6 (by decide)⟩
  · intro hs
    have hidx : getStatusIndex (some s) = -1 := by
      unfold getStatusIndex
      apply findIndexFrom_none
      intro x hx
      simp only [Option.some.injEq, decide_eq_false_iff_not]
      intro hxs
      exact hs (hxs ▸ hx)
    exact ⟨hidx, hoff _ hidx⟩
  · intro os hne
    unfold shownStatus
    simp only [hne, if_false]

/-- C28 at `preparing`, the step of index 2: the steps pending, accepted and
preparing (0 to 2) are completed, ready_for_pickup (3) is not, and preparing
alone is current. -/
theorem c28_timeline_marks_witness :
    "preparing" ∈ statusSteps ∧
    (∃ j : Nat, statusSteps[j]? = some "preparing" ∧
      getStatusIndex (some "preparing") = (j : Int) ∧ ∀ i : Nat,
      (isCompleted (getStatusIndex (some "preparing")) i = true ↔ i ≤ j) ∧
      (isCurrent (getStatusIndex (some "preparing")) i = true ↔ i = j)) ∧
    getStatusIndex (some "preparing") = 2 ∧
    isCompleted (getStatusIndex (some "preparing")) 0 = true ∧
    isCompleted (getStatusIndex (some "preparing")) 3 = false ∧
    isCurrent (getStatusIndex (some "preparing")) 2 = true :=
  ⟨by decide, (c28_timeline_marks "preparing").2.2.1 (by decide),
    (c28_timeline_marks "preparing").2.1.2.2.1, by decide, by decide, by decide⟩

/-! ## Theorems: status labels -/

/-- C29: the label of `out_for_delivery` is `OUT FOR_DELIVERY`, not
`OUT FOR DELIVERY`, and that of `ready_for_pickup` is `READY FOR_PICKUP`:
`replace` with a string pattern replaces the first underscore only, and the
label keeps the second. The labels of the statuses with at most one
underscore are as claimed. -/
theorem c29_label_keeps_second_underscore :
    statusLabel "out_for_delivery" = "OUT FOR_DELIVERY" ∧
    '_' ∈ (statusLabel "out_for_delivery").data ∧
    statusLabel "ready_for_pickup" = "READY FOR_PICKUP" ∧
    '_' ∈ (statusLabel "ready_for_pickup").data ∧
    statusLabel "picked_up" = "PICKED UP" ∧
    statusLabel "pending" = "PENDING" ∧ statusLabel "accepted" = "ACCEPTED" ∧
    statusLabel "preparing" = "PREPARING" ∧ statusLabel "delivered" = "DELIVERED" ∧
    statusLabel "cancelled" = "CANCELLED" ∧ statusLabel "assigned" = "ASSIGNED" := by
  refine ⟨by decide, by decide, by decide, by decide, by decide, by decide, by decide, by decide,
    by decide, by decide, by decide⟩

/-! ## Theorems: GET /orders/:id -/

/-- With unique keys, a lookup by key finds no row or one. -/
theorem ordersById_of_nodup (l : List Order) (id : Nat)
    (h : (l.map (fun o => o.id)).Nodup) :
    l.filter (fun o => o.id = id) = [] ∨ ∃ o, l.filter (fun o => o.id = id) = [o] := by
  induction l with
  | nil => left; rfl
  | cons a t ih =>
    rw [List.map_cons, List.nodup_cons] at h
    by_cases ha : a.id = id
    · right
      refine ⟨a, ?_⟩
      rw [List.filter_cons_of_pos (by simpa using ha)]
      congr 1
      rw [List.filter_eq_nil_iff]
      intro x hx hxid
      apply h.1
      rw [List.mem_map]
      exact ⟨x, hx, by rw [ha]; simpa using hxid⟩
    · rw [List.filter_cons_of_neg (by simpa using ha)]
      exact ih h.2

/-- C30: the response of GET /orders/:id does not depend on the requester.
For any two credentials (absent, invalid, or any user's token) the response
is the same. When the lookup succeeds and finds the order, it is 200 with the
order, its customer, driver, restaurant and tracking entries. It is 404
exactly when the lookup fails or does not find one row; with unique keys,
exactly when the lookup fails or no order has the id. -/
theorem c30_order_details_public (customers : List Contact) (restaurants : List RestaurantRow)
    (st : Store) (cred1 cred2 : Credential) (id : Nat) (selectFails : Bool) :
    getOrder customers restaurants st cred1 id selectFails =
      getOrder customers restaurants st cred2 id selectFails ∧
    (∀ o, selectFails = false → ordersById st id = [o] →
      getOrder customers restaurants st cred1 id selectFails =
        ⟨200, .orderView
          { order := o,
            customer := customers.find? (fun c => c.id = o.customer_id),
            driver := st.drivers.find? (fun d => some d.id = o.driver_id),
            restaurant := restaurants.find? (fun r => r.id = o.restaurant_id),
            order_tracking := st.order_tracking.filter (fun e => e.order_id = id) },
          st, [], []⟩) ∧
    ((getOrder customers restaurants st cred1 id selectFails).code = 404 ↔
      (selectFails = true ∨ ¬ ∃ o, ordersById st id = [o])) ∧
    ((st.orders.map (fun o => o.id)).Nodup →
      ((getOrder customers restaurants st cred1 id selectFails).code = 404 ↔
        (selectFails = true ∨ ∀ o ∈ st.orders, o.id ≠ id))) ∧
    ((getOrder customers restaurants st cred1 id selectFails).code = 404 ∨
      (getOrder customers restaurants st cred1 id selectFails).code = 200) := by
  have h404 : (getOrder customers restaurants st cred1 id selectFails).code = 404 ↔
      (selectFails = true ∨ ¬ ∃ o, ordersById st id = [o]) := by
    unfold getOrder
    cases selectFails
    · simp only [Bool.false_eq_true, if_false, false_or]
      cases hrow : single (ordersById st id) with
      | none =>
        constructor
        · rintro - ⟨o, ho⟩
          rw [← single_eq_some] at ho
          rw [ho] at hrow
          cases hrow
        · intro _
          rfl
      | some o =>
        constructor
        · intro hc
          simp only [] at hc
          exact absurd hc (by decide)
        · intro hne
          exact absurd ⟨o, (single_eq_some _ _).mp hrow⟩ hne
    · simp only [if_true, true_or, iff_true]
      rfl
  refine ⟨rfl, ?_, h404, ?_, ?_⟩
  · intro o hs ho
    subst hs
    unfold getOrder
    simp only [Bool.false_eq_true, if_false, ho, single]
  · intro hnd
    rw [h404]
    apply or_congr Iff.rfl
    constructor
    · intro hne o ho hid
      rcases ordersById_of_nodup st.orders id hnd with hnil | ⟨x, hx⟩
      · have hmem : o ∈ st.orders.filter (fun o => o.id = id) :=
          List.mem_filter.mpr ⟨ho, by simpa using hid⟩
        rw [hnil] at hmem
        cases hmem
      · exact hne ⟨x, hx⟩
    · rintro hall ⟨o, ho⟩
      have hmem : o ∈ ordersById st id := by
        rw [ho]
        exact List.mem_singleton_self o
      unfold ordersById at hmem
      rw [List.mem_filter] at hmem
      exact hall o hmem.1 (by simpa using hmem.2)
  · unfold getOrder
    cases selectFails
    · simp only [Bool.false_eq_true, if_false]
      cases single (ordersById st id) with
      | none => left; rfl
      | some o => right; rfl
    · left
      rfl

/-- C30 on the store with order 1 assigned to driver 5: a request without a
token and a request with the token of user 9 get the same response, 200 with
the order, the customer Carl, driver 5, the restaurant and the one tracking
entry. -/
theorem c30_order_details_public_witness :
    getOrder sampleContacts sampleRestaurants (storeWithOrder "assigned") Credential.missing 1
        false =
      getOrder sampleContacts sampleRestaurants (storeWithOrder "assigned")
        (Credential.verified 9) 1 false ∧
    getOrder sampleContacts sampleRestaurants (storeWithOrder "assigned") Credential.missing 1
        false =
      ⟨200, .orderView
        { order := sampleOrder 1 (some 5) "assigned",
          customer := some ⟨7, "Carl", "555-0107"⟩,
          driver := some ⟨5, "KA-01", "busy"⟩,
          restaurant := some ⟨"r1", "Roma", "2 High St", "555-0100"⟩,
          order_tracking := [⟨1, "assigned", none, none, none⟩] },
        storeWithOrder "assigned", [], []⟩ :=
  have h := c30_order_details_public sampleContacts sampleRestaurants (storeWithOrder "assigned")
    Credential.missing (Credential.verified 9) 1 false
  ⟨h.1, h.2.1 (sampleOrder 1 (some 5) "assigned") rfl rfl⟩

end DeliveryTracking
